import Mathlib

/-!
# go-postgis: the EWKB codec

A shallow embedding of the package `postgis` (files `ewkb.go`, `helpers.go`,
`interfaces.go`, `point.go`, `linestring.go`) and theorems about it.

Conventions of the embedding:

* `uint32` values are natural numbers (below `2 ^ 32`), `int32` values are integers
  (between `-2 ^ 31` and `2 ^ 31 - 1`); conversions between the two are written out with
  an explicit `% 2 ^ 32`.
* a `float64` is represented by its IEEE-754 bit pattern (`math.Float64bits`), a natural
  number below `2 ^ 64`; `encoding/binary` moves floats through exactly this pattern.
* a byte is a `Fin 256`; a `bytes.Buffer` is the list of bytes written so far and an
  `io.Reader` over a `bytes.Reader` is the list of bytes not yet consumed.
* a method with a pointer receiver that mutates its receiver returns the new receiver.
* the memory of the machine is the parameter `mem` of every function that can reach the
  one `make` whose size comes from the wire, in `readElementsHelper`; see `makeGranted`.
  A theorem with the parameter `mem` holds whatever the memory is; a statement at a
  concrete input fixes it, and where it is 0 the runtime has room for nothing beyond the
  bytes of the stream.
-/

namespace Postgis

/-! ## Type codes (`ewkb.go`) -/

/-- One byte of a stream. -/
abbrev Byte := Fin 256

/-- Byte order marker of big-endian (XDR) streams. -/
def wkbXDR : Byte := 0

/-- Byte order marker of little-endian (NDR) streams. -/
def wkbNDR : Byte := 1

def WKBPoint : Nat := 1
def WKBLineString : Nat := 2
def WKBPolygon : Nat := 3
def WKBMultiPoint : Nat := 4
def WKBMultiLineString : Nat := 5
def WKBMultiPolygon : Nat := 6

def WKBZFlag : Nat := 0x80000000
def WKBMFlag : Nat := 0x40000000
def WKBSRIDFlag : Nat := 0x20000000

/-- The Go type `CoordinateType` is a named `int`. -/
abbrev CoordinateType := Int

def CoordXY : CoordinateType := 0
def CoordXYZ : CoordinateType := 1
def CoordXYM : CoordinateType := 2
def CoordXYZM : CoordinateType := 3

/-- Metadata unpacked from a type code. -/
structure GeometryInfo where
  BaseType : Nat
  CoordType : CoordinateType
  HasSRID : Bool
  deriving DecidableEq, Repr

/-- Unpacks a type code: `GetGeometryInfo` of `ewkb.go`. -/
def GetGeometryInfo (wkbType : Nat) : GeometryInfo :=
  let hasZ := (wkbType &&& WKBZFlag) != 0
  let hasM := (wkbType &&& WKBMFlag) != 0
  { BaseType := wkbType &&& 0x1FFFFFFF
    HasSRID := (wkbType &&& WKBSRIDFlag) != 0
    CoordType :=
      if hasZ && hasM then CoordXYZM
      else if hasZ then CoordXYZ
      else if hasM then CoordXYM
      else CoordXY }

/-- Packs a type code: `BuildWKBType` of `ewkb.go`. A `coordType` that is none of the
three listed cases leaves the word unchanged, as the Go `switch` without `default`. -/
def BuildWKBType (baseType : Nat) (coordType : CoordinateType) (hasSRID : Bool) : Nat :=
  let wkbType := baseType
  let wkbType :=
    if coordType = CoordXYZ then wkbType ||| WKBZFlag
    else if coordType = CoordXYM then wkbType ||| WKBMFlag
    else if coordType = CoordXYZM then wkbType ||| (WKBZFlag ||| WKBMFlag)
    else wkbType
  let wkbType := if hasSRID then wkbType ||| WKBSRIDFlag else wkbType
  wkbType

/-! ## The standard library as used by the package

`encoding/binary`, `io.ReadFull` over a `bytes.Reader`, `bytes.Buffer` and `encoding/hex`,
restricted to the calls the package makes. -/

/-- The bit pattern of a `float64` (`math.Float64bits`), below `2 ^ 64`. -/
abbrev Float64 := Nat

/-- A `bytes.Buffer`: the bytes written so far. -/
abbrev Buffer := List Byte

/-- An `io.Reader` backed by a `bytes.Reader`: the bytes not yet consumed. -/
abbrev Reader := List Byte

/-- The errors the package returns or passes on, and the mark of a call that does not
return. -/
inductive Error where
  /-- Is `io.EOF`: a read found no byte at all. -/
  | EOF
  /-- Is `io.ErrUnexpectedEOF`: a read found some but not all of its bytes. -/
  | ErrUnexpectedEOF
  /-- Is `binary.Read: invalid type T`: the destination has no fixed size. -/
  | binaryReadInvalidType (typeName : String)
  /-- Is `encoding/hex: invalid byte`. -/
  | InvalidByteError (b : Byte)
  /-- Is `encoding/hex: odd length hex string`. -/
  | ErrLength
  /-- Is `unsupported type: %T`, from `DecodeEWKB`. -/
  | unsupportedValueType (typeName : String)
  /-- Is `unsupported byte order`, from `ReadEWKB`. -/
  | unsupportedByteOrder
  /-- Is `geometry type %T does not support SRID but EWKB contains SRID`. -/
  | unexpectedSRID (typeName : String)
  /-- Is `geometry type %T does not implement CollectionGeometry interface`. -/
  | notCollectionGeometry (typeName : String)
  /-- Is `unsupported geometry type: %d`. -/
  | unsupportedGeometryType (baseType : Nat)
  /-- Is not an error value: it marks a call that did not return, because the process
  ended in it with the runtime's `fatal error: runtime: out of memory`, on a `make` that
  the runtime could not grant. -/
  | fatalOutOfMemory
  deriving DecidableEq, Repr

/-- The two implementations of `binary.ByteOrder`. -/
inductive ByteOrder where
  | LittleEndian
  | BigEndian
  deriving DecidableEq, Repr

/-- The Go conversion `byte(v)`: the low eight bits. -/
def byte (v : Nat) : Byte := ⟨v % 256, Nat.mod_lt _ (by decide)⟩

/-- The `n` low bytes of `v`, least significant first. -/
def leBytes : Nat → Nat → List Byte
  | 0, _ => []
  | n + 1, v => byte v :: leBytes n (v / 256)

/-- The number whose bytes, least significant first, are `bs`. -/
def leValue : List Byte → Nat
  | [] => 0
  | b :: bs => b.val + 256 * leValue bs

/-- Writes a `uint32` in the given order: `ByteOrder.PutUint32`. -/
def ByteOrder.PutUint32 (order : ByteOrder) (v : Nat) : List Byte :=
  match order with
  | .LittleEndian => leBytes 4 v
  | .BigEndian => (leBytes 4 v).reverse

/-- Reads a `uint32` from four bytes: `ByteOrder.Uint32`. -/
def ByteOrder.Uint32 (order : ByteOrder) (bs : List Byte) : Nat :=
  match order with
  | .LittleEndian => leValue bs
  | .BigEndian => leValue bs.reverse

/-- Writes a `uint64` in the given order: `ByteOrder.PutUint64`. -/
def ByteOrder.PutUint64 (order : ByteOrder) (v : Nat) : List Byte :=
  match order with
  | .LittleEndian => leBytes 8 v
  | .BigEndian => (leBytes 8 v).reverse

/-- Reads a `uint64` from eight bytes: `ByteOrder.Uint64`. -/
def ByteOrder.Uint64 (order : ByteOrder) (bs : List Byte) : Nat :=
  match order with
  | .LittleEndian => leValue bs
  | .BigEndian => leValue bs.reverse

/-- The Go conversion `uint32(v)` of an `int32`. -/
def uint32OfInt32 (v : Int) : Nat := (v % 2 ^ 32).toNat

/-- The Go conversion `int32(u)` of a `uint32`. -/
def int32OfUint32 (u : Nat) : Int := if u < 2 ^ 31 then (u : Int) else (u : Int) - 2 ^ 32

/-- Reads exactly `n` bytes, as `io.ReadFull` on a `bytes.Reader`: when fewer than `n`
bytes are left they are all consumed and the error is `io.EOF` if there was none,
`io.ErrUnexpectedEOF` otherwise. -/
def readFull (reader : Reader) (n : Nat) : Except Error (List Byte) × Reader :=
  if n ≤ reader.length then (.ok (reader.take n), reader.drop n)
  else if reader.length = 0 then (.error .EOF, [])
  else (.error .ErrUnexpectedEOF, [])

/-- Models `binary.Read(reader, order, &b)` for a `byte`. -/
def binaryReadUint8 (reader : Reader) : Except Error Byte × Reader :=
  match readFull reader 1 with
  | (.ok bs, reader) => (.ok (bs.headD 0), reader)
  | (.error e, reader) => (.error e, reader)

/-- Models `binary.Read(reader, order, &u)` for a `uint32`. -/
def binaryReadUint32 (reader : Reader) (order : ByteOrder) : Except Error Nat × Reader :=
  match readFull reader 4 with
  | (.ok bs, reader) => (.ok (order.Uint32 bs), reader)
  | (.error e, reader) => (.error e, reader)

/-- Models `binary.Read(reader, order, &i)` for an `int32`. -/
def binaryReadInt32 (reader : Reader) (order : ByteOrder) : Except Error Int × Reader :=
  match readFull reader 4 with
  | (.ok bs, reader) => (.ok (int32OfUint32 (order.Uint32 bs)), reader)
  | (.error e, reader) => (.error e, reader)

/-- Models `binary.Read(reader, order, &f)` for a `float64`. -/
def binaryReadFloat64 (reader : Reader) (order : ByteOrder) : Except Error Float64 × Reader :=
  match readFull reader 8 with
  | (.ok bs, reader) => (.ok (order.Uint64 bs), reader)
  | (.error e, reader) => (.error e, reader)

/-- Models `binary.Write(buffer, order, b)` for a `byte`; writing a fixed-size value to a
`bytes.Buffer` returns no error. -/
def binaryWriteUint8 (buffer : Buffer) (v : Byte) : Except Error Buffer :=
  .ok (buffer ++ [v])

/-- Models `binary.Write(buffer, order, u)` for a `uint32`. -/
def binaryWriteUint32 (buffer : Buffer) (order : ByteOrder) (v : Nat) : Except Error Buffer :=
  .ok (buffer ++ order.PutUint32 v)

/-- Models `binary.Write(buffer, order, i)` for an `int32`. -/
def binaryWriteInt32 (buffer : Buffer) (order : ByteOrder) (v : Int) : Except Error Buffer :=
  .ok (buffer ++ order.PutUint32 (uint32OfInt32 v))

/-- The bytes of consecutive `float64` fields, in order. -/
def putFloat64s (order : ByteOrder) : List Float64 → List Byte
  | [] => []
  | f :: fs => order.PutUint64 f ++ putFloat64s order fs

/-- The `i`-th `float64` field (from 0) of the bytes of a struct of `float64` fields. -/
def float64Field (order : ByteOrder) (bs : List Byte) (i : Nat) : Float64 :=
  order.Uint64 ((bs.drop (8 * i)).take 8)

/-- Models `binary.Write(buffer, order, &s)` for a struct `s` whose fields, in declaration
order, are the `float64` values `fields`. -/
def binaryWriteFloat64s (buffer : Buffer) (order : ByteOrder) (fields : List Float64) :
    Except Error Buffer :=
  .ok (buffer ++ putFloat64s order fields)

deriving instance DecidableEq for Except

/-- The result of a call that reads from a reader into a destination it may mutate: the
error returned (`none` for `nil`), the destination after the call and the reader after
the call. For a call in which the process ended, `err` is `Error.fatalOutOfMemory`, and
`dst` and `reader` are what they were at that point. -/
structure Outcome (α : Type) where
  err : Option Error
  dst : α
  reader : Reader
  deriving DecidableEq, Repr

/-! ## Points (`point.go`) -/

structure Point where
  X : Float64
  Y : Float64
  deriving DecidableEq, Repr

structure PointZ where
  X : Float64
  Y : Float64
  Z : Float64
  deriving DecidableEq, Repr

structure PointM where
  X : Float64
  Y : Float64
  M : Float64
  deriving DecidableEq, Repr

structure PointZM where
  X : Float64
  Y : Float64
  Z : Float64
  M : Float64
  deriving DecidableEq, Repr

structure PointS where
  SRID : Int
  X : Float64
  Y : Float64
  deriving DecidableEq, Repr

structure PointZS where
  SRID : Int
  X : Float64
  Y : Float64
  Z : Float64
  deriving DecidableEq, Repr

structure PointMS where
  SRID : Int
  X : Float64
  Y : Float64
  M : Float64
  deriving DecidableEq, Repr

structure PointZMS where
  SRID : Int
  X : Float64
  Y : Float64
  Z : Float64
  M : Float64
  deriving DecidableEq, Repr

def PointS.GetSRID (p : PointS) : Int := p.SRID
def PointS.SetSRID (p : PointS) (srid : Int) : PointS := { p with SRID := srid }

def PointZS.GetSRID (p : PointZS) : Int := p.SRID
def PointZS.SetSRID (p : PointZS) (srid : Int) : PointZS := { p with SRID := srid }

def PointMS.GetSRID (p : PointMS) : Int := p.SRID
def PointMS.SetSRID (p : PointMS) (srid : Int) : PointMS := { p with SRID := srid }

def PointZMS.GetSRID (p : PointZMS) : Int := p.SRID
def PointZMS.SetSRID (p : PointZMS) (srid : Int) : PointZMS := { p with SRID := srid }

/-- Reads `X` then `Y`, each with its own `binary.Read`; a field read before a failure
stays written. -/
def PointS.ReadPoint (p : PointS) (reader : Reader) (byteOrder : ByteOrder) : Outcome PointS :=
  match binaryReadFloat64 reader byteOrder with
  | (.error e, reader) => ⟨some e, p, reader⟩
  | (.ok x, reader) =>
    let p := { p with X := x }
    match binaryReadFloat64 reader byteOrder with
    | (.error e, reader) => ⟨some e, p, reader⟩
    | (.ok y, reader) => ⟨none, { p with Y := y }, reader⟩

def PointZS.ReadPoint (p : PointZS) (reader : Reader) (byteOrder : ByteOrder) :
    Outcome PointZS :=
  match binaryReadFloat64 reader byteOrder with
  | (.error e, reader) => ⟨some e, p, reader⟩
  | (.ok x, reader) =>
    let p := { p with X := x }
    match binaryReadFloat64 reader byteOrder with
    | (.error e, reader) => ⟨some e, p, reader⟩
    | (.ok y, reader) =>
      let p := { p with Y := y }
      match binaryReadFloat64 reader byteOrder with
      | (.error e, reader) => ⟨some e, p, reader⟩
      | (.ok z, reader) => ⟨none, { p with Z := z }, reader⟩

def PointMS.ReadPoint (p : PointMS) (reader : Reader) (byteOrder : ByteOrder) :
    Outcome PointMS :=
  match binaryReadFloat64 reader byteOrder with
  | (.error e, reader) => ⟨some e, p, reader⟩
  | (.ok x, reader) =>
    let p := { p with X := x }
    match binaryReadFloat64 reader byteOrder with
    | (.error e, reader) => ⟨some e, p, reader⟩
    | (.ok y, reader) =>
      let p := { p with Y := y }
      match binaryReadFloat64 reader byteOrder with
      | (.error e, reader) => ⟨some e, p, reader⟩
      | (.ok m, reader) => ⟨none, { p with M := m }, reader⟩

def PointZMS.ReadPoint (p : PointZMS) (reader : Reader) (byteOrder : ByteOrder) :
    Outcome PointZMS :=
  match binaryReadFloat64 reader byteOrder with
  | (.error e, reader) => ⟨some e, p, reader⟩
  | (.ok x, reader) =>
    let p := { p with X := x }
    match binaryReadFloat64 reader byteOrder with
    | (.error e, reader) => ⟨some e, p, reader⟩
    | (.ok y, reader) =>
      let p := { p with Y := y }
      match binaryReadFloat64 reader byteOrder with
      | (.error e, reader) => ⟨some e, p, reader⟩
      | (.ok z, reader) =>
        let p := { p with Z := z }
        match binaryReadFloat64 reader byteOrder with
        | (.error e, reader) => ⟨some e, p, reader⟩
        | (.ok m, reader) => ⟨none, { p with M := m }, reader⟩

def Point.Write (p : Point) (buffer : Buffer) : Except Error Buffer :=
  binaryWriteFloat64s buffer .LittleEndian [p.X, p.Y]

def Point.GetType (_p : Point) : Nat := BuildWKBType WKBPoint CoordXY false

def PointZ.Write (p : PointZ) (buffer : Buffer) : Except Error Buffer :=
  binaryWriteFloat64s buffer .LittleEndian [p.X, p.Y, p.Z]

def PointZ.GetType (_p : PointZ) : Nat := BuildWKBType WKBPoint CoordXYZ false

def PointM.Write (p : PointM) (buffer : Buffer) : Except Error Buffer :=
  binaryWriteFloat64s buffer .LittleEndian [p.X, p.Y, p.M]

def PointM.GetType (_p : PointM) : Nat := BuildWKBType WKBPoint CoordXYM false

def PointZM.Write (p : PointZM) (buffer : Buffer) : Except Error Buffer :=
  binaryWriteFloat64s buffer .LittleEndian [p.X, p.Y, p.Z, p.M]

def PointZM.GetType (_p : PointZM) : Nat := BuildWKBType WKBPoint CoordXYZM false

/-- Writes the coordinates only: the SRID is written by `WriteEWKB`. -/
def PointS.Write (p : PointS) (buffer : Buffer) : Except Error Buffer :=
  binaryWriteFloat64s buffer .LittleEndian [p.X, p.Y]

def PointS.GetType (_p : PointS) : Nat := BuildWKBType WKBPoint CoordXY true

def PointZS.Write (p : PointZS) (buffer : Buffer) : Except Error Buffer :=
  binaryWriteFloat64s buffer .LittleEndian [p.X, p.Y, p.Z]

def PointZS.GetType (_p : PointZS) : Nat := BuildWKBType WKBPoint CoordXYZ true

def PointMS.Write (p : PointMS) (buffer : Buffer) : Except Error Buffer :=
  binaryWriteFloat64s buffer .LittleEndian [p.X, p.Y, p.M]

def PointMS.GetType (_p : PointMS) : Nat := BuildWKBType WKBPoint CoordXYM true

def PointZMS.Write (p : PointZMS) (buffer : Buffer) : Except Error Buffer :=
  binaryWriteFloat64s buffer .LittleEndian [p.X, p.Y, p.Z, p.M]

def PointZMS.GetType (_p : PointZMS) : Nat := BuildWKBType WKBPoint CoordXYZM true

/-! ## `binary.Read` into the structs of the package

A struct of fixed size is read with one `io.ReadFull` of its whole size and decoded field
by field afterwards, so a failed read writes no field. -/

/-- Models `binary.Read(reader, order, &p)` for a `Point`. -/
def binaryReadPoint (reader : Reader) (order : ByteOrder) : Except Error Point × Reader :=
  match readFull reader 16 with
  | (.ok bs, reader) => (.ok { X := float64Field order bs 0, Y := float64Field order bs 1 }, reader)
  | (.error e, reader) => (.error e, reader)

/-- Models `binary.Read(reader, order, &p)` for a `PointZ`. -/
def binaryReadPointZ (reader : Reader) (order : ByteOrder) : Except Error PointZ × Reader :=
  match readFull reader 24 with
  | (.ok bs, reader) => (.ok { X := float64Field order bs 0, Y := float64Field order bs 1, Z := float64Field order bs 2 }, reader)
  | (.error e, reader) => (.error e, reader)

/-- Models `binary.Read(reader, order, &p)` for a `PointM`. -/
def binaryReadPointM (reader : Reader) (order : ByteOrder) : Except Error PointM × Reader :=
  match readFull reader 24 with
  | (.ok bs, reader) => (.ok { X := float64Field order bs 0, Y := float64Field order bs 1, M := float64Field order bs 2 }, reader)
  | (.error e, reader) => (.error e, reader)

/-- Models `binary.Read(reader, order, &p)` for a `PointZM`. -/
def binaryReadPointZM (reader : Reader) (order : ByteOrder) : Except Error PointZM × Reader :=
  match readFull reader 32 with
  | (.ok bs, reader) => (.ok { X := float64Field order bs 0, Y := float64Field order bs 1, Z := float64Field order bs 2, M := float64Field order bs 3 }, reader)
  | (.error e, reader) => (.error e, reader)

/-- Models `binary.Read(reader, order, &p)` for a `PointS`: the `int32` field `SRID` first. -/
def binaryReadPointS (reader : Reader) (order : ByteOrder) : Except Error PointS × Reader :=
  match readFull reader 20 with
  | (.ok bs, reader) =>
    (.ok { SRID := int32OfUint32 (order.Uint32 (bs.take 4)), X := float64Field order (bs.drop 4) 0, Y := float64Field order (bs.drop 4) 1 }, reader)
  | (.error e, reader) => (.error e, reader)

/-- Models `binary.Read(reader, order, &p)` for a `PointZS`: the `int32` field `SRID` first. -/
def binaryReadPointZS (reader : Reader) (order : ByteOrder) : Except Error PointZS × Reader :=
  match readFull reader 28 with
  | (.ok bs, reader) =>
    (.ok { SRID := int32OfUint32 (order.Uint32 (bs.take 4)), X := float64Field order (bs.drop 4) 0, Y := float64Field order (bs.drop 4) 1, Z := float64Field order (bs.drop 4) 2 }, reader)
  | (.error e, reader) => (.error e, reader)

/-- Models `binary.Read(reader, order, &p)` for a `PointMS`: the `int32` field `SRID` first. -/
def binaryReadPointMS (reader : Reader) (order : ByteOrder) : Except Error PointMS × Reader :=
  match readFull reader 28 with
  | (.ok bs, reader) =>
    (.ok { SRID := int32OfUint32 (order.Uint32 (bs.take 4)), X := float64Field order (bs.drop 4) 0, Y := float64Field order (bs.drop 4) 1, M := float64Field order (bs.drop 4) 2 }, reader)
  | (.error e, reader) => (.error e, reader)

/-- Models `binary.Read(reader, order, &p)` for a `PointZMS`: the `int32` field `SRID` first. -/
def binaryReadPointZMS (reader : Reader) (order : ByteOrder) : Except Error PointZMS × Reader :=
  match readFull reader 36 with
  | (.ok bs, reader) =>
    (.ok { SRID := int32OfUint32 (order.Uint32 (bs.take 4)), X := float64Field order (bs.drop 4) 0, Y := float64Field order (bs.drop 4) 1, Z := float64Field order (bs.drop 4) 2, M := float64Field order (bs.drop 4) 3 }, reader)
  | (.error e, reader) => (.error e, reader)

/-! ## Helpers (`helpers.go`) and line strings (`linestring.go`) -/

/-- Writes every point in order: `writeElementsHelper`; `write` is the method `Write` of
the element type. -/
def writeElementsHelper {T : Type} (write : T → Buffer → Except Error Buffer) :
    List T → Buffer → Except Error Buffer
  | [], buffer => .ok buffer
  | point :: points, buffer =>
    match write point buffer with
    | .error e => .error e
    | .ok buffer => writeElementsHelper write points buffer

/-- The answer of the runtime to `make([]T, count)` for an element type of `size` bytes:
`true` when the slice is granted. How much memory the machine has is not in the source;
it is the parameter `mem`. The model takes the runtime to have room for as many bytes as
the reader still holds (as it takes it to have room for the buffers of `encoding/hex` and
`bytes.Buffer`, which are no larger than the data at hand), and for `mem` bytes more. A
`make` that is not granted ends the process with `fatal error: runtime: out of memory`:
the caller gets no error value. -/
def makeGranted (mem : Nat) (reader : Reader) (size count : Nat) : Bool :=
  decide (count * size ≤ reader.length + mem)

/-- The loop of `readElementsHelper`: reads `count` elements in order into the slice;
`read` is `binary.Read` at the element type. On an error the slice is dropped. -/
def readElementsLoop {T : Type} (read : Reader → ByteOrder → Except Error T × Reader)
    (reader : Reader) (byteOrder : ByteOrder) : Nat → Except Error (List T) × Reader
  | 0 => (.ok [], reader)
  | count + 1 =>
    match read reader byteOrder with
    | (.error e, reader) => (.error e, reader)
    | (.ok point, reader) =>
      match readElementsLoop read reader byteOrder count with
      | (.error e, reader) => (.error e, reader)
      | (.ok points, reader) => (.ok (point :: points), reader)

/-- Reads `count` elements in order: `readElementsHelper`; `size` is the size in bytes of
the element type and `read` is `binary.Read` at that type. The slice of `count` elements
is made first, before any byte is read, with the count as it came from the wire: when
the runtime does not grant it the process ends there, marked `Error.fatalOutOfMemory`. -/
def readElementsHelper {T : Type} (mem size : Nat)
    (read : Reader → ByteOrder → Except Error T × Reader)
    (reader : Reader) (byteOrder : ByteOrder) (count : Nat) :
    Except Error (List T) × Reader :=
  if makeGranted mem reader size count then readElementsLoop read reader byteOrder count
  else (.error .fatalOutOfMemory, reader)

/-- Is `uint32(len(points))`: `getElementCountHelper`. -/
def getElementCountHelper {T : Type} (points : List T) : Nat := points.length % 2 ^ 32

/-- Writes the count, then the elements: `WriteGeometryCollection` of `ewkb.go`. -/
def WriteGeometryCollection (buffer : Buffer) (count : Nat)
    (writeElements : Buffer → Except Error Buffer) : Except Error Buffer :=
  match binaryWriteUint32 buffer .LittleEndian count with
  | .error e => .error e
  | .ok buffer => writeElements buffer

structure LineString where
  Points : List Point
  deriving DecidableEq, Repr

structure LineStringZ where
  Points : List PointZ
  deriving DecidableEq, Repr

structure LineStringM where
  Points : List PointM
  deriving DecidableEq, Repr

structure LineStringZM where
  Points : List PointZM
  deriving DecidableEq, Repr

structure LineStringS where
  SRID : Int
  Points : List Point
  deriving DecidableEq, Repr

structure LineStringZS where
  SRID : Int
  Points : List PointZ
  deriving DecidableEq, Repr

structure LineStringMS where
  SRID : Int
  Points : List PointM
  deriving DecidableEq, Repr

structure LineStringZMS where
  SRID : Int
  Points : List PointZM
  deriving DecidableEq, Repr

def LineStringS.GetSRID (ls : LineStringS) : Int := ls.SRID
def LineStringS.SetSRID (ls : LineStringS) (srid : Int) : LineStringS := { ls with SRID := srid }

def LineStringZS.GetSRID (ls : LineStringZS) : Int := ls.SRID
def LineStringZS.SetSRID (ls : LineStringZS) (srid : Int) : LineStringZS := { ls with SRID := srid }

def LineStringMS.GetSRID (ls : LineStringMS) : Int := ls.SRID
def LineStringMS.SetSRID (ls : LineStringMS) (srid : Int) : LineStringMS := { ls with SRID := srid }

def LineStringZMS.GetSRID (ls : LineStringZMS) : Int := ls.SRID
def LineStringZMS.SetSRID (ls : LineStringZMS) (srid : Int) : LineStringZMS := { ls with SRID := srid }

def LineString.GetElementCount (ls : LineString) : Nat := getElementCountHelper ls.Points

def LineStringZ.GetElementCount (ls : LineStringZ) : Nat := getElementCountHelper ls.Points

def LineStringM.GetElementCount (ls : LineStringM) : Nat := getElementCountHelper ls.Points

def LineStringZM.GetElementCount (ls : LineStringZM) : Nat := getElementCountHelper ls.Points

def LineStringS.GetElementCount (ls : LineStringS) : Nat := getElementCountHelper ls.Points

def LineStringZS.GetElementCount (ls : LineStringZS) : Nat := getElementCountHelper ls.Points

def LineStringMS.GetElementCount (ls : LineStringMS) : Nat := getElementCountHelper ls.Points

def LineStringZMS.GetElementCount (ls : LineStringZMS) : Nat := getElementCountHelper ls.Points

def LineString.WriteElements (ls : LineString) (buffer : Buffer) : Except Error Buffer :=
  writeElementsHelper Point.Write ls.Points buffer

def LineStringZ.WriteElements (ls : LineStringZ) (buffer : Buffer) : Except Error Buffer :=
  writeElementsHelper PointZ.Write ls.Points buffer

def LineStringM.WriteElements (ls : LineStringM) (buffer : Buffer) : Except Error Buffer :=
  writeElementsHelper PointM.Write ls.Points buffer

def LineStringZM.WriteElements (ls : LineStringZM) (buffer : Buffer) : Except Error Buffer :=
  writeElementsHelper PointZM.Write ls.Points buffer

def LineStringS.WriteElements (ls : LineStringS) (buffer : Buffer) : Except Error Buffer :=
  writeElementsHelper Point.Write ls.Points buffer

def LineStringZS.WriteElements (ls : LineStringZS) (buffer : Buffer) : Except Error Buffer :=
  writeElementsHelper PointZ.Write ls.Points buffer

def LineStringMS.WriteElements (ls : LineStringMS) (buffer : Buffer) : Except Error Buffer :=
  writeElementsHelper PointM.Write ls.Points buffer

def LineStringZMS.WriteElements (ls : LineStringZMS) (buffer : Buffer) : Except Error Buffer :=
  writeElementsHelper PointZM.Write ls.Points buffer

def LineString.ReadElements (mem : Nat) (ls : LineString) (reader : Reader) (byteOrder : ByteOrder)
    (count : Nat) : Outcome LineString :=
  match readElementsHelper mem 16 binaryReadPoint reader byteOrder count with
  | (.error e, reader) => ⟨some e, ls, reader⟩
  | (.ok points, reader) => ⟨none, { ls with Points := points }, reader⟩

def LineStringZ.ReadElements (mem : Nat) (ls : LineStringZ) (reader : Reader) (byteOrder : ByteOrder)
    (count : Nat) : Outcome LineStringZ :=
  match readElementsHelper mem 24 binaryReadPointZ reader byteOrder count with
  | (.error e, reader) => ⟨some e, ls, reader⟩
  | (.ok points, reader) => ⟨none, { ls with Points := points }, reader⟩

def LineStringM.ReadElements (mem : Nat) (ls : LineStringM) (reader : Reader) (byteOrder : ByteOrder)
    (count : Nat) : Outcome LineStringM :=
  match readElementsHelper mem 24 binaryReadPointM reader byteOrder count with
  | (.error e, reader) => ⟨some e, ls, reader⟩
  | (.ok points, reader) => ⟨none, { ls with Points := points }, reader⟩

def LineStringZM.ReadElements (mem : Nat) (ls : LineStringZM) (reader : Reader) (byteOrder : ByteOrder)
    (count : Nat) : Outcome LineStringZM :=
  match readElementsHelper mem 32 binaryReadPointZM reader byteOrder count with
  | (.error e, reader) => ⟨some e, ls, reader⟩
  | (.ok points, reader) => ⟨none, { ls with Points := points }, reader⟩

def LineStringS.ReadElements (mem : Nat) (ls : LineStringS) (reader : Reader) (byteOrder : ByteOrder)
    (count : Nat) : Outcome LineStringS :=
  match readElementsHelper mem 16 binaryReadPoint reader byteOrder count with
  | (.error e, reader) => ⟨some e, ls, reader⟩
  | (.ok points, reader) => ⟨none, { ls with Points := points }, reader⟩

def LineStringZS.ReadElements (mem : Nat) (ls : LineStringZS) (reader : Reader) (byteOrder : ByteOrder)
    (count : Nat) : Outcome LineStringZS :=
  match readElementsHelper mem 24 binaryReadPointZ reader byteOrder count with
  | (.error e, reader) => ⟨some e, ls, reader⟩
  | (.ok points, reader) => ⟨none, { ls with Points := points }, reader⟩

def LineStringMS.ReadElements (mem : Nat) (ls : LineStringMS) (reader : Reader) (byteOrder : ByteOrder)
    (count : Nat) : Outcome LineStringMS :=
  match readElementsHelper mem 24 binaryReadPointM reader byteOrder count with
  | (.error e, reader) => ⟨some e, ls, reader⟩
  | (.ok points, reader) => ⟨none, { ls with Points := points }, reader⟩

def LineStringZMS.ReadElements (mem : Nat) (ls : LineStringZMS) (reader : Reader) (byteOrder : ByteOrder)
    (count : Nat) : Outcome LineStringZMS :=
  match readElementsHelper mem 32 binaryReadPointZM reader byteOrder count with
  | (.error e, reader) => ⟨some e, ls, reader⟩
  | (.ok points, reader) => ⟨none, { ls with Points := points }, reader⟩

def LineString.Write (ls : LineString) (buffer : Buffer) : Except Error Buffer :=
  WriteGeometryCollection buffer ls.GetElementCount (fun buf => ls.WriteElements buf)

def LineString.GetType (_ls : LineString) : Nat := BuildWKBType WKBLineString CoordXY false

def LineStringZ.Write (ls : LineStringZ) (buffer : Buffer) : Except Error Buffer :=
  WriteGeometryCollection buffer ls.GetElementCount (fun buf => ls.WriteElements buf)

def LineStringZ.GetType (_ls : LineStringZ) : Nat := BuildWKBType WKBLineString CoordXYZ false

def LineStringM.Write (ls : LineStringM) (buffer : Buffer) : Except Error Buffer :=
  WriteGeometryCollection buffer ls.GetElementCount (fun buf => ls.WriteElements buf)

def LineStringM.GetType (_ls : LineStringM) : Nat := BuildWKBType WKBLineString CoordXYM false

def LineStringZM.Write (ls : LineStringZM) (buffer : Buffer) : Except Error Buffer :=
  WriteGeometryCollection buffer ls.GetElementCount (fun buf => ls.WriteElements buf)

def LineStringZM.GetType (_ls : LineStringZM) : Nat := BuildWKBType WKBLineString CoordXYZM false

def LineStringS.Write (ls : LineStringS) (buffer : Buffer) : Except Error Buffer :=
  WriteGeometryCollection buffer ls.GetElementCount (fun buf => ls.WriteElements buf)

def LineStringS.GetType (_ls : LineStringS) : Nat := BuildWKBType WKBLineString CoordXY true

def LineStringZS.Write (ls : LineStringZS) (buffer : Buffer) : Except Error Buffer :=
  WriteGeometryCollection buffer ls.GetElementCount (fun buf => ls.WriteElements buf)

def LineStringZS.GetType (_ls : LineStringZS) : Nat := BuildWKBType WKBLineString CoordXYZ true

def LineStringMS.Write (ls : LineStringMS) (buffer : Buffer) : Except Error Buffer :=
  WriteGeometryCollection buffer ls.GetElementCount (fun buf => ls.WriteElements buf)

def LineStringMS.GetType (_ls : LineStringMS) : Nat := BuildWKBType WKBLineString CoordXYM true

def LineStringZMS.Write (ls : LineStringZMS) (buffer : Buffer) : Except Error Buffer :=
  WriteGeometryCollection buffer ls.GetElementCount (fun buf => ls.WriteElements buf)

def LineStringZMS.GetType (_ls : LineStringZMS) : Nat := BuildWKBType WKBLineString CoordXYZM true

/-! ## The interfaces (`interfaces.go`)

A value of the interface `Geometry` is a pointer to one of the sixteen structs: `Scan` has
a pointer receiver in every one of them, so only the pointer types implement it. -/

/-- A `Geometry`: the struct behind the pointer, tagged with its dynamic type. -/
inductive Geometry where
  | point (p : Point)
  | pointZ (p : PointZ)
  | pointM (p : PointM)
  | pointZM (p : PointZM)
  | pointS (p : PointS)
  | pointZS (p : PointZS)
  | pointMS (p : PointMS)
  | pointZMS (p : PointZMS)
  | lineString (ls : LineString)
  | lineStringZ (ls : LineStringZ)
  | lineStringM (ls : LineStringM)
  | lineStringZM (ls : LineStringZM)
  | lineStringS (ls : LineStringS)
  | lineStringZS (ls : LineStringZS)
  | lineStringMS (ls : LineStringMS)
  | lineStringZMS (ls : LineStringZMS)
  deriving DecidableEq, Repr

/-- The dynamic type as `%T` prints it. -/
def Geometry.typeName : Geometry → String
  | .point _ => "*postgis.Point"
  | .pointZ _ => "*postgis.PointZ"
  | .pointM _ => "*postgis.PointM"
  | .pointZM _ => "*postgis.PointZM"
  | .pointS _ => "*postgis.PointS"
  | .pointZS _ => "*postgis.PointZS"
  | .pointMS _ => "*postgis.PointMS"
  | .pointZMS _ => "*postgis.PointZMS"
  | .lineString _ => "*postgis.LineString"
  | .lineStringZ _ => "*postgis.LineStringZ"
  | .lineStringM _ => "*postgis.LineStringM"
  | .lineStringZM _ => "*postgis.LineStringZM"
  | .lineStringS _ => "*postgis.LineStringS"
  | .lineStringZS _ => "*postgis.LineStringZS"
  | .lineStringMS _ => "*postgis.LineStringMS"
  | .lineStringZMS _ => "*postgis.LineStringZMS"

/-- The method `GetType` through the interface. -/
def Geometry.GetType : Geometry → Nat
  | .point p => p.GetType
  | .pointZ p => p.GetType
  | .pointM p => p.GetType
  | .pointZM p => p.GetType
  | .pointS p => p.GetType
  | .pointZS p => p.GetType
  | .pointMS p => p.GetType
  | .pointZMS p => p.GetType
  | .lineString ls => ls.GetType
  | .lineStringZ ls => ls.GetType
  | .lineStringM ls => ls.GetType
  | .lineStringZM ls => ls.GetType
  | .lineStringS ls => ls.GetType
  | .lineStringZS ls => ls.GetType
  | .lineStringMS ls => ls.GetType
  | .lineStringZMS ls => ls.GetType

/-- The method `Write` through the interface. -/
def Geometry.Write : Geometry → Buffer → Except Error Buffer
  | .point p => p.Write
  | .pointZ p => p.Write
  | .pointM p => p.Write
  | .pointZM p => p.Write
  | .pointS p => p.Write
  | .pointZS p => p.Write
  | .pointMS p => p.Write
  | .pointZMS p => p.Write
  | .lineString ls => ls.Write
  | .lineStringZ ls => ls.Write
  | .lineStringM ls => ls.Write
  | .lineStringZM ls => ls.Write
  | .lineStringS ls => ls.Write
  | .lineStringZS ls => ls.Write
  | .lineStringMS ls => ls.Write
  | .lineStringZMS ls => ls.Write

/-- An `SRIDGeometry`: the two methods bound to their receiver. -/
structure SRIDGeometry where
  GetSRID : Int
  SetSRID : Int → Geometry

/-- A `PointReader`: the method bound to its receiver. -/
structure PointReader where
  ReadPoint : Reader → ByteOrder → Outcome Geometry

/-- A `CollectionGeometry`: the three methods bound to their receiver. -/
structure CollectionGeometry where
  GetElementCount : Nat
  WriteElements : Buffer → Except Error Buffer
  ReadElements : Reader → ByteOrder → Nat → Outcome Geometry

/-- Retags the destination of an outcome. -/
def Outcome.map {α β : Type} (f : α → β) (o : Outcome α) : Outcome β :=
  ⟨o.err, f o.dst, o.reader⟩

/-- The type assertion `g.(SRIDGeometry)`: it holds for the eight types with the methods
`GetSRID` and `SetSRID`. -/
def Geometry.asSRIDGeometry : Geometry → Option SRIDGeometry
  | .pointS p => some ⟨p.GetSRID, fun srid => .pointS (p.SetSRID srid)⟩
  | .pointZS p => some ⟨p.GetSRID, fun srid => .pointZS (p.SetSRID srid)⟩
  | .pointMS p => some ⟨p.GetSRID, fun srid => .pointMS (p.SetSRID srid)⟩
  | .pointZMS p => some ⟨p.GetSRID, fun srid => .pointZMS (p.SetSRID srid)⟩
  | .lineStringS ls => some ⟨ls.GetSRID, fun srid => .lineStringS (ls.SetSRID srid)⟩
  | .lineStringZS ls => some ⟨ls.GetSRID, fun srid => .lineStringZS (ls.SetSRID srid)⟩
  | .lineStringMS ls => some ⟨ls.GetSRID, fun srid => .lineStringMS (ls.SetSRID srid)⟩
  | .lineStringZMS ls => some ⟨ls.GetSRID, fun srid => .lineStringZMS (ls.SetSRID srid)⟩
  | _ => none

/-- The type assertion `g.(PointReader)`: it holds for the four types with the method
`ReadPoint`. -/
def Geometry.asPointReader : Geometry → Option PointReader
  | .pointS p => some ⟨fun reader byteOrder => (p.ReadPoint reader byteOrder).map .pointS⟩
  | .pointZS p => some ⟨fun reader byteOrder => (p.ReadPoint reader byteOrder).map .pointZS⟩
  | .pointMS p => some ⟨fun reader byteOrder => (p.ReadPoint reader byteOrder).map .pointMS⟩
  | .pointZMS p => some ⟨fun reader byteOrder => (p.ReadPoint reader byteOrder).map .pointZMS⟩
  | _ => none

/-- The type assertion `g.(CollectionGeometry)`: it holds for the eight line string
types. -/
def Geometry.asCollectionGeometry (mem : Nat) : Geometry → Option CollectionGeometry
  | .lineString ls =>
    some ⟨ls.GetElementCount, ls.WriteElements,
      fun reader byteOrder count => (ls.ReadElements mem reader byteOrder count).map .lineString⟩
  | .lineStringZ ls =>
    some ⟨ls.GetElementCount, ls.WriteElements,
      fun reader byteOrder count => (ls.ReadElements mem reader byteOrder count).map .lineStringZ⟩
  | .lineStringM ls =>
    some ⟨ls.GetElementCount, ls.WriteElements,
      fun reader byteOrder count => (ls.ReadElements mem reader byteOrder count).map .lineStringM⟩
  | .lineStringZM ls =>
    some ⟨ls.GetElementCount, ls.WriteElements,
      fun reader byteOrder count => (ls.ReadElements mem reader byteOrder count).map .lineStringZM⟩
  | .lineStringS ls =>
    some ⟨ls.GetElementCount, ls.WriteElements,
      fun reader byteOrder count => (ls.ReadElements mem reader byteOrder count).map .lineStringS⟩
  | .lineStringZS ls =>
    some ⟨ls.GetElementCount, ls.WriteElements,
      fun reader byteOrder count => (ls.ReadElements mem reader byteOrder count).map .lineStringZS⟩
  | .lineStringMS ls =>
    some ⟨ls.GetElementCount, ls.WriteElements,
      fun reader byteOrder count => (ls.ReadElements mem reader byteOrder count).map .lineStringMS⟩
  | .lineStringZMS ls =>
    some ⟨ls.GetElementCount, ls.WriteElements,
      fun reader byteOrder count => (ls.ReadElements mem reader byteOrder count).map .lineStringZMS⟩
  | _ => none

/-- Lifts a `binary.Read` of a whole struct to the destination behind the pointer. -/
def readInto {α : Type} (tag : α → Geometry) (g : Geometry) :
    Except Error α × Reader → Outcome Geometry
  | (.ok v, reader) => ⟨none, tag v, reader⟩
  | (.error e, reader) => ⟨some e, g, reader⟩

/-- Models `binary.Read(reader, byteOrder, g)` for a `Geometry`: the point structs have a
fixed size; the line string structs hold a slice, for which `binary.Read` returns its
invalid-type error before it reads anything. -/
def binaryReadGeometry (reader : Reader) (byteOrder : ByteOrder) (g : Geometry) :
    Outcome Geometry :=
  match g with
  | .point _ => readInto .point g (binaryReadPoint reader byteOrder)
  | .pointZ _ => readInto .pointZ g (binaryReadPointZ reader byteOrder)
  | .pointM _ => readInto .pointM g (binaryReadPointM reader byteOrder)
  | .pointZM _ => readInto .pointZM g (binaryReadPointZM reader byteOrder)
  | .pointS _ => readInto .pointS g (binaryReadPointS reader byteOrder)
  | .pointZS _ => readInto .pointZS g (binaryReadPointZS reader byteOrder)
  | .pointMS _ => readInto .pointMS g (binaryReadPointMS reader byteOrder)
  | .pointZMS _ => readInto .pointZMS g (binaryReadPointZMS reader byteOrder)
  | _ => ⟨some (.binaryReadInvalidType g.typeName), g, reader⟩

/-! ## Framing (`ewkb.go`) -/

/-- Reads the body of a geometry: `ReadGeometryData`. -/
def ReadGeometryData (mem : Nat) (reader : Reader) (byteOrder : ByteOrder) (g : Geometry)
    (info : GeometryInfo) : Outcome Geometry :=
  if info.BaseType = WKBPoint then
    match g.asPointReader with
    | some pointReader => pointReader.ReadPoint reader byteOrder
    | none => binaryReadGeometry reader byteOrder g
  else if info.BaseType = WKBLineString then
    match g.asCollectionGeometry mem with
    | some collGeom =>
      match binaryReadUint32 reader byteOrder with
      | (.error e, reader) => ⟨some e, g, reader⟩
      | (.ok count, reader) => collGeom.ReadElements reader byteOrder count
    | none => ⟨some (.notCollectionGeometry g.typeName), g, reader⟩
  else ⟨some (.unsupportedGeometryType info.BaseType), g, reader⟩

/-- Reads a geometry from EWKB: `ReadEWKB`. -/
def ReadEWKB (mem : Nat) (reader : Reader) (g : Geometry) : Outcome Geometry :=
  match binaryReadUint8 reader with
  | (.error e, reader) => ⟨some e, g, reader⟩
  | (.ok wkbByteOrder, reader) =>
    let order : Option ByteOrder :=
      if wkbByteOrder = wkbXDR then some .BigEndian
      else if wkbByteOrder = wkbNDR then some .LittleEndian
      else none
    match order with
    | none => ⟨some .unsupportedByteOrder, g, reader⟩
    | some byteOrder =>
      match binaryReadUint32 reader byteOrder with
      | (.error e, reader) => ⟨some e, g, reader⟩
      | (.ok wkbType, reader) =>
        let info := GetGeometryInfo wkbType
        if info.HasSRID then
          match g.asSRIDGeometry with
          | some sridGeom =>
            match binaryReadInt32 reader byteOrder with
            | (.error e, reader) => ⟨some e, g, reader⟩
            | (.ok srid, reader) =>
              ReadGeometryData mem reader byteOrder (sridGeom.SetSRID srid) info
          | none => ⟨some (.unexpectedSRID g.typeName), g, reader⟩
        else ReadGeometryData mem reader byteOrder g info

/-- Writes a geometry as EWKB into a new buffer: `WriteEWKB`. -/
def WriteEWKB (g : Geometry) : Except Error Buffer :=
  let buffer : Buffer := []
  match binaryWriteUint8 buffer wkbNDR with
  | .error e => .error e
  | .ok buffer =>
    match binaryWriteUint32 buffer .LittleEndian g.GetType with
    | .error e => .error e
    | .ok buffer =>
      let written : Except Error Buffer :=
        match g.asSRIDGeometry with
        | some sridGeom => binaryWriteInt32 buffer .LittleEndian sridGeom.GetSRID
        | none => .ok buffer
      match written with
      | .error e => .error e
      | .ok buffer => g.Write buffer

/-! ## Hex transport (`encoding/hex`, `DecodeEWKB`, `EncodeEWKB`) -/

/-- A Go `string`: its bytes. -/
abbrev GoString := List Byte

/-- Is `hextable[n]`, the table being `0123456789abcdef`. -/
def hexDigit (n : Nat) : Byte := if n < 10 then byte (48 + n) else byte (87 + n)

/-- Models `hex.EncodeToString`: two lower-case digits per byte, high nibble first. -/
def hexEncodeToString : List Byte → GoString
  | [] => []
  | v :: vs => hexDigit (v.val >>> 4) :: hexDigit (v.val &&& 0x0f) :: hexEncodeToString vs

/-- The value of a hex digit of either case, `none` for any other byte. -/
def fromHexChar (c : Byte) : Option Nat :=
  if 48 ≤ c.val ∧ c.val ≤ 57 then some (c.val - 48)
  else if 97 ≤ c.val ∧ c.val ≤ 102 then some (c.val - 97 + 10)
  else if 65 ≤ c.val ∧ c.val ≤ 70 then some (c.val - 65 + 10)
  else none

/-- Models `hex.DecodeString`, its error only (the package drops the bytes decoded before
an error): pairs are decoded from the left; the first invalid byte is reported, and an odd
length is reported when every byte is valid. -/
def hexDecodeString : GoString → Except Error (List Byte)
  | [] => .ok []
  | [p] =>
    match fromHexChar p with
    | none => .error (.InvalidByteError p)
    | some _ => .error .ErrLength
  | p :: q :: rest =>
    match fromHexChar p with
    | none => .error (.InvalidByteError p)
    | some a =>
      match fromHexChar q with
      | none => .error (.InvalidByteError q)
      | some b =>
        match hexDecodeString rest with
        | .error e => .error e
        | .ok bs => .ok (byte (a <<< 4 ||| b) :: bs)

/-- A value crossing the database boundary (`interface{}`, `driver.Value`): a `string`, a
`[]byte`, or a value of another dynamic type, of which only the name is kept. -/
inductive Value where
  | string (s : GoString)
  | bytes (b : List Byte)
  | other (typeName : String)
  deriving DecidableEq, Repr

/-- Decodes the hex transport encoding into a reader over the raw bytes: `DecodeEWKB`. -/
def DecodeEWKB (value : Value) : Except Error Reader :=
  match value with
  | .string v =>
    match hexDecodeString v with
    | .error e => .error e
    | .ok ewkb => .ok ewkb
  | .bytes v =>
    match hexDecodeString v with
    | .error e => .error e
    | .ok ewkb => .ok ewkb
  | .other typeName => .error (.unsupportedValueType typeName)

/-- Encodes a buffer as a hex string: `EncodeEWKB`. -/
def EncodeEWKB (buffer : Buffer) : GoString := hexEncodeToString buffer

/-- The common body of every `Scan`: `scanGeometryHelper`. Returns the error and the
destination after the call. -/
def scanGeometryHelper (mem : Nat) (g : Geometry) (value : Value) :
    Option Error × Geometry :=
  match DecodeEWKB value with
  | .error e => (some e, g)
  | .ok reader => ((ReadEWKB mem reader g).err, (ReadEWKB mem reader g).dst)

/-- The common body of every `Value`: `valueGeometryHelper`. -/
def valueGeometryHelper (g : Geometry) : Except Error Value :=
  match WriteEWKB g with
  | .error e => .error e
  | .ok buffer => .ok (.string (EncodeEWKB buffer))

/-- The method `Scan`: in each of the sixteen types it is `scanGeometryHelper(p, value)`. -/
def Geometry.Scan (mem : Nat) (g : Geometry) (value : Value) : Option Error × Geometry :=
  scanGeometryHelper mem g value

/-- The method `Value`: in each of the sixteen types it is `valueGeometryHelper(&p)`. -/
def Geometry.Value (g : Geometry) : Except Error Value :=
  valueGeometryHelper g

/-! ## Vocabulary of the statements -/

/-- A fresh destination (`var g2 T`) of the dynamic type of `g`: every field is zero, the
slice is empty. -/
def Geometry.fresh : Geometry → Geometry
  | .point _ => .point ⟨0, 0⟩
  | .pointZ _ => .pointZ ⟨0, 0, 0⟩
  | .pointM _ => .pointM ⟨0, 0, 0⟩
  | .pointZM _ => .pointZM ⟨0, 0, 0, 0⟩
  | .pointS _ => .pointS ⟨0, 0, 0⟩
  | .pointZS _ => .pointZS ⟨0, 0, 0, 0⟩
  | .pointMS _ => .pointMS ⟨0, 0, 0, 0⟩
  | .pointZMS _ => .pointZMS ⟨0, 0, 0, 0, 0⟩
  | .lineString _ => .lineString ⟨[]⟩
  | .lineStringZ _ => .lineStringZ ⟨[]⟩
  | .lineStringM _ => .lineStringM ⟨[]⟩
  | .lineStringZM _ => .lineStringZM ⟨[]⟩
  | .lineStringS _ => .lineStringS ⟨0, []⟩
  | .lineStringZS _ => .lineStringZS ⟨0, []⟩
  | .lineStringMS _ => .lineStringMS ⟨0, []⟩
  | .lineStringZMS _ => .lineStringZMS ⟨0, []⟩

/-- Whether the type is one of the eight point types. -/
def Geometry.isPoint : Geometry → Bool
  | .point _ => true
  | .pointZ _ => true
  | .pointM _ => true
  | .pointZM _ => true
  | .pointS _ => true
  | .pointZS _ => true
  | .pointMS _ => true
  | .pointZMS _ => true
  | _ => false

/-- Whether the type is one of the eight line string types. -/
def Geometry.isLineString (g : Geometry) : Bool := !g.isPoint

/-- Whether the type has the field `SRID`. -/
def Geometry.hasSRID : Geometry → Bool
  | .pointS _ => true
  | .pointZS _ => true
  | .pointMS _ => true
  | .pointZMS _ => true
  | .lineStringS _ => true
  | .lineStringZS _ => true
  | .lineStringMS _ => true
  | .lineStringZMS _ => true
  | _ => false

/-- The length of `Points`, for a line string; 1 for a point. -/
def Geometry.numPoints : Geometry → Nat
  | .lineString ls => ls.Points.length
  | .lineStringZ ls => ls.Points.length
  | .lineStringM ls => ls.Points.length
  | .lineStringZM ls => ls.Points.length
  | .lineStringS ls => ls.Points.length
  | .lineStringZS ls => ls.Points.length
  | .lineStringMS ls => ls.Points.length
  | .lineStringZMS ls => ls.Points.length
  | _ => 1

/-- The number of `float64` fields of one coordinate tuple: 2, 3, 3 or 4. -/
def Geometry.dimension : Geometry → Nat
  | .point _ => 2
  | .pointZ _ => 3
  | .pointM _ => 3
  | .pointZM _ => 4
  | .pointS _ => 2
  | .pointZS _ => 3
  | .pointMS _ => 3
  | .pointZMS _ => 4
  | .lineString _ => 2
  | .lineStringZ _ => 3
  | .lineStringM _ => 3
  | .lineStringZM _ => 4
  | .lineStringS _ => 2
  | .lineStringZS _ => 3
  | .lineStringMS _ => 3
  | .lineStringZMS _ => 4

/-- The marker byte that announces a byte order. -/
def ByteOrder.marker : ByteOrder → Byte
  | .LittleEndian => wkbNDR
  | .BigEndian => wkbXDR

/-- The coordinates of a `Point` in wire order. -/
def Point.fields (p : Point) : List Float64 := [p.X, p.Y]

/-- The coordinates of a `PointZ` in wire order. -/
def PointZ.fields (p : PointZ) : List Float64 := [p.X, p.Y, p.Z]

/-- The coordinates of a `PointM` in wire order. -/
def PointM.fields (p : PointM) : List Float64 := [p.X, p.Y, p.M]

/-- The coordinates of a `PointZM` in wire order. -/
def PointZM.fields (p : PointZM) : List Float64 := [p.X, p.Y, p.Z, p.M]

/-- The concatenation, in list order, of the encodings of the elements. -/
def encodeElements {T : Type} (enc : T → List Byte) : List T → List Byte
  | [] => []
  | p :: ps => enc p ++ encodeElements enc ps

/-- The wire body of a geometry in a byte order: the coordinates of a point; the count
and then the coordinates of every point, in order, of a line string. -/
def Geometry.body (order : ByteOrder) : Geometry → List Byte
  | .point p => putFloat64s order [p.X, p.Y]
  | .pointZ p => putFloat64s order [p.X, p.Y, p.Z]
  | .pointM p => putFloat64s order [p.X, p.Y, p.M]
  | .pointZM p => putFloat64s order [p.X, p.Y, p.Z, p.M]
  | .pointS p => putFloat64s order [p.X, p.Y]
  | .pointZS p => putFloat64s order [p.X, p.Y, p.Z]
  | .pointMS p => putFloat64s order [p.X, p.Y, p.M]
  | .pointZMS p => putFloat64s order [p.X, p.Y, p.Z, p.M]
  | .lineString ls =>
    order.PutUint32 ls.Points.length
      ++ encodeElements (fun p => putFloat64s order p.fields) ls.Points
  | .lineStringZ ls =>
    order.PutUint32 ls.Points.length
      ++ encodeElements (fun p => putFloat64s order p.fields) ls.Points
  | .lineStringM ls =>
    order.PutUint32 ls.Points.length
      ++ encodeElements (fun p => putFloat64s order p.fields) ls.Points
  | .lineStringZM ls =>
    order.PutUint32 ls.Points.length
      ++ encodeElements (fun p => putFloat64s order p.fields) ls.Points
  | .lineStringS ls =>
    order.PutUint32 ls.Points.length
      ++ encodeElements (fun p => putFloat64s order p.fields) ls.Points
  | .lineStringZS ls =>
    order.PutUint32 ls.Points.length
      ++ encodeElements (fun p => putFloat64s order p.fields) ls.Points
  | .lineStringMS ls =>
    order.PutUint32 ls.Points.length
      ++ encodeElements (fun p => putFloat64s order p.fields) ls.Points
  | .lineStringZMS ls =>
    order.PutUint32 ls.Points.length
      ++ encodeElements (fun p => putFloat64s order p.fields) ls.Points

/-- The SRID field of the value, if its type has one. -/
def Geometry.SRID? : Geometry → Option Int
  | .pointS p => some p.SRID
  | .pointZS p => some p.SRID
  | .pointMS p => some p.SRID
  | .pointZMS p => some p.SRID
  | .lineStringS ls => some ls.SRID
  | .lineStringZS ls => some ls.SRID
  | .lineStringMS ls => some ls.SRID
  | .lineStringZMS ls => some ls.SRID
  | _ => none

/-- The wire bytes of the SRID in a byte order; empty for a type without the field. -/
def Geometry.sridBytes (order : ByteOrder) (g : Geometry) : List Byte :=
  match g.SRID? with
  | some srid => order.PutUint32 (uint32OfInt32 srid)
  | none => []

/-- The EWKB encoding of a geometry in a byte order: marker, type code, SRID if the type
has one, body. -/
def Geometry.wire (order : ByteOrder) (g : Geometry) : List Byte :=
  order.marker :: (order.PutUint32 g.GetType ++ (g.sridBytes order ++ g.body order))

/-- The dimensionality of the type. -/
def Geometry.coordType : Geometry → CoordinateType
  | .point _ => CoordXY
  | .pointZ _ => CoordXYZ
  | .pointM _ => CoordXYM
  | .pointZM _ => CoordXYZM
  | .pointS _ => CoordXY
  | .pointZS _ => CoordXYZ
  | .pointMS _ => CoordXYM
  | .pointZMS _ => CoordXYZM
  | .lineString _ => CoordXY
  | .lineStringZ _ => CoordXYZ
  | .lineStringM _ => CoordXYM
  | .lineStringZM _ => CoordXYZM
  | .lineStringS _ => CoordXY
  | .lineStringZS _ => CoordXYZ
  | .lineStringMS _ => CoordXYM
  | .lineStringZMS _ => CoordXYZM

/-- The three flag bits that `BuildWKBType` sets, as a number between 0 and 7: 4 for Z,
2 for M, 1 for SRID. -/
def flagBits (coordType : CoordinateType) (hasSRID : Bool) : Nat :=
  (if coordType = CoordXYZ ∨ coordType = CoordXYZM then 4 else 0)
    + (if coordType = CoordXYM ∨ coordType = CoordXYZM then 2 else 0)
    + (if hasSRID then 1 else 0)

/-- A natural number that is a `float64` bit pattern. -/
def isFloat64 (x : Float64) : Prop := x < 2 ^ 64

/-- An integer that is an `int32`. -/
def isInt32 (i : Int) : Prop := -2 ^ 31 ≤ i ∧ i < 2 ^ 31

instance (x : Float64) : Decidable (isFloat64 x) := by
  unfold isFloat64
  infer_instance

instance (i : Int) : Decidable (isInt32 i) := by
  unfold isInt32
  infer_instance

/-- Every field of the `Point` is a `float64`. -/
def Point.valid (p : Point) : Prop := isFloat64 p.X ∧ isFloat64 p.Y

instance (p : Point) : Decidable p.valid := by
  unfold Point.valid
  infer_instance

/-- Every field of the `PointZ` is a `float64`. -/
def PointZ.valid (p : PointZ) : Prop := isFloat64 p.X ∧ isFloat64 p.Y ∧ isFloat64 p.Z

instance (p : PointZ) : Decidable p.valid := by
  unfold PointZ.valid
  infer_instance

/-- Every field of the `PointM` is a `float64`. -/
def PointM.valid (p : PointM) : Prop := isFloat64 p.X ∧ isFloat64 p.Y ∧ isFloat64 p.M

instance (p : PointM) : Decidable p.valid := by
  unfold PointM.valid
  infer_instance

/-- Every field of the `PointZM` is a `float64`. -/
def PointZM.valid (p : PointZM) : Prop := isFloat64 p.X ∧ isFloat64 p.Y ∧ isFloat64 p.Z ∧ isFloat64 p.M

instance (p : PointZM) : Decidable p.valid := by
  unfold PointZM.valid
  infer_instance

/-- Every field of the value is a value of its Go type: each coordinate a `float64` bit
pattern, the SRID an `int32`. -/
def Geometry.valid : Geometry → Prop
  | .point p => isFloat64 p.X ∧ isFloat64 p.Y
  | .pointZ p => isFloat64 p.X ∧ isFloat64 p.Y ∧ isFloat64 p.Z
  | .pointM p => isFloat64 p.X ∧ isFloat64 p.Y ∧ isFloat64 p.M
  | .pointZM p => isFloat64 p.X ∧ isFloat64 p.Y ∧ isFloat64 p.Z ∧ isFloat64 p.M
  | .pointS p => isInt32 p.SRID ∧ isFloat64 p.X ∧ isFloat64 p.Y
  | .pointZS p => isInt32 p.SRID ∧ isFloat64 p.X ∧ isFloat64 p.Y ∧ isFloat64 p.Z
  | .pointMS p => isInt32 p.SRID ∧ isFloat64 p.X ∧ isFloat64 p.Y ∧ isFloat64 p.M
  | .pointZMS p => isInt32 p.SRID ∧ isFloat64 p.X ∧ isFloat64 p.Y ∧ isFloat64 p.Z ∧ isFloat64 p.M
  | .lineString ls => ∀ p ∈ ls.Points, p.valid
  | .lineStringZ ls => ∀ p ∈ ls.Points, p.valid
  | .lineStringM ls => ∀ p ∈ ls.Points, p.valid
  | .lineStringZM ls => ∀ p ∈ ls.Points, p.valid
  | .lineStringS ls => isInt32 ls.SRID ∧ ∀ p ∈ ls.Points, p.valid
  | .lineStringZS ls => isInt32 ls.SRID ∧ ∀ p ∈ ls.Points, p.valid
  | .lineStringMS ls => isInt32 ls.SRID ∧ ∀ p ∈ ls.Points, p.valid
  | .lineStringZMS ls => isInt32 ls.SRID ∧ ∀ p ∈ ls.Points, p.valid

instance (g : Geometry) : Decidable g.valid := by
  cases g <;> unfold Geometry.valid <;> infer_instance


/-! ## Vocabulary of the decoding statements -/

/-- The error kinds named by the specification, by cause: a broken transport encoding, a
marker byte that is neither 0 nor 1, an SRID on the wire that the destination cannot
hold, a base kind that is neither point nor line string or a destination without the
body capability the base kind requires, and a byte source exhausted in the middle of a
field. The last, `ProcessEnded`, is not a kind of the specification: it is the kind of
the mark `Error.fatalOutOfMemory`. -/
inductive ErrorKind where
  | MalformedTransportEncoding
  | UnsupportedByteOrder
  | UnexpectedSRID
  | UnsupportedGeometryType
  | Truncated
  | ProcessEnded
  deriving DecidableEq, Repr

/-- The kind of an error. The error of `binary.Read` for a destination without fixed size
arises exactly when a point body is to be read into a line string, a destination without
the fixed-body capability. -/
def Error.kind : Error → ErrorKind
  | .EOF => .Truncated
  | .ErrUnexpectedEOF => .Truncated
  | .binaryReadInvalidType _ => .UnsupportedGeometryType
  | .InvalidByteError _ => .MalformedTransportEncoding
  | .ErrLength => .MalformedTransportEncoding
  | .unsupportedValueType _ => .MalformedTransportEncoding
  | .unsupportedByteOrder => .UnsupportedByteOrder
  | .unexpectedSRID _ => .UnexpectedSRID
  | .notCollectionGeometry _ => .UnsupportedGeometryType
  | .unsupportedGeometryType _ => .UnsupportedGeometryType
  | .fatalOutOfMemory => .ProcessEnded

/-- The `float64` whose eight bytes start at offset `off` of the bytes `s`. -/
def wireFloat64 (order : ByteOrder) (s : List Byte) (off : Nat) : Float64 :=
  order.Uint64 ((s.drop off).take 8)

/-- The `Point` whose coordinates are the first 2 `float64` of the bytes `bs`. -/
def Point.decode (order : ByteOrder) (bs : List Byte) : Point :=
  { X := wireFloat64 order bs 0, Y := wireFloat64 order bs 8 }

/-- The `PointZ` whose coordinates are the first 3 `float64` of the bytes `bs`. -/
def PointZ.decode (order : ByteOrder) (bs : List Byte) : PointZ :=
  { X := wireFloat64 order bs 0, Y := wireFloat64 order bs 8, Z := wireFloat64 order bs 16 }

/-- The `PointM` whose coordinates are the first 3 `float64` of the bytes `bs`. -/
def PointM.decode (order : ByteOrder) (bs : List Byte) : PointM :=
  { X := wireFloat64 order bs 0, Y := wireFloat64 order bs 8, M := wireFloat64 order bs 16 }

/-- The `PointZM` whose coordinates are the first 4 `float64` of the bytes `bs`. -/
def PointZM.decode (order : ByteOrder) (bs : List Byte) : PointZM :=
  { X := wireFloat64 order bs 0, Y := wireFloat64 order bs 8, Z := wireFloat64 order bs 16, M := wireFloat64 order bs 24 }

/-- The `count` elements of `size` bytes each that the bytes `r` start with, in order. -/
def decodeElements {T : Type} (dec : List Byte → T) (size : Nat) : Nat → List Byte → List T
  | 0, _ => []
  | count + 1, r => dec r :: decodeElements dec size count (r.drop size)

/-- The destination with its SRID field set, when its type has one; unchanged otherwise. -/
def Geometry.withSRID (g : Geometry) (srid : Int) : Geometry :=
  match g with
  | .pointS p => .pointS { p with SRID := srid }
  | .pointZS p => .pointZS { p with SRID := srid }
  | .pointMS p => .pointMS { p with SRID := srid }
  | .pointZMS p => .pointZMS { p with SRID := srid }
  | .lineStringS ls => .lineStringS { ls with SRID := srid }
  | .lineStringZS ls => .lineStringZS { ls with SRID := srid }
  | .lineStringMS ls => .lineStringMS { ls with SRID := srid }
  | .lineStringZMS ls => .lineStringZMS { ls with SRID := srid }
  | _ => g

/-- The number of bytes of the body that starts the bytes `r`, for a destination `d`: the
coordinates of a point, or the count and as many coordinate tuples as the count says. -/
def Geometry.bodySize (order : ByteOrder) (d : Geometry) (r : List Byte) : Nat :=
  if d.isPoint then 8 * d.dimension
  else 4 + 8 * d.dimension * order.Uint32 (r.take 4)

/-- The destination `d` with its coordinates, or its points, replaced by those of the
body that starts the bytes `r`; the SRID field is kept. -/
def Geometry.decodeBody (order : ByteOrder) (d : Geometry) (r : List Byte) : Geometry :=
  match d with
  | .point _ => .point (Point.decode order r)
  | .pointZ _ => .pointZ (PointZ.decode order r)
  | .pointM _ => .pointM (PointM.decode order r)
  | .pointZM _ => .pointZM (PointZM.decode order r)
  | .pointS p =>
    .pointS ⟨p.SRID, wireFloat64 order r 0, wireFloat64 order r 8⟩
  | .pointZS p =>
    .pointZS ⟨p.SRID, wireFloat64 order r 0, wireFloat64 order r 8, wireFloat64 order r 16⟩
  | .pointMS p =>
    .pointMS ⟨p.SRID, wireFloat64 order r 0, wireFloat64 order r 8, wireFloat64 order r 16⟩
  | .pointZMS p =>
    .pointZMS ⟨p.SRID, wireFloat64 order r 0, wireFloat64 order r 8, wireFloat64 order r 16, wireFloat64 order r 24⟩
  | .lineString _ =>
    .lineString ⟨decodeElements (Point.decode order) 16 (order.Uint32 (r.take 4)) (r.drop 4)⟩
  | .lineStringZ _ =>
    .lineStringZ ⟨decodeElements (PointZ.decode order) 24 (order.Uint32 (r.take 4)) (r.drop 4)⟩
  | .lineStringM _ =>
    .lineStringM ⟨decodeElements (PointM.decode order) 24 (order.Uint32 (r.take 4)) (r.drop 4)⟩
  | .lineStringZM _ =>
    .lineStringZM ⟨decodeElements (PointZM.decode order) 32 (order.Uint32 (r.take 4)) (r.drop 4)⟩
  | .lineStringS ls =>
    .lineStringS ⟨ls.SRID,
      decodeElements (Point.decode order) 16 (order.Uint32 (r.take 4)) (r.drop 4)⟩
  | .lineStringZS ls =>
    .lineStringZS ⟨ls.SRID,
      decodeElements (PointZ.decode order) 24 (order.Uint32 (r.take 4)) (r.drop 4)⟩
  | .lineStringMS ls =>
    .lineStringMS ⟨ls.SRID,
      decodeElements (PointM.decode order) 24 (order.Uint32 (r.take 4)) (r.drop 4)⟩
  | .lineStringZMS ls =>
    .lineStringZMS ⟨ls.SRID,
      decodeElements (PointZM.decode order) 32 (order.Uint32 (r.take 4)) (r.drop 4)⟩

/-- The coordinate tuples of a value, in order: one for a point, one per point for a line
string. -/
def Geometry.tuples : Geometry → List (List Float64)
  | .point p => [[p.X, p.Y]]
  | .pointZ p => [[p.X, p.Y, p.Z]]
  | .pointM p => [[p.X, p.Y, p.M]]
  | .pointZM p => [[p.X, p.Y, p.Z, p.M]]
  | .pointS p => [[p.X, p.Y]]
  | .pointZS p => [[p.X, p.Y, p.Z]]
  | .pointMS p => [[p.X, p.Y, p.M]]
  | .pointZMS p => [[p.X, p.Y, p.Z, p.M]]
  | .lineString ls => ls.Points.map Point.fields
  | .lineStringZ ls => ls.Points.map PointZ.fields
  | .lineStringM ls => ls.Points.map PointM.fields
  | .lineStringZM ls => ls.Points.map PointZM.fields
  | .lineStringS ls => ls.Points.map Point.fields
  | .lineStringZS ls => ls.Points.map PointZ.fields
  | .lineStringMS ls => ls.Points.map PointM.fields
  | .lineStringZMS ls => ls.Points.map PointZM.fields

/-- Whether the stream starts with one of the two byte order markers. -/
def validMarker (s : List Byte) : Prop := s.head? = some wkbXDR ∨ s.head? = some wkbNDR

instance (s : List Byte) : Decidable (validMarker s) := by
  unfold validMarker
  infer_instance

/-- The byte order that the marker of a stream selects. -/
def wireOrder (s : List Byte) : ByteOrder :=
  if s.head? = some wkbXDR then .BigEndian else .LittleEndian

/-- The type code of a stream: bytes 1 to 4, in the byte order of the marker. -/
def wireTypeCode (s : List Byte) : Nat := (wireOrder s).Uint32 ((s.drop 1).take 4)

/-- The offset of the body of a stream: 9 when the type code announces an SRID, else 5. -/
def wireBodyOffset (s : List Byte) : Nat := if (wireTypeCode s).testBit 29 then 9 else 5

/-- The SRID of a stream whose type code announces one: bytes 5 to 8 as an `int32`. -/
def wireSRID (s : List Byte) : Int := int32OfUint32 ((wireOrder s).Uint32 ((s.drop 5).take 4))

/-- The element count of a stream that carries a line string: the four bytes at the
offset of the body. -/
def wireCount (s : List Byte) : Nat :=
  (wireOrder s).Uint32 ((s.drop (wireBodyOffset s)).take 4)

/-- The `i`-th coordinate tuple (from 0) of `k` coordinates of a stream that carries a
line string. -/
def wireTuple (s : List Byte) (k i : Nat) : List Float64 :=
  (List.range k).map
    (fun j => wireFloat64 (wireOrder s) s (wireBodyOffset s + 4 + 8 * (k * i + j)))

/-- The error of `io.ReadFull` on a reader that holds fewer bytes than asked for:
`io.EOF` when it holds none, `io.ErrUnexpectedEOF` otherwise. -/
def shortError (r : Reader) : Error := if r.length = 0 then .EOF else .ErrUnexpectedEOF

/-- The destination that receives the body of a stream: the given one, with the SRID of
the stream stored in it when the type code announces one. -/
def Geometry.afterHeader (d : Geometry) (s : List Byte) : Geometry :=
  if (wireTypeCode s).testBit 29 then d.withSRID (wireSRID s) else d

/-- The offset of the first byte after the body of a stream, for a destination `d`. -/
def wireEnd (s : List Byte) (d : Geometry) : Nat :=
  wireBodyOffset s + d.bodySize (wireOrder s) (s.drop (wireBodyOffset s))

/-- The conditions under which a stream decodes into a destination `d`: the marker is 0
or 1; an announced SRID finds the field in the type of `d`; the base kind is 1 for a
point type and 2 for a line string type; and the stream holds the whole header and the
whole body. -/
def Geometry.accepts (d : Geometry) (s : List Byte) : Prop :=
  validMarker s
  ∧ ((wireTypeCode s).testBit 29 = true → d.hasSRID = true)
  ∧ (GetGeometryInfo (wireTypeCode s)).BaseType
      = (if d.isPoint then WKBPoint else WKBLineString)
  ∧ wireEnd s d ≤ s.length

instance (d : Geometry) (s : List Byte) : Decidable (d.accepts s) := by
  unfold Geometry.accepts
  infer_instance

/-- The value a stream decodes to in a destination `d` that accepts it. -/
def Geometry.decodeFrom (d : Geometry) (s : List Byte) : Geometry :=
  (d.afterHeader s).decodeBody (wireOrder s) (s.drop (wireBodyOffset s))

/-- A sample stream: big-endian, type code `0x80000001` (point, +Z, no SRID), the three
coordinates 1, 2, 3 (as bit patterns). -/
def samplePointZ : List Byte :=
  [0, 0x80, 0, 0, 1, 0, 0, 0, 0, 0, 0, 0, 1, 0, 0, 0, 0, 0, 0, 0, 2, 0, 0, 0, 0, 0, 0, 0, 3]

/-- A sample stream: little-endian, type code 2 (line string, planar, no SRID), count 1,
the point (1, 2) (as bit patterns). -/
def sampleLineString : List Byte :=
  [1, 2, 0, 0, 0, 1, 0, 0, 0, 1, 0, 0, 0, 0, 0, 0, 0, 2, 0, 0, 0, 0, 0, 0, 0]

/-- A sample stream: little-endian, type code `0x20000003` (polygon, SRID announced), the
SRID 4326. -/
def samplePolygonSRID : List Byte := [1, 3, 0, 0, 0x20, 0xe6, 0x10, 0, 0]

/-- A sample stream: little-endian, type code `0x20000002` (line string, SRID announced),
the SRID 4326, count 0. -/
def sampleLineStringSRID : List Byte := [1, 2, 0, 0, 0x20, 0xe6, 0x10, 0, 0, 0, 0, 0, 0]

/-- A sample stream: little-endian, type code 1 (point, planar, no SRID), the point
(1, 2) (as bit patterns). -/
def samplePoint : List Byte :=
  [1, 1, 0, 0, 0, 1, 0, 0, 0, 0, 0, 0, 0, 2, 0, 0, 0, 0, 0, 0, 0]

/-- A sample stream: little-endian, type code `0x20000003` (polygon, SRID announced), and
nothing after the type code. -/
def samplePolygonNoSRID : List Byte := [1, 3, 0, 0, 0x20]

/-- The stream `s` with the bits `mask` of its type code flipped: the marker and the bytes
after the type code are kept. -/
def flipTypeBits (mask : Nat) (s : List Byte) : List Byte :=
  s.take 1 ++ ((wireOrder s).PutUint32 (wireTypeCode s ^^^ mask) ++ s.drop 5)

/-- A sample stream: little-endian, type code 2 (line string, planar, no SRID), count 2,
and the single point (1, 2) (as bit patterns): the second point is missing. -/
def sampleLineStringShort : List Byte :=
  [1, 2, 0, 0, 0, 2, 0, 0, 0, 1, 0, 0, 0, 0, 0, 0, 0, 2, 0, 0, 0, 0, 0, 0, 0]


/-- A sample stream: little-endian, type code 2 (line string, planar, no SRID), the count
`0xFFFFFFFF`, and nothing after the count. -/
def sampleLineStringHuge : List Byte := [1, 2, 0, 0, 0, 0xff, 0xff, 0xff, 0xff]

/-- Whether the runtime grants the slice that `readElementsHelper` makes when the stream
`s` is read into a line string destination `d`: as many elements as the count of the
stream says, of `8 * d.dimension` bytes each, asked for when the reader stands right
after the count. -/
def sliceGranted (mem : Nat) (s : List Byte) (d : Geometry) : Prop :=
  makeGranted mem ((s.drop (wireBodyOffset s)).drop 4) (8 * d.dimension) (wireCount s) = true

instance (mem : Nat) (s : List Byte) (d : Geometry) : Decidable (sliceGranted mem s d) := by
  unfold sliceGranted
  infer_instance

/-! ## Lemmas: type codes -/

theorem and_two_pow_bne_zero (w i : Nat) : ((w &&& 2 ^ i) != 0) = w.testBit i := by
  cases h : w.testBit i
  · have h0 : w &&& 2 ^ i = 0 := by
      apply Nat.eq_of_testBit_eq
      intro j
      by_cases hij : i = j
      · subst hij; simp [h]
      · simp [Nat.testBit_two_pow_of_ne hij]
    simp [h0]
  · have h1 : (w &&& 2 ^ i).testBit i = true := by simp [h, Nat.testBit_two_pow_self]
    have h2 : w &&& 2 ^ i ≠ 0 := by
      intro h0
      rw [h0] at h1
      simp at h1
    simp [h2]

theorem GetGeometryInfo_testBit (w : Nat) :
    GetGeometryInfo w =
      { BaseType := w % 2 ^ 29
        HasSRID := w.testBit 29
        CoordType :=
          if w.testBit 31 && w.testBit 30 then CoordXYZM
          else if w.testBit 31 then CoordXYZ
          else if w.testBit 30 then CoordXYM
          else CoordXY } := by
  have hz : WKBZFlag = 2 ^ 31 := by decide
  have hm : WKBMFlag = 2 ^ 30 := by decide
  have hs : WKBSRIDFlag = 2 ^ 29 := by decide
  have hb : (0x1FFFFFFF : Nat) = 2 ^ 29 - 1 := by decide
  simp only [GetGeometryInfo, hz, hm, hs, hb, and_two_pow_bne_zero, Nat.and_pow_two_sub_one_eq_mod]

theorem BuildWKBType_eq_add (baseType : Nat) (coordType : CoordinateType) (hasSRID : Bool)
    (hb : baseType < 2 ^ 29) :
    BuildWKBType baseType coordType hasSRID = 2 ^ 29 * flagBits coordType hasSRID + baseType := by
  have key : ∀ k : Nat, baseType ||| 2 ^ 29 * k = 2 ^ 29 * k + baseType := by
    intro k
    rw [Nat.mul_add_lt_is_or hb, Nat.or_comm]
  have k1 := key 1
  have k2 := key 2
  have k3 := key 3
  have k4 := key 4
  have k5 := key 5
  have k6 := key 6
  have k7 := key 7
  simp only [BuildWKBType, flagBits, WKBZFlag, WKBMFlag, WKBSRIDFlag, CoordXYZ, CoordXYM,
    CoordXYZM]
  by_cases h1 : coordType = 1
  · subst h1
    cases hasSRID
    · simp; norm_num at k4; omega
    · simp [Nat.or_assoc]; norm_num at k5 ⊢; omega
  · by_cases h2 : coordType = 2
    · subst h2
      cases hasSRID
      · simp; norm_num at k2; omega
      · simp [Nat.or_assoc]; norm_num at k3 ⊢; omega
    · by_cases h3 : coordType = 3
      · subst h3
        cases hasSRID
        · simp; norm_num at k6 ⊢; omega
        · simp [Nat.or_assoc]; norm_num at k7 ⊢; omega
      · cases hasSRID
        · simp [h1, h2, h3]
        · simp [h1, h2, h3]; norm_num at k1; omega

theorem flagBits_lt (coordType : CoordinateType) (hasSRID : Bool) :
    flagBits coordType hasSRID < 8 := by
  unfold flagBits
  split <;> split <;> split <;> omega

theorem GetGeometryInfo_BuildWKBType_of_lt (baseType : Nat) (coordType : CoordinateType)
    (hasSRID : Bool) (hb : baseType < 2 ^ 29)
    (hc : coordType = CoordXY ∨ coordType = CoordXYZ ∨ coordType = CoordXYM
      ∨ coordType = CoordXYZM) :
    GetGeometryInfo (BuildWKBType baseType coordType hasSRID)
      = { BaseType := baseType, CoordType := coordType, HasSRID := hasSRID } := by
  rw [BuildWKBType_eq_add _ _ _ hb, GetGeometryInfo_testBit]
  simp only [Nat.testBit_mul_pow_two_add _ hb, Nat.mul_add_mod, Nat.mod_eq_of_lt hb]
  rcases hc with h | h | h | h <;> subst h <;> cases hasSRID <;>
    simp [flagBits, CoordXY, CoordXYZ, CoordXYM, CoordXYZM, Nat.testBit]

/-! ## Lemmas: the standard library model -/

theorem leBytes_length (n v : Nat) : (leBytes n v).length = n := by
  induction n generalizing v with
  | zero => rfl
  | succ n ih => simp [leBytes, ih]

theorem leValue_leBytes (n v : Nat) : leValue (leBytes n v) = v % 256 ^ n := by
  induction n generalizing v with
  | zero => simp [leBytes, leValue, Nat.mod_one]
  | succ n ih =>
    simp only [leBytes, leValue, ih, byte]
    have h : v % 256 ^ (n + 1) = v % 256 + 256 * (v / 256 % 256 ^ n) := by
      rw [Nat.pow_succ, Nat.mul_comm (256 ^ n) 256, Nat.mod_mul]
    exact h.symm

theorem PutUint32_length (order : ByteOrder) (v : Nat) : (order.PutUint32 v).length = 4 := by
  cases order <;> simp [ByteOrder.PutUint32, leBytes_length]

theorem PutUint64_length (order : ByteOrder) (v : Nat) : (order.PutUint64 v).length = 8 := by
  cases order <;> simp [ByteOrder.PutUint64, leBytes_length]

theorem Uint32_PutUint32 (order : ByteOrder) (v : Nat) :
    order.Uint32 (order.PutUint32 v) = v % 2 ^ 32 := by
  cases order <;> simp [ByteOrder.Uint32, ByteOrder.PutUint32, leValue_leBytes]

theorem Uint64_PutUint64 (order : ByteOrder) (v : Nat) :
    order.Uint64 (order.PutUint64 v) = v % 2 ^ 64 := by
  cases order <;> simp [ByteOrder.Uint64, ByteOrder.PutUint64, leValue_leBytes]

theorem int32OfUint32_uint32OfInt32 (i : Int) (h : isInt32 i) :
    int32OfUint32 (uint32OfInt32 i % 2 ^ 32) = i := by
  unfold isInt32 at h
  norm_num at h
  unfold int32OfUint32 uint32OfInt32
  have h1 : (0 : Int) ≤ i % 2 ^ 32 := Int.emod_nonneg _ (by norm_num)
  have h2 : i % 2 ^ 32 < 2 ^ 32 := Int.emod_lt_of_pos _ (by norm_num)
  have h3 : ((i % 2 ^ 32).toNat : Int) = i % 2 ^ 32 := Int.toNat_of_nonneg h1
  have h4 : (i % 2 ^ 32).toNat < 2 ^ 32 := by omega
  rw [Nat.mod_eq_of_lt h4]
  norm_num at h1 h2 h3 h4 ⊢
  split <;> omega

theorem readFull_append (bs rest : List Byte) (n : Nat) (h : bs.length = n) :
    readFull (bs ++ rest) n = (.ok bs, rest) := by
  unfold readFull
  have hle : n ≤ (bs ++ rest).length := by simp [← h]
  rw [if_pos hle, List.take_left' h, List.drop_left' h]

theorem binaryReadUint8_cons (b : Byte) (rest : List Byte) :
    binaryReadUint8 (b :: rest) = (.ok b, rest) := by
  have h := readFull_append [b] rest 1 rfl
  simp only [List.singleton_append] at h
  simp [binaryReadUint8, h]

theorem binaryReadUint32_append (order : ByteOrder) (v : Nat) (rest : List Byte) :
    binaryReadUint32 (order.PutUint32 v ++ rest) order = (.ok (v % 2 ^ 32), rest) := by
  simp [binaryReadUint32, readFull_append _ rest 4 (PutUint32_length order v),
    Uint32_PutUint32]

theorem binaryReadInt32_append (order : ByteOrder) (i : Int) (rest : List Byte)
    (h : isInt32 i) :
    binaryReadInt32 (order.PutUint32 (uint32OfInt32 i) ++ rest) order = (.ok i, rest) := by
  have hi := int32OfUint32_uint32OfInt32 i h
  simp only [binaryReadInt32, readFull_append _ rest 4 (PutUint32_length order _),
    Uint32_PutUint32, hi]

theorem binaryReadFloat64_append (order : ByteOrder) (x : Float64) (rest : List Byte)
    (h : isFloat64 x) :
    binaryReadFloat64 (order.PutUint64 x ++ rest) order = (.ok x, rest) := by
  unfold isFloat64 at h
  simp only [binaryReadFloat64, readFull_append _ rest 8 (PutUint64_length order x),
    Uint64_PutUint64, Nat.mod_eq_of_lt h]

theorem float64Field_zero (order : ByteOrder) (x : Float64) (tail : List Byte) :
    float64Field order (order.PutUint64 x ++ tail) 0 = x % 2 ^ 64 := by
  unfold float64Field
  rw [Nat.mul_zero, List.drop_zero, List.take_left' (PutUint64_length order x),
    Uint64_PutUint64]

theorem float64Field_succ (order : ByteOrder) (x : Float64) (tail : List Byte) (i : Nat) :
    float64Field order (order.PutUint64 x ++ tail) (i + 1) = float64Field order tail i := by
  unfold float64Field
  have h : 8 * (i + 1) = (order.PutUint64 x).length + 8 * i := by
    rw [PutUint64_length]
    omega
  rw [h, List.drop_append]

theorem putFloat64s_length (order : ByteOrder) (fields : List Float64) :
    (putFloat64s order fields).length = 8 * fields.length := by
  induction fields with
  | nil => rfl
  | cons f fs ih =>
    simp only [putFloat64s, List.length_append, PutUint64_length, ih, List.length_cons]
    omega

theorem binaryReadPoint_append (order : ByteOrder) (p : Point) (rest : List Byte)
    (h : p.valid) :
    binaryReadPoint (putFloat64s order [p.X, p.Y] ++ rest) order = (.ok p, rest) := by
  obtain ⟨hx, hy⟩ := h
  unfold isFloat64 at hx hy
  have hr := readFull_append (putFloat64s order [p.X, p.Y]) rest 16
    (by rw [putFloat64s_length]; rfl)
  simp only [binaryReadPoint, hr]
  simp only [putFloat64s, float64Field_zero, float64Field_succ, Nat.mod_eq_of_lt hx,
    Nat.mod_eq_of_lt hy]

theorem binaryReadPointZ_append (order : ByteOrder) (p : PointZ) (rest : List Byte)
    (h : p.valid) :
    binaryReadPointZ (putFloat64s order [p.X, p.Y, p.Z] ++ rest) order = (.ok p, rest) := by
  obtain ⟨hx, hy, hz⟩ := h
  unfold isFloat64 at hx hy hz
  have hr := readFull_append (putFloat64s order [p.X, p.Y, p.Z]) rest 24
    (by rw [putFloat64s_length]; rfl)
  simp only [binaryReadPointZ, hr]
  simp only [putFloat64s, float64Field_zero, float64Field_succ, Nat.mod_eq_of_lt hx,
    Nat.mod_eq_of_lt hy, Nat.mod_eq_of_lt hz]

theorem binaryReadPointM_append (order : ByteOrder) (p : PointM) (rest : List Byte)
    (h : p.valid) :
    binaryReadPointM (putFloat64s order [p.X, p.Y, p.M] ++ rest) order = (.ok p, rest) := by
  obtain ⟨hx, hy, hm⟩ := h
  unfold isFloat64 at hx hy hm
  have hr := readFull_append (putFloat64s order [p.X, p.Y, p.M]) rest 24
    (by rw [putFloat64s_length]; rfl)
  simp only [binaryReadPointM, hr]
  simp only [putFloat64s, float64Field_zero, float64Field_succ, Nat.mod_eq_of_lt hx,
    Nat.mod_eq_of_lt hy, Nat.mod_eq_of_lt hm]

theorem binaryReadPointZM_append (order : ByteOrder) (p : PointZM) (rest : List Byte)
    (h : p.valid) :
    binaryReadPointZM (putFloat64s order [p.X, p.Y, p.Z, p.M] ++ rest) order
      = (.ok p, rest) := by
  obtain ⟨hx, hy, hz, hm⟩ := h
  unfold isFloat64 at hx hy hz hm
  have hr := readFull_append (putFloat64s order [p.X, p.Y, p.Z, p.M]) rest 32
    (by rw [putFloat64s_length]; rfl)
  simp only [binaryReadPointZM, hr]
  simp only [putFloat64s, float64Field_zero, float64Field_succ, Nat.mod_eq_of_lt hx,
    Nat.mod_eq_of_lt hy, Nat.mod_eq_of_lt hz, Nat.mod_eq_of_lt hm]

theorem fromHexChar_hexDigit (n : Nat) (h : n < 16) : fromHexChar (hexDigit n) = some n := by
  unfold fromHexChar hexDigit byte
  by_cases h10 : n < 10
  · simp only [h10, if_true]
    have h1 : (48 + n) % 256 = 48 + n := by omega
    simp only [h1]
    rw [if_pos (by omega)]
    congr 1
    omega
  · simp only [h10, if_false]
    have h1 : (87 + n) % 256 = 87 + n := by omega
    simp only [h1]
    rw [if_neg (by omega), if_pos (by omega)]
    congr 1
    omega

theorem byte_nibbles (v : Byte) : byte ((v.val >>> 4) <<< 4 ||| (v.val &&& 0x0f)) = v := by
  have h15 : (0x0f : Nat) = 2 ^ 4 - 1 := by decide
  have hlt : v.val % 2 ^ 4 < 2 ^ 4 := Nat.mod_lt _ (by decide)
  rw [h15, Nat.and_pow_two_sub_one_eq_mod, Nat.shiftRight_eq_div_pow, Nat.shiftLeft_eq,
    Nat.mul_comm, ← Nat.mul_add_lt_is_or hlt]
  apply Fin.ext
  simp only [byte]
  have hv := v.isLt
  omega

theorem hexDecodeString_hexEncodeToString (bs : List Byte) :
    hexDecodeString (hexEncodeToString bs) = .ok bs := by
  induction bs with
  | nil => rfl
  | cons v vs ih =>
    have h15 : (0x0f : Nat) = 2 ^ 4 - 1 := by decide
    have hhi : v.val >>> 4 < 16 := by
      rw [Nat.shiftRight_eq_div_pow]
      have hv := v.isLt
      omega
    have hlo : v.val &&& 0x0f < 16 := by
      rw [h15, Nat.and_pow_two_sub_one_eq_mod]
      exact Nat.mod_lt _ (by decide)
    simp only [hexEncodeToString, hexDecodeString, fromHexChar_hexDigit _ hhi,
      fromHexChar_hexDigit _ hlo, ih, byte_nibbles]

/-! ## Lemmas: helpers and framing -/

theorem leBytes_mod (n v : Nat) : leBytes n (v % 256 ^ n) = leBytes n v := by
  induction n generalizing v with
  | zero => rfl
  | succ n ih =>
    have h1 : v % 256 ^ (n + 1) % 256 = v % 256 := by
      rw [Nat.pow_succ, Nat.mul_comm]
      exact Nat.mod_mul_right_mod v 256 (256 ^ n)
    have h2 : v % 256 ^ (n + 1) / 256 = v / 256 % 256 ^ n := by
      rw [Nat.pow_succ, Nat.mul_comm]
      exact Nat.mod_mul_right_div_self v 256 (256 ^ n)
    simp only [leBytes, byte, h1, h2, ih]

theorem PutUint32_mod (order : ByteOrder) (v : Nat) :
    order.PutUint32 (v % 2 ^ 32) = order.PutUint32 v := by
  have h := leBytes_mod 4 v
  cases order <;> simp only [ByteOrder.PutUint32] <;> rw [← h] <;> rfl

theorem writeElementsHelper_eq {T : Type} (write : T → Buffer → Except Error Buffer)
    (enc : T → List Byte) (hw : ∀ p buffer, write p buffer = .ok (buffer ++ enc p))
    (ps : List T) (buffer : Buffer) :
    writeElementsHelper write ps buffer = .ok (buffer ++ encodeElements enc ps) := by
  induction ps generalizing buffer with
  | nil => simp [writeElementsHelper, encodeElements]
  | cons p ps ih => simp [writeElementsHelper, encodeElements, hw, ih]

theorem readElementsLoop_encodeElements {T : Type}
    (read : Reader → ByteOrder → Except Error T × Reader) (enc : T → List Byte)
    (good : T → Prop) (order : ByteOrder)
    (hr : ∀ p rest, good p → read (enc p ++ rest) order = (.ok p, rest))
    (ps : List T) (rest : List Byte) (h : ∀ p ∈ ps, good p) :
    readElementsLoop read (encodeElements enc ps ++ rest) order ps.length
      = (.ok ps, rest) := by
  induction ps with
  | nil => simp [readElementsLoop, encodeElements]
  | cons p ps ih =>
    have hp : good p := h p (List.mem_cons_self _ _)
    have hps : ∀ q ∈ ps, good q := fun q hq => h q (List.mem_cons_of_mem _ hq)
    simp only [encodeElements, List.length_cons, readElementsLoop, List.append_assoc,
      hr p _ hp, ih hps]

theorem GetType_eq (g : Geometry) :
    g.GetType = BuildWKBType (if g.isPoint then WKBPoint else WKBLineString) g.coordType
      g.hasSRID := by
  cases g <;> rfl

theorem baseType_lt (g : Geometry) :
    (if g.isPoint then WKBPoint else WKBLineString) < 2 ^ 29 := by
  cases g.isPoint <;> decide

theorem coordType_cases (g : Geometry) :
    g.coordType = CoordXY ∨ g.coordType = CoordXYZ ∨ g.coordType = CoordXYM
      ∨ g.coordType = CoordXYZM := by
  cases g <;> simp [Geometry.coordType]

theorem GetType_lt (g : Geometry) : g.GetType < 2 ^ 32 := by
  rw [GetType_eq, BuildWKBType_eq_add _ _ _ (baseType_lt g)]
  have h1 := baseType_lt g
  have h2 := flagBits_lt g.coordType g.hasSRID
  norm_num at h1 ⊢
  omega

theorem GetGeometryInfo_GetType (g : Geometry) :
    GetGeometryInfo g.GetType
      = { BaseType := if g.isPoint then WKBPoint else WKBLineString
          CoordType := g.coordType
          HasSRID := g.hasSRID } := by
  rw [GetType_eq]
  exact GetGeometryInfo_BuildWKBType_of_lt _ _ _ (baseType_lt g) (coordType_cases g)

theorem writeElements_Point (ps : List Point) (buffer : Buffer) :
    writeElementsHelper Point.Write ps buffer
      = .ok (buffer ++ encodeElements (fun p => putFloat64s .LittleEndian p.fields) ps) :=
  writeElementsHelper_eq Point.Write _ (fun _ _ => rfl) ps buffer

theorem writeElements_PointZ (ps : List PointZ) (buffer : Buffer) :
    writeElementsHelper PointZ.Write ps buffer
      = .ok (buffer ++ encodeElements (fun p => putFloat64s .LittleEndian p.fields) ps) :=
  writeElementsHelper_eq PointZ.Write _ (fun _ _ => rfl) ps buffer

theorem writeElements_PointM (ps : List PointM) (buffer : Buffer) :
    writeElementsHelper PointM.Write ps buffer
      = .ok (buffer ++ encodeElements (fun p => putFloat64s .LittleEndian p.fields) ps) :=
  writeElementsHelper_eq PointM.Write _ (fun _ _ => rfl) ps buffer

theorem writeElements_PointZM (ps : List PointZM) (buffer : Buffer) :
    writeElementsHelper PointZM.Write ps buffer
      = .ok (buffer ++ encodeElements (fun p => putFloat64s .LittleEndian p.fields) ps) :=
  writeElementsHelper_eq PointZM.Write _ (fun _ _ => rfl) ps buffer

theorem Write_eq (g : Geometry) (buffer : Buffer) :
    g.Write buffer = .ok (buffer ++ g.body .LittleEndian) := by
  cases g <;>
    first
    | rfl
    | simp only [Geometry.Write, Geometry.body, LineString.Write, LineStringZ.Write,
        LineStringM.Write, LineStringZM.Write, LineStringS.Write, LineStringZS.Write,
        LineStringMS.Write, LineStringZMS.Write, WriteGeometryCollection, binaryWriteUint32,
        LineString.GetElementCount, LineStringZ.GetElementCount, LineStringM.GetElementCount,
        LineStringZM.GetElementCount, LineStringS.GetElementCount,
        LineStringZS.GetElementCount, LineStringMS.GetElementCount,
        LineStringZMS.GetElementCount, getElementCountHelper, PutUint32_mod,
        LineString.WriteElements, LineStringZ.WriteElements, LineStringM.WriteElements,
        LineStringZM.WriteElements, LineStringS.WriteElements, LineStringZS.WriteElements,
        LineStringMS.WriteElements, LineStringZMS.WriteElements, writeElements_Point,
        writeElements_PointZ, writeElements_PointM, writeElements_PointZM,
        List.append_assoc]

theorem WriteEWKB_eq (g : Geometry) : WriteEWKB g = .ok (g.wire .LittleEndian) := by
  unfold WriteEWKB
  simp only [binaryWriteUint8, binaryWriteUint32, List.nil_append]
  cases g <;>
    simp [Geometry.asSRIDGeometry, binaryWriteInt32, Write_eq, Geometry.wire,
      Geometry.sridBytes, Geometry.SRID?, ByteOrder.marker, PointS.GetSRID, PointZS.GetSRID,
      PointMS.GetSRID, PointZMS.GetSRID, LineStringS.GetSRID, LineStringZS.GetSRID,
      LineStringMS.GetSRID, LineStringZMS.GetSRID]

theorem ReadEWKB_marker (mem : Nat) (order : ByteOrder) (w : Nat) (rest : List Byte) (g : Geometry)
    (hw : w < 2 ^ 32) :
    ReadEWKB mem (order.marker :: (order.PutUint32 w ++ rest)) g =
      if (GetGeometryInfo w).HasSRID then
        match g.asSRIDGeometry with
        | some sridGeom =>
          match binaryReadInt32 rest order with
          | (.error e, reader) => ⟨some e, g, reader⟩
          | (.ok srid, reader) =>
            ReadGeometryData mem reader order (sridGeom.SetSRID srid) (GetGeometryInfo w)
        | none => ⟨some (.unexpectedSRID g.typeName), g, rest⟩
      else ReadGeometryData mem rest order g (GetGeometryInfo w) := by
  unfold ReadEWKB
  simp only [binaryReadUint8_cons]
  cases order
  · have h1 : ¬ (wkbNDR = wkbXDR) := by decide
    simp only [ByteOrder.marker, h1, if_false, if_true, binaryReadUint32_append,
      Nat.mod_eq_of_lt hw]
  · simp only [ByteOrder.marker, if_true, binaryReadUint32_append, Nat.mod_eq_of_lt hw]

theorem encodeElements_length {T : Type} (enc : T → List Byte) (k : Nat)
    (h : ∀ p, (enc p).length = k) (ps : List T) :
    (encodeElements enc ps).length = k * ps.length := by
  induction ps with
  | nil => rfl
  | cons p ps ih =>
    simp only [encodeElements, List.length_append, h, ih, List.length_cons]
    rw [Nat.mul_succ, Nat.add_comm]

theorem encode_Point_length (order : ByteOrder) (ps : List Point) :
    (encodeElements (fun p : Point => putFloat64s order p.fields) ps).length
      = 16 * ps.length :=
  encodeElements_length _ 16 (fun p => by rw [putFloat64s_length]; rfl) ps

theorem putFloat64s_Point_fields (p : Point) :
    putFloat64s .LittleEndian p.fields = leBytes 8 p.X ++ leBytes 8 p.Y := by
  simp [Point.fields, putFloat64s, ByteOrder.PutUint64]

theorem encode_PointZ_length (order : ByteOrder) (ps : List PointZ) :
    (encodeElements (fun p : PointZ => putFloat64s order p.fields) ps).length
      = 24 * ps.length :=
  encodeElements_length _ 24 (fun p => by rw [putFloat64s_length]; rfl) ps

theorem putFloat64s_PointZ_fields (p : PointZ) :
    putFloat64s .LittleEndian p.fields = leBytes 8 p.X ++ leBytes 8 p.Y ++ leBytes 8 p.Z := by
  simp [PointZ.fields, putFloat64s, ByteOrder.PutUint64]

theorem encode_PointM_length (order : ByteOrder) (ps : List PointM) :
    (encodeElements (fun p : PointM => putFloat64s order p.fields) ps).length
      = 24 * ps.length :=
  encodeElements_length _ 24 (fun p => by rw [putFloat64s_length]; rfl) ps

theorem putFloat64s_PointM_fields (p : PointM) :
    putFloat64s .LittleEndian p.fields = leBytes 8 p.X ++ leBytes 8 p.Y ++ leBytes 8 p.M := by
  simp [PointM.fields, putFloat64s, ByteOrder.PutUint64]

theorem encode_PointZM_length (order : ByteOrder) (ps : List PointZM) :
    (encodeElements (fun p : PointZM => putFloat64s order p.fields) ps).length
      = 32 * ps.length :=
  encodeElements_length _ 32 (fun p => by rw [putFloat64s_length]; rfl) ps

theorem putFloat64s_PointZM_fields (p : PointZM) :
    putFloat64s .LittleEndian p.fields = leBytes 8 p.X ++ leBytes 8 p.Y ++ leBytes 8 p.Z ++ leBytes 8 p.M := by
  simp [PointZM.fields, putFloat64s, ByteOrder.PutUint64]

theorem makeGranted_of_le (mem : Nat) (r : Reader) (size count : Nat)
    (h : count * size ≤ r.length) : makeGranted mem r size count = true := by
  unfold makeGranted
  rw [decide_eq_true_eq]
  omega

theorem makeGranted_zero (mem : Nat) (r : Reader) (size : Nat) : makeGranted mem r size 0 = true :=
  makeGranted_of_le mem r size 0 (by simp)

theorem makeGranted_of_le_mem (mem : Nat) (r : Reader) (size count : Nat)
    (h : count * size ≤ mem) : makeGranted mem r size count = true := by
  unfold makeGranted
  rw [decide_eq_true_eq]
  omega

theorem readElementsHelper_of_granted (mem : Nat) {T : Type} (size : Nat)
    (read : Reader → ByteOrder → Except Error T × Reader) (r : Reader) (order : ByteOrder)
    (count : Nat) (h : makeGranted mem r size count = true) :
    readElementsHelper mem size read r order count = readElementsLoop read r order count := by
  unfold readElementsHelper
  rw [if_pos h]

theorem readElementsHelper_of_not_granted (mem : Nat) {T : Type} (size : Nat)
    (read : Reader → ByteOrder → Except Error T × Reader) (r : Reader) (order : ByteOrder)
    (count : Nat) (h : makeGranted mem r size count = false) :
    readElementsHelper mem size read r order count = (.error .fatalOutOfMemory, r) := by
  unfold readElementsHelper
  rw [h]
  rfl

theorem readElements_Point (mem : Nat) (order : ByteOrder) (ps : List Point) (rest : List Byte)
    (h : ∀ p ∈ ps, p.valid) :
    readElementsHelper mem 16 binaryReadPoint
        (encodeElements (fun p => putFloat64s order p.fields) ps ++ rest) order ps.length
      = (.ok ps, rest) := by
  rw [readElementsHelper_of_granted mem _ _ _ _ _
    (makeGranted_of_le mem _ _ _ (by rw [List.length_append, encode_Point_length]; omega))]
  exact readElementsLoop_encodeElements binaryReadPoint _ Point.valid order
    (fun p rest hp => binaryReadPoint_append order p rest hp) ps rest h

theorem readElements_PointZ (mem : Nat) (order : ByteOrder) (ps : List PointZ) (rest : List Byte)
    (h : ∀ p ∈ ps, p.valid) :
    readElementsHelper mem 24 binaryReadPointZ
        (encodeElements (fun p => putFloat64s order p.fields) ps ++ rest) order ps.length
      = (.ok ps, rest) := by
  rw [readElementsHelper_of_granted mem _ _ _ _ _
    (makeGranted_of_le mem _ _ _ (by rw [List.length_append, encode_PointZ_length]; omega))]
  exact readElementsLoop_encodeElements binaryReadPointZ _ PointZ.valid order
    (fun p rest hp => binaryReadPointZ_append order p rest hp) ps rest h

theorem readElements_PointM (mem : Nat) (order : ByteOrder) (ps : List PointM) (rest : List Byte)
    (h : ∀ p ∈ ps, p.valid) :
    readElementsHelper mem 24 binaryReadPointM
        (encodeElements (fun p => putFloat64s order p.fields) ps ++ rest) order ps.length
      = (.ok ps, rest) := by
  rw [readElementsHelper_of_granted mem _ _ _ _ _
    (makeGranted_of_le mem _ _ _ (by rw [List.length_append, encode_PointM_length]; omega))]
  exact readElementsLoop_encodeElements binaryReadPointM _ PointM.valid order
    (fun p rest hp => binaryReadPointM_append order p rest hp) ps rest h

theorem readElements_PointZM (mem : Nat) (order : ByteOrder) (ps : List PointZM) (rest : List Byte)
    (h : ∀ p ∈ ps, p.valid) :
    readElementsHelper mem 32 binaryReadPointZM
        (encodeElements (fun p => putFloat64s order p.fields) ps ++ rest) order ps.length
      = (.ok ps, rest) := by
  rw [readElementsHelper_of_granted mem _ _ _ _ _
    (makeGranted_of_le mem _ _ _ (by rw [List.length_append, encode_PointZM_length]; omega))]
  exact readElementsLoop_encodeElements binaryReadPointZM _ PointZM.valid order
    (fun p rest hp => binaryReadPointZM_append order p rest hp) ps rest h

theorem ReadEWKB_wire (mem : Nat) (order : ByteOrder) (g d : Geometry) (t : List Byte)
    (hd : d.fresh = g.fresh) (hv : g.valid) (hn : g.numPoints < 2 ^ 32) :
    ReadEWKB mem (g.wire order ++ t) d = ⟨none, g, t⟩ := by
  unfold Geometry.wire
  rw [List.cons_append, List.append_assoc, ReadEWKB_marker mem _ _ _ _ (GetType_lt g),
    GetGeometryInfo_GetType]
  cases g <;> cases d <;> simp only [Geometry.fresh, reduceCtorEq] at hd
  case point.point p d =>
    have hb := binaryReadPoint_append order p t hv
    simp only [Geometry.hasSRID, Geometry.isPoint, Geometry.sridBytes, Geometry.SRID?,
      Geometry.body, ReadGeometryData, Geometry.asPointReader, binaryReadGeometry, readInto,
      List.nil_append, if_true, hb, Bool.false_eq_true, if_false]
  case pointZ.pointZ p d =>
    have hb := binaryReadPointZ_append order p t hv
    simp only [Geometry.hasSRID, Geometry.isPoint, Geometry.sridBytes, Geometry.SRID?,
      Geometry.body, ReadGeometryData, Geometry.asPointReader, binaryReadGeometry, readInto,
      List.nil_append, if_true, hb, Bool.false_eq_true, if_false]
  case pointM.pointM p d =>
    have hb := binaryReadPointM_append order p t hv
    simp only [Geometry.hasSRID, Geometry.isPoint, Geometry.sridBytes, Geometry.SRID?,
      Geometry.body, ReadGeometryData, Geometry.asPointReader, binaryReadGeometry, readInto,
      List.nil_append, if_true, hb, Bool.false_eq_true, if_false]
  case pointZM.pointZM p d =>
    have hb := binaryReadPointZM_append order p t hv
    simp only [Geometry.hasSRID, Geometry.isPoint, Geometry.sridBytes, Geometry.SRID?,
      Geometry.body, ReadGeometryData, Geometry.asPointReader, binaryReadGeometry, readInto,
      List.nil_append, if_true, hb, Bool.false_eq_true, if_false]
  case pointS.pointS p d =>
    obtain ⟨hs, hx, hy⟩ := hv
    have hi := binaryReadInt32_append order p.SRID (order.PutUint64 p.X ++ (order.PutUint64 p.Y ++ t)) hs
    have h1 := binaryReadFloat64_append order p.X (order.PutUint64 p.Y ++ t) hx
    have h2 := binaryReadFloat64_append order p.Y (t) hy
    simp only [Geometry.hasSRID, Geometry.isPoint, Geometry.sridBytes, Geometry.SRID?,
      Geometry.body, ReadGeometryData, Geometry.asPointReader, Geometry.asSRIDGeometry,
      List.append_assoc, if_true, PointS.SetSRID, PointS.ReadPoint, Outcome.map,
      putFloat64s, List.nil_append, hi, h1, h2]
  case pointZS.pointZS p d =>
    obtain ⟨hs, hx, hy, hz⟩ := hv
    have hi := binaryReadInt32_append order p.SRID (order.PutUint64 p.X ++ (order.PutUint64 p.Y ++ (order.PutUint64 p.Z ++ t))) hs
    have h1 := binaryReadFloat64_append order p.X (order.PutUint64 p.Y ++ (order.PutUint64 p.Z ++ t)) hx
    have h2 := binaryReadFloat64_append order p.Y (order.PutUint64 p.Z ++ t) hy
    have h3 := binaryReadFloat64_append order p.Z (t) hz
    simp only [Geometry.hasSRID, Geometry.isPoint, Geometry.sridBytes, Geometry.SRID?,
      Geometry.body, ReadGeometryData, Geometry.asPointReader, Geometry.asSRIDGeometry,
      List.append_assoc, if_true, PointZS.SetSRID, PointZS.ReadPoint, Outcome.map,
      putFloat64s, List.nil_append, hi, h1, h2, h3]
  case pointMS.pointMS p d =>
    obtain ⟨hs, hx, hy, hm⟩ := hv
    have hi := binaryReadInt32_append order p.SRID (order.PutUint64 p.X ++ (order.PutUint64 p.Y ++ (order.PutUint64 p.M ++ t))) hs
    have h1 := binaryReadFloat64_append order p.X (order.PutUint64 p.Y ++ (order.PutUint64 p.M ++ t)) hx
    have h2 := binaryReadFloat64_append order p.Y (order.PutUint64 p.M ++ t) hy
    have h3 := binaryReadFloat64_append order p.M (t) hm
    simp only [Geometry.hasSRID, Geometry.isPoint, Geometry.sridBytes, Geometry.SRID?,
      Geometry.body, ReadGeometryData, Geometry.asPointReader, Geometry.asSRIDGeometry,
      List.append_assoc, if_true, PointMS.SetSRID, PointMS.ReadPoint, Outcome.map,
      putFloat64s, List.nil_append, hi, h1, h2, h3]
  case pointZMS.pointZMS p d =>
    obtain ⟨hs, hx, hy, hz, hm⟩ := hv
    have hi := binaryReadInt32_append order p.SRID (order.PutUint64 p.X ++ (order.PutUint64 p.Y ++ (order.PutUint64 p.Z ++ (order.PutUint64 p.M ++ t)))) hs
    have h1 := binaryReadFloat64_append order p.X (order.PutUint64 p.Y ++ (order.PutUint64 p.Z ++ (order.PutUint64 p.M ++ t))) hx
    have h2 := binaryReadFloat64_append order p.Y (order.PutUint64 p.Z ++ (order.PutUint64 p.M ++ t)) hy
    have h3 := binaryReadFloat64_append order p.Z (order.PutUint64 p.M ++ t) hz
    have h4 := binaryReadFloat64_append order p.M (t) hm
    simp only [Geometry.hasSRID, Geometry.isPoint, Geometry.sridBytes, Geometry.SRID?,
      Geometry.body, ReadGeometryData, Geometry.asPointReader, Geometry.asSRIDGeometry,
      List.append_assoc, if_true, PointZMS.SetSRID, PointZMS.ReadPoint, Outcome.map,
      putFloat64s, List.nil_append, hi, h1, h2, h3, h4]
  case lineString.lineString ls d =>
    have hc := binaryReadUint32_append order ls.Points.length
      (encodeElements (fun p => putFloat64s order p.fields) ls.Points ++ t)
    have he := readElements_Point mem order ls.Points t hv
    have hk : ¬ (WKBLineString = WKBPoint) := by decide
    simp only [Geometry.numPoints] at hn
    rw [Nat.mod_eq_of_lt hn] at hc
    simp only [Geometry.hasSRID, Geometry.isPoint, Geometry.sridBytes, Geometry.SRID?,
      ReadGeometryData, Geometry.asCollectionGeometry, List.nil_append, if_true,
      LineString.ReadElements, Outcome.map, Bool.false_eq_true, if_false, hk]
    simp only [Geometry.body, List.append_assoc, hc, he]
  case lineStringZ.lineStringZ ls d =>
    have hc := binaryReadUint32_append order ls.Points.length
      (encodeElements (fun p => putFloat64s order p.fields) ls.Points ++ t)
    have he := readElements_PointZ mem order ls.Points t hv
    have hk : ¬ (WKBLineString = WKBPoint) := by decide
    simp only [Geometry.numPoints] at hn
    rw [Nat.mod_eq_of_lt hn] at hc
    simp only [Geometry.hasSRID, Geometry.isPoint, Geometry.sridBytes, Geometry.SRID?,
      ReadGeometryData, Geometry.asCollectionGeometry, List.nil_append, if_true,
      LineStringZ.ReadElements, Outcome.map, Bool.false_eq_true, if_false, hk]
    simp only [Geometry.body, List.append_assoc, hc, he]
  case lineStringM.lineStringM ls d =>
    have hc := binaryReadUint32_append order ls.Points.length
      (encodeElements (fun p => putFloat64s order p.fields) ls.Points ++ t)
    have he := readElements_PointM mem order ls.Points t hv
    have hk : ¬ (WKBLineString = WKBPoint) := by decide
    simp only [Geometry.numPoints] at hn
    rw [Nat.mod_eq_of_lt hn] at hc
    simp only [Geometry.hasSRID, Geometry.isPoint, Geometry.sridBytes, Geometry.SRID?,
      ReadGeometryData, Geometry.asCollectionGeometry, List.nil_append, if_true,
      LineStringM.ReadElements, Outcome.map, Bool.false_eq_true, if_false, hk]
    simp only [Geometry.body, List.append_assoc, hc, he]
  case lineStringZM.lineStringZM ls d =>
    have hc := binaryReadUint32_append order ls.Points.length
      (encodeElements (fun p => putFloat64s order p.fields) ls.Points ++ t)
    have he := readElements_PointZM mem order ls.Points t hv
    have hk : ¬ (WKBLineString = WKBPoint) := by decide
    simp only [Geometry.numPoints] at hn
    rw [Nat.mod_eq_of_lt hn] at hc
    simp only [Geometry.hasSRID, Geometry.isPoint, Geometry.sridBytes, Geometry.SRID?,
      ReadGeometryData, Geometry.asCollectionGeometry, List.nil_append, if_true,
      LineStringZM.ReadElements, Outcome.map, Bool.false_eq_true, if_false, hk]
    simp only [Geometry.body, List.append_assoc, hc, he]
  case lineStringS.lineStringS ls d =>
    obtain ⟨hs, hp⟩ := hv
    have hi := binaryReadInt32_append order ls.SRID
      (Geometry.body order (.lineStringS ls) ++ t) hs
    have hc := binaryReadUint32_append order ls.Points.length
      (encodeElements (fun p => putFloat64s order p.fields) ls.Points ++ t)
    have he := readElements_Point mem order ls.Points t hp
    have hk : ¬ (WKBLineString = WKBPoint) := by decide
    simp only [Geometry.numPoints] at hn
    rw [Nat.mod_eq_of_lt hn] at hc
    simp only [Geometry.hasSRID, Geometry.isPoint, Geometry.sridBytes, Geometry.SRID?,
      ReadGeometryData, Geometry.asCollectionGeometry, Geometry.asSRIDGeometry,
      List.append_assoc, if_true, hi, LineStringS.SetSRID, LineStringS.ReadElements,
      Outcome.map, Bool.false_eq_true, if_false, hk]
    simp only [Geometry.body, List.append_assoc, hc, he]
  case lineStringZS.lineStringZS ls d =>
    obtain ⟨hs, hp⟩ := hv
    have hi := binaryReadInt32_append order ls.SRID
      (Geometry.body order (.lineStringZS ls) ++ t) hs
    have hc := binaryReadUint32_append order ls.Points.length
      (encodeElements (fun p => putFloat64s order p.fields) ls.Points ++ t)
    have he := readElements_PointZ mem order ls.Points t hp
    have hk : ¬ (WKBLineString = WKBPoint) := by decide
    simp only [Geometry.numPoints] at hn
    rw [Nat.mod_eq_of_lt hn] at hc
    simp only [Geometry.hasSRID, Geometry.isPoint, Geometry.sridBytes, Geometry.SRID?,
      ReadGeometryData, Geometry.asCollectionGeometry, Geometry.asSRIDGeometry,
      List.append_assoc, if_true, hi, LineStringZS.SetSRID, LineStringZS.ReadElements,
      Outcome.map, Bool.false_eq_true, if_false, hk]
    simp only [Geometry.body, List.append_assoc, hc, he]
  case lineStringMS.lineStringMS ls d =>
    obtain ⟨hs, hp⟩ := hv
    have hi := binaryReadInt32_append order ls.SRID
      (Geometry.body order (.lineStringMS ls) ++ t) hs
    have hc := binaryReadUint32_append order ls.Points.length
      (encodeElements (fun p => putFloat64s order p.fields) ls.Points ++ t)
    have he := readElements_PointM mem order ls.Points t hp
    have hk : ¬ (WKBLineString = WKBPoint) := by decide
    simp only [Geometry.numPoints] at hn
    rw [Nat.mod_eq_of_lt hn] at hc
    simp only [Geometry.hasSRID, Geometry.isPoint, Geometry.sridBytes, Geometry.SRID?,
      ReadGeometryData, Geometry.asCollectionGeometry, Geometry.asSRIDGeometry,
      List.append_assoc, if_true, hi, LineStringMS.SetSRID, LineStringMS.ReadElements,
      Outcome.map, Bool.false_eq_true, if_false, hk]
    simp only [Geometry.body, List.append_assoc, hc, he]
  case lineStringZMS.lineStringZMS ls d =>
    obtain ⟨hs, hp⟩ := hv
    have hi := binaryReadInt32_append order ls.SRID
      (Geometry.body order (.lineStringZMS ls) ++ t) hs
    have hc := binaryReadUint32_append order ls.Points.length
      (encodeElements (fun p => putFloat64s order p.fields) ls.Points ++ t)
    have he := readElements_PointZM mem order ls.Points t hp
    have hk : ¬ (WKBLineString = WKBPoint) := by decide
    simp only [Geometry.numPoints] at hn
    rw [Nat.mod_eq_of_lt hn] at hc
    simp only [Geometry.hasSRID, Geometry.isPoint, Geometry.sridBytes, Geometry.SRID?,
      ReadGeometryData, Geometry.asCollectionGeometry, Geometry.asSRIDGeometry,
      List.append_assoc, if_true, hi, LineStringZMS.SetSRID, LineStringZMS.ReadElements,
      Outcome.map, Bool.false_eq_true, if_false, hk]
    simp only [Geometry.body, List.append_assoc, hc, he]

theorem fresh_fresh (g : Geometry) : g.fresh.fresh = g.fresh := by
  cases g <;> rfl

theorem numPoints_of_isPoint (g : Geometry) (h : g.isPoint = true) : g.numPoints = 1 := by
  cases g <;> first | rfl | simp [Geometry.isPoint] at h

theorem Value_eq (g : Geometry) :
    g.Value = .ok (.string (EncodeEWKB (g.wire .LittleEndian))) := by
  simp only [Geometry.Value, valueGeometryHelper, WriteEWKB_eq]

theorem Scan_wire (mem : Nat) (g d : Geometry) (hd : d.fresh = g.fresh) (hv : g.valid)
    (hn : g.numPoints < 2 ^ 32) :
    d.Scan mem (.string (EncodeEWKB (g.wire .LittleEndian))) = (none, g) := by
  have h := ReadEWKB_wire mem .LittleEndian g d [] hd hv hn
  rw [List.append_nil] at h
  simp only [Geometry.Scan, scanGeometryHelper, DecodeEWKB, EncodeEWKB,
    hexDecodeString_hexEncodeToString, h]

/-! ## Type codes: claims -/

/-- C1. Unpacking a packed type code gives back the base kind (below `0x20000000`), the
dimensionality (one of the four) and the SRID flag that were packed. -/
theorem GetGeometryInfo_BuildWKBType (baseType : Nat) (coordType : CoordinateType)
    (hasSRID : Bool) (hb : baseType < 0x20000000)
    (hc : coordType = CoordXY ∨ coordType = CoordXYZ ∨ coordType = CoordXYM
      ∨ coordType = CoordXYZM) :
    GetGeometryInfo (BuildWKBType baseType coordType hasSRID)
      = { BaseType := baseType, CoordType := coordType, HasSRID := hasSRID } :=
  GetGeometryInfo_BuildWKBType_of_lt baseType coordType hasSRID
    (by norm_num at hb ⊢; exact hb) hc

/-- C1, at base kind 2 (linear sequence), dimensionality +ZM, with SRID. -/
theorem GetGeometryInfo_BuildWKBType_witness :
    (2 : Nat) < 0x20000000
    ∧ (CoordXYZM = CoordXY ∨ CoordXYZM = CoordXYZ ∨ CoordXYZM = CoordXYM
      ∨ CoordXYZM = CoordXYZM)
    ∧ GetGeometryInfo (BuildWKBType 2 CoordXYZM true)
      = { BaseType := 2, CoordType := CoordXYZM, HasSRID := true } :=
  ⟨by decide, by decide, GetGeometryInfo_BuildWKBType 2 CoordXYZM true (by decide) (by decide)⟩

/-- C6. Unpacking is a total function of the type word: the base kind is the word masked
with `0x1FFFFFFF` (its low 29 bits), the SRID flag is bit 29, and the dimensionality is
read off bits 31 (Z) and 30 (M). -/
theorem GetGeometryInfo_reference (wkbType : Nat) :
    (GetGeometryInfo wkbType).BaseType = wkbType &&& 0x1FFFFFFF
    ∧ (GetGeometryInfo wkbType).BaseType = wkbType % 2 ^ 29
    ∧ (GetGeometryInfo wkbType).HasSRID = wkbType.testBit 29
    ∧ (GetGeometryInfo wkbType).CoordType =
        (match wkbType.testBit 31, wkbType.testBit 30 with
          | true, true => CoordXYZM
          | true, false => CoordXYZ
          | false, true => CoordXYM
          | false, false => CoordXY) := by
  refine ⟨rfl, ?_, ?_, ?_⟩
  · rw [GetGeometryInfo_testBit]
  · rw [GetGeometryInfo_testBit]
  · rw [GetGeometryInfo_testBit]
    cases wkbType.testBit 31 <;> cases wkbType.testBit 30 <;> rfl

/-- C7. Packing a base kind below `0x20000000` keeps it in the low 29 bits and sets bit 31
exactly for +Z and +ZM, bit 30 exactly for +M and +ZM, bit 29 exactly when an SRID is
requested, and no bit above bit 31. -/
theorem BuildWKBType_flags (baseType : Nat) (coordType : CoordinateType) (hasSRID : Bool)
    (hb : baseType < 0x20000000)
    (hc : coordType = CoordXY ∨ coordType = CoordXYZ ∨ coordType = CoordXYM
      ∨ coordType = CoordXYZM) :
    BuildWKBType baseType coordType hasSRID &&& 0x1FFFFFFF = baseType
    ∧ ((BuildWKBType baseType coordType hasSRID).testBit 31 = true
        ↔ (coordType = CoordXYZ ∨ coordType = CoordXYZM))
    ∧ ((BuildWKBType baseType coordType hasSRID).testBit 30 = true
        ↔ (coordType = CoordXYM ∨ coordType = CoordXYZM))
    ∧ ((BuildWKBType baseType coordType hasSRID).testBit 29 = true ↔ hasSRID = true)
    ∧ (∀ i, 32 ≤ i → (BuildWKBType baseType coordType hasSRID).testBit i = false)
    ∧ BuildWKBType baseType coordType hasSRID < 2 ^ 32 := by
  have hb' : baseType < 2 ^ 29 := by norm_num at hb ⊢; exact hb
  have hmask : (0x1FFFFFFF : Nat) = 2 ^ 29 - 1 := by decide
  have hlt := flagBits_lt coordType hasSRID
  rw [BuildWKBType_eq_add _ _ _ hb', hmask, Nat.and_pow_two_sub_one_eq_mod]
  have hsmall : 2 ^ 29 * flagBits coordType hasSRID + baseType < 2 ^ 32 := by
    norm_num at hb' ⊢
    omega
  refine ⟨?_, ?_, ?_, ?_, ?_, hsmall⟩
  · rw [Nat.mul_add_mod, Nat.mod_eq_of_lt hb']
  · rw [Nat.testBit_mul_pow_two_add _ hb']
    rcases hc with h | h | h | h <;> subst h <;> cases hasSRID <;>
      simp [flagBits, CoordXY, CoordXYZ, CoordXYM, CoordXYZM, Nat.testBit]
  · rw [Nat.testBit_mul_pow_two_add _ hb']
    rcases hc with h | h | h | h <;> subst h <;> cases hasSRID <;>
      simp [flagBits, CoordXY, CoordXYZ, CoordXYM, CoordXYZM, Nat.testBit]
  · rw [Nat.testBit_mul_pow_two_add _ hb']
    rcases hc with h | h | h | h <;> subst h <;> cases hasSRID <;>
      simp [flagBits, CoordXY, CoordXYZ, CoordXYM, CoordXYZM, Nat.testBit]
  · intro i hi
    apply Nat.testBit_lt_two_pow
    calc 2 ^ 29 * flagBits coordType hasSRID + baseType < 2 ^ 32 := hsmall
      _ ≤ 2 ^ i := Nat.pow_le_pow_right (by decide) hi

/-- C7, at base kind 1 (point), dimensionality +M, with SRID: the code is `0x60000001`. -/
theorem BuildWKBType_flags_witness :
    (1 : Nat) < 0x20000000
    ∧ (CoordXYM = CoordXY ∨ CoordXYM = CoordXYZ ∨ CoordXYM = CoordXYM
      ∨ CoordXYM = CoordXYZM)
    ∧ BuildWKBType 1 CoordXYM true = 0x60000001
    ∧ BuildWKBType 1 CoordXYM true &&& 0x1FFFFFFF = 1
    ∧ ((BuildWKBType 1 CoordXYM true).testBit 31 = true
        ↔ (CoordXYM = CoordXYZ ∨ CoordXYM = CoordXYZM)) :=
  ⟨by decide, by decide, by decide,
    (BuildWKBType_flags 1 CoordXYM true (by decide) (by decide)).1,
    (BuildWKBType_flags 1 CoordXYM true (by decide) (by decide)).2.1⟩

/-- C8. A base kind of `0x20000000` or more does not survive packing and unpacking (there
is no check that rejects it): the unpacked base kind is below `0x20000000`, hence
different; `BuildWKBType(0x20000001, CoordXY, false)` unpacks as base kind 1 with the SRID
flag set. -/
theorem BuildWKBType_lossy (baseType : Nat) (coordType : CoordinateType) (hasSRID : Bool)
    (hb : 0x20000000 ≤ baseType) :
    (GetGeometryInfo (BuildWKBType baseType coordType hasSRID)).BaseType ≠ baseType
    ∧ (GetGeometryInfo (BuildWKBType baseType coordType hasSRID)).BaseType < 0x20000000
    ∧ GetGeometryInfo (BuildWKBType 0x20000001 CoordXY false)
        = { BaseType := 1, CoordType := CoordXY, HasSRID := true } := by
  have hlt : (GetGeometryInfo (BuildWKBType baseType coordType hasSRID)).BaseType
      < 0x20000000 := by
    have h := (GetGeometryInfo_testBit (BuildWKBType baseType coordType hasSRID))
    rw [h]
    exact Nat.mod_lt _ (by decide)
  refine ⟨?_, hlt, by decide⟩
  omega

/-- C8, at base kind `0x20000003` packed as +Z without SRID. -/
theorem BuildWKBType_lossy_witness :
    (0x20000000 : Nat) ≤ 0x20000003
    ∧ (GetGeometryInfo (BuildWKBType 0x20000003 CoordXYZ false)).BaseType ≠ 0x20000003 :=
  ⟨by decide, (BuildWKBType_lossy 0x20000003 CoordXYZ false (by decide)).1⟩

/-! ## Round trips: claims -/

/-- C2. Round trip for points without SRID: for a value of type `Point`, `PointZ`,
`PointM` or `PointZM` whose coordinates are any `float64` bit patterns, `Value` returns a
hex string and no error, and `Scan` of that string into a fresh destination of the same
type returns no error and leaves the destination equal to the value. -/
theorem Scan_Value_point (mem : Nat) (g : Geometry) (hp : g.isPoint = true) (_hs : g.hasSRID = false)
    (hv : g.valid) :
    ∃ s, g.Value = .ok (.string s) ∧ g.fresh.Scan mem (.string s) = (none, g) :=
  ⟨EncodeEWKB (g.wire .LittleEndian), Value_eq g,
    Scan_wire mem g g.fresh (fresh_fresh g) hv (by rw [numPoints_of_isPoint g hp]; decide)⟩

/-- C2, at the `PointZM` with coordinates -122.4194, 0.0, 37.7749 and -0.0. -/
theorem Scan_Value_point_witness :
    (Geometry.pointZM ⟨0xC05E9AD42C3C9EED, 0, 0x4042E3001D5C3158,
        0x8000000000000000⟩).isPoint = true
    ∧ (Geometry.pointZM ⟨0xC05E9AD42C3C9EED, 0, 0x4042E3001D5C3158,
        0x8000000000000000⟩).hasSRID = false
    ∧ (Geometry.pointZM ⟨0xC05E9AD42C3C9EED, 0, 0x4042E3001D5C3158,
        0x8000000000000000⟩).valid
    ∧ ∃ s, (Geometry.pointZM ⟨0xC05E9AD42C3C9EED, 0, 0x4042E3001D5C3158,
          0x8000000000000000⟩).Value = .ok (.string s)
        ∧ (Geometry.pointZM ⟨0, 0, 0, 0⟩).Scan 0 (.string s)
          = (none, Geometry.pointZM ⟨0xC05E9AD42C3C9EED, 0, 0x4042E3001D5C3158,
              0x8000000000000000⟩) :=
  ⟨by decide, by decide, by decide,
    Scan_Value_point 0 (.pointZM ⟨0xC05E9AD42C3C9EED, 0, 0x4042E3001D5C3158,
      0x8000000000000000⟩) (by decide) (by decide) (by decide)⟩

/-- C3. Round trip for SRID-bearing points: for a value of type `PointS`, `PointZS`,
`PointMS` or `PointZMS` whose SRID is any `int32` and whose coordinates are any `float64`
bit patterns, `Value` returns a hex string and no error, and `Scan` of that string into a
fresh destination of the same type returns no error and leaves the destination with the
same SRID and coordinates. -/
theorem Scan_Value_pointS (mem : Nat) (g : Geometry) (hp : g.isPoint = true) (hs : g.hasSRID = true)
    (hv : g.valid) :
    ∃ s, g.Value = .ok (.string s) ∧ g.fresh.Scan mem (.string s) = (none, g)
      ∧ (g.fresh.Scan mem (.string s)).2.SRID? = g.SRID? ∧ g.SRID?.isSome = true := by
  have hscan := Scan_wire mem g g.fresh (fresh_fresh g) hv
    (by rw [numPoints_of_isPoint g hp]; decide)
  refine ⟨EncodeEWKB (g.wire .LittleEndian), Value_eq g, hscan, by rw [hscan], ?_⟩
  cases g <;> first | rfl | simp [Geometry.hasSRID] at hs

/-- C3, at the `PointS` with SRID 4326 and coordinates -122.4194, 37.7749. -/
theorem Scan_Value_pointS_witness :
    (Geometry.pointS ⟨4326, 0xC05E9AD42C3C9EED, 0x4042E3001D5C3158⟩).isPoint = true
    ∧ (Geometry.pointS ⟨4326, 0xC05E9AD42C3C9EED, 0x4042E3001D5C3158⟩).hasSRID = true
    ∧ (Geometry.pointS ⟨4326, 0xC05E9AD42C3C9EED, 0x4042E3001D5C3158⟩).valid
    ∧ ∃ s, (Geometry.pointS ⟨4326, 0xC05E9AD42C3C9EED, 0x4042E3001D5C3158⟩).Value
          = .ok (.string s)
        ∧ (Geometry.pointS ⟨0, 0, 0⟩).Scan 0 (.string s)
          = (none, Geometry.pointS ⟨4326, 0xC05E9AD42C3C9EED, 0x4042E3001D5C3158⟩) :=
  ⟨by decide, by decide, by decide,
    (Scan_Value_pointS 0 (.pointS ⟨4326, 0xC05E9AD42C3C9EED, 0x4042E3001D5C3158⟩)
      (by decide) (by decide) (by decide)).imp (fun _ h => ⟨h.1, h.2.1⟩)⟩

/-- C4. Round trip for sequences: for a value of any of the eight line string types with
fewer than `2 ^ 32` points (none, one or more), `Value` returns a hex string and no error,
and `Scan` of that string into a fresh destination of the same type returns no error and
leaves the destination equal to the value: the same points in the same order, and the
same SRID for the types that have one. -/
theorem Scan_Value_lineString (mem : Nat) (g : Geometry) (_hl : g.isLineString = true) (hv : g.valid)
    (hn : g.numPoints < 2 ^ 32) :
    ∃ s, g.Value = .ok (.string s) ∧ g.fresh.Scan mem (.string s) = (none, g)
      ∧ (g.fresh.Scan mem (.string s)).2.numPoints = g.numPoints
      ∧ (g.fresh.Scan mem (.string s)).2.SRID? = g.SRID? := by
  have hscan := Scan_wire mem g g.fresh (fresh_fresh g) hv hn
  exact ⟨EncodeEWKB (g.wire .LittleEndian), Value_eq g, hscan, by rw [hscan], by rw [hscan]⟩

/-- C4, at the `LineStringZS` with SRID -1 and the two points (1.0, 2.0, -0.5) and
(1.0, 2.0, 0.0). -/
theorem Scan_Value_lineString_witness :
    (Geometry.lineStringZS ⟨-1, [⟨0x3FF0000000000000, 0x4000000000000000,
        0xBFE0000000000000⟩, ⟨0x3FF0000000000000, 0x4000000000000000, 0⟩]⟩).isLineString
      = true
    ∧ (Geometry.lineStringZS ⟨-1, [⟨0x3FF0000000000000, 0x4000000000000000,
        0xBFE0000000000000⟩, ⟨0x3FF0000000000000, 0x4000000000000000, 0⟩]⟩).valid
    ∧ (Geometry.lineStringZS ⟨-1, [⟨0x3FF0000000000000, 0x4000000000000000,
        0xBFE0000000000000⟩, ⟨0x3FF0000000000000, 0x4000000000000000, 0⟩]⟩).numPoints
      < 2 ^ 32
    ∧ ∃ s, (Geometry.lineStringZS ⟨-1, [⟨0x3FF0000000000000, 0x4000000000000000,
          0xBFE0000000000000⟩, ⟨0x3FF0000000000000, 0x4000000000000000, 0⟩]⟩).Value
          = .ok (.string s)
        ∧ (Geometry.lineStringZS ⟨0, []⟩).Scan 0 (.string s)
          = (none, Geometry.lineStringZS ⟨-1, [⟨0x3FF0000000000000, 0x4000000000000000,
              0xBFE0000000000000⟩, ⟨0x3FF0000000000000, 0x4000000000000000, 0⟩]⟩) :=
  ⟨by decide, by decide, by decide,
    (Scan_Value_lineString 0 (.lineStringZS ⟨-1, [⟨0x3FF0000000000000, 0x4000000000000000,
        0xBFE0000000000000⟩, ⟨0x3FF0000000000000, 0x4000000000000000, 0⟩]⟩)
      (by decide) (by decide) (by decide)).imp (fun _ h => ⟨h.1, h.2.1⟩)⟩

/-- C5. Empty sequence: a `LineString` with zero points is written as exactly the nine
bytes `01 02 00 00 00 00 00 00 00`, its body being the four zero bytes of the count, and
these nine bytes decode into a fresh `LineString` without error, with no point. -/
theorem WriteEWKB_empty_LineString (mem : Nat) :
    WriteEWKB (.lineString ⟨[]⟩) = .ok [1, 2, 0, 0, 0, 0, 0, 0, 0]
    ∧ Geometry.Write (.lineString ⟨[]⟩) [] = .ok [0, 0, 0, 0]
    ∧ ReadEWKB mem [1, 2, 0, 0, 0, 0, 0, 0, 0] (.lineString ⟨[]⟩)
        = ⟨none, .lineString ⟨[]⟩, []⟩
    ∧ Geometry.Value (.lineString ⟨[]⟩)
        = .ok (.string (hexEncodeToString [1, 2, 0, 0, 0, 0, 0, 0, 0]))
    ∧ Geometry.Scan mem (.lineString ⟨[]⟩)
        (.string (hexEncodeToString [1, 2, 0, 0, 0, 0, 0, 0, 0]))
        = (none, .lineString ⟨[]⟩) := by
  have hw : (Geometry.lineString ⟨[]⟩).wire .LittleEndian ++ []
      = [1, 2, 0, 0, 0, 0, 0, 0, 0] := by decide
  have hr := ReadEWKB_wire mem .LittleEndian (.lineString ⟨[]⟩) (.lineString ⟨[]⟩) [] rfl
    (by decide) (by decide)
  rw [hw] at hr
  have hs := Scan_wire mem (.lineString ⟨[]⟩) (.lineString ⟨[]⟩) rfl (by decide) (by decide)
  refine ⟨by decide, by decide, hr, by decide, ?_⟩
  exact hs

/-! ## Encoding layout: claims -/

/-- C9. Encode framing is always little-endian: for every value of the sixteen types
`WriteEWKB` returns no error, and its output is the byte `0x01`, then the four bytes of
`GetType` least significant first, then the four bytes of the SRID least significant
first exactly when the type carries an SRID (exactly when bit 29 of the written type code
is set), then exactly the bytes that `Write` produces; the first byte is never `0x00`. -/
theorem WriteEWKB_framing (g : Geometry) :
    ∃ body, g.Write [] = .ok body
      ∧ WriteEWKB g = .ok
          ([1] ++ [byte g.GetType, byte (g.GetType / 256), byte (g.GetType / 256 / 256),
              byte (g.GetType / 256 / 256 / 256)]
            ++ (match g.asSRIDGeometry with
                | some sridGeom =>
                  [byte (uint32OfInt32 sridGeom.GetSRID),
                    byte (uint32OfInt32 sridGeom.GetSRID / 256),
                    byte (uint32OfInt32 sridGeom.GetSRID / 256 / 256),
                    byte (uint32OfInt32 sridGeom.GetSRID / 256 / 256 / 256)]
                | none => [])
            ++ body)
      ∧ (g.asSRIDGeometry.isSome = g.hasSRID)
      ∧ (g.asSRIDGeometry.isSome = g.GetType.testBit 29)
      ∧ (g.asSRIDGeometry.map (fun sridGeom => sridGeom.GetSRID) = g.SRID?)
      ∧ (∀ out, WriteEWKB g = .ok out → out.head? = some 1 ∧ out.head? ≠ some 0) := by
  have hbit : g.hasSRID = g.GetType.testBit 29 := by
    have h := GetGeometryInfo_GetType g
    rw [GetGeometryInfo_testBit] at h
    exact (congrArg GeometryInfo.HasSRID h).symm
  have hsome : g.asSRIDGeometry.isSome = g.hasSRID := by
    cases g <;> rfl
  refine ⟨g.body .LittleEndian, ?_, ?_, hsome, by rw [hsome, hbit], ?_, ?_⟩
  · simpa using Write_eq g []
  · rw [WriteEWKB_eq]
    cases g <;> rfl
  · cases g <;> rfl
  · intro out hout
    rw [WriteEWKB_eq] at hout
    cases hout
    exact ⟨rfl, by simp [Geometry.wire, ByteOrder.marker, wkbNDR]⟩

/-- C10. Point body layout: the body written by `Write` for a point is its coordinates in
the order X, Y, then Z if present, then M if present, each as the eight bytes of its
`float64` least significant first, with no count and no SRID; it has `8 * k` bytes for
`k = 2, 3, 3, 4` coordinates, and the whole output of `WriteEWKB` has `5 + 8 * k` bytes
without SRID and `9 + 8 * k` bytes with SRID. -/
theorem point_body_layout (g : Geometry) (hp : g.isPoint = true) :
    (∃ body out, g.Write [] = .ok body ∧ body.length = 8 * g.dimension
      ∧ WriteEWKB g = .ok out
      ∧ out.length = (if g.hasSRID then 9 else 5) + 8 * g.dimension)
    ∧ (∀ (p : Point) (buffer : Buffer),
        p.Write buffer = .ok (buffer ++ (leBytes 8 p.X ++ leBytes 8 p.Y)))
    ∧ (∀ (p : PointZ) (buffer : Buffer),
        p.Write buffer = .ok (buffer ++ (leBytes 8 p.X ++ leBytes 8 p.Y ++ leBytes 8 p.Z)))
    ∧ (∀ (p : PointM) (buffer : Buffer),
        p.Write buffer = .ok (buffer ++ (leBytes 8 p.X ++ leBytes 8 p.Y ++ leBytes 8 p.M)))
    ∧ (∀ (p : PointZM) (buffer : Buffer),
        p.Write buffer = .ok
          (buffer ++ (leBytes 8 p.X ++ leBytes 8 p.Y ++ leBytes 8 p.Z ++ leBytes 8 p.M)))
    ∧ (∀ (p : PointS) (buffer : Buffer),
        p.Write buffer = .ok (buffer ++ (leBytes 8 p.X ++ leBytes 8 p.Y)))
    ∧ (∀ (p : PointZS) (buffer : Buffer),
        p.Write buffer = .ok (buffer ++ (leBytes 8 p.X ++ leBytes 8 p.Y ++ leBytes 8 p.Z)))
    ∧ (∀ (p : PointMS) (buffer : Buffer),
        p.Write buffer = .ok (buffer ++ (leBytes 8 p.X ++ leBytes 8 p.Y ++ leBytes 8 p.M)))
    ∧ (∀ (p : PointZMS) (buffer : Buffer),
        p.Write buffer = .ok
          (buffer ++ (leBytes 8 p.X ++ leBytes 8 p.Y ++ leBytes 8 p.Z ++ leBytes 8 p.M))) := by
  refine ⟨⟨g.body .LittleEndian, g.wire .LittleEndian, by simpa using Write_eq g [], ?_,
    WriteEWKB_eq g, ?_⟩, ?_, ?_, ?_, ?_, ?_, ?_, ?_, ?_⟩
  · cases g <;>
      simp [Geometry.isPoint, Geometry.body, Geometry.dimension, putFloat64s_length] at hp ⊢
  · cases g <;>
      simp [Geometry.isPoint, Geometry.wire, Geometry.sridBytes, Geometry.SRID?,
        Geometry.body, Geometry.dimension, Geometry.hasSRID, putFloat64s_length,
        PutUint32_length] at hp ⊢
  all_goals
    intro p buffer
    simp [Point.Write, PointZ.Write, PointM.Write, PointZM.Write, PointS.Write,
      PointZS.Write, PointMS.Write, PointZMS.Write, binaryWriteFloat64s, putFloat64s,
      ByteOrder.PutUint64]

/-- C10, at the `PointZS` with SRID 4326 and coordinates 1.0, 2.0, -0.5: 24 bytes of
body, 33 bytes in all. -/
theorem point_body_layout_witness :
    (Geometry.pointZS ⟨4326, 0x3FF0000000000000, 0x4000000000000000,
        0xBFE0000000000000⟩).isPoint = true
    ∧ ∃ body out,
        (Geometry.pointZS ⟨4326, 0x3FF0000000000000, 0x4000000000000000,
          0xBFE0000000000000⟩).Write [] = .ok body
        ∧ body.length = 8 * 3
        ∧ WriteEWKB (.pointZS ⟨4326, 0x3FF0000000000000, 0x4000000000000000,
            0xBFE0000000000000⟩) = .ok out
        ∧ out.length = 9 + 8 * 3 :=
  ⟨by decide,
    (point_body_layout (.pointZS ⟨4326, 0x3FF0000000000000, 0x4000000000000000,
      0xBFE0000000000000⟩) (by decide)).1⟩


/-! ## Type codes of the variants: claims -/

/-- C12. Type codes of the sixteen variants: `GetType` returns the listed constant for
each type whatever the field values, and unpacking each constant gives the base kind
(1 for points, 2 for line strings), the dimensionality and the SRID flag of the type. -/
theorem GetType_codes :
    (∀ p : Point, (Geometry.point p).GetType = 1)
    ∧ (∀ p : PointZ, (Geometry.pointZ p).GetType = 0x80000001)
    ∧ (∀ p : PointM, (Geometry.pointM p).GetType = 0x40000001)
    ∧ (∀ p : PointZM, (Geometry.pointZM p).GetType = 0xC0000001)
    ∧ (∀ p : PointS, (Geometry.pointS p).GetType = 0x20000001)
    ∧ (∀ p : PointZS, (Geometry.pointZS p).GetType = 0xA0000001)
    ∧ (∀ p : PointMS, (Geometry.pointMS p).GetType = 0x60000001)
    ∧ (∀ p : PointZMS, (Geometry.pointZMS p).GetType = 0xE0000001)
    ∧ (∀ ls : LineString, (Geometry.lineString ls).GetType = 2)
    ∧ (∀ ls : LineStringZ, (Geometry.lineStringZ ls).GetType = 0x80000002)
    ∧ (∀ ls : LineStringM, (Geometry.lineStringM ls).GetType = 0x40000002)
    ∧ (∀ ls : LineStringZM, (Geometry.lineStringZM ls).GetType = 0xC0000002)
    ∧ (∀ ls : LineStringS, (Geometry.lineStringS ls).GetType = 0x20000002)
    ∧ (∀ ls : LineStringZS, (Geometry.lineStringZS ls).GetType = 0xA0000002)
    ∧ (∀ ls : LineStringMS, (Geometry.lineStringMS ls).GetType = 0x60000002)
    ∧ (∀ ls : LineStringZMS, (Geometry.lineStringZMS ls).GetType = 0xE0000002)
    ∧ GetGeometryInfo 1 = { BaseType := WKBPoint, CoordType := CoordXY, HasSRID := false }
    ∧ GetGeometryInfo 0x80000001 = { BaseType := WKBPoint, CoordType := CoordXYZ, HasSRID := false }
    ∧ GetGeometryInfo 0x40000001 = { BaseType := WKBPoint, CoordType := CoordXYM, HasSRID := false }
    ∧ GetGeometryInfo 0xC0000001 = { BaseType := WKBPoint, CoordType := CoordXYZM, HasSRID := false }
    ∧ GetGeometryInfo 0x20000001 = { BaseType := WKBPoint, CoordType := CoordXY, HasSRID := true }
    ∧ GetGeometryInfo 0xA0000001 = { BaseType := WKBPoint, CoordType := CoordXYZ, HasSRID := true }
    ∧ GetGeometryInfo 0x60000001 = { BaseType := WKBPoint, CoordType := CoordXYM, HasSRID := true }
    ∧ GetGeometryInfo 0xE0000001 = { BaseType := WKBPoint, CoordType := CoordXYZM, HasSRID := true }
    ∧ GetGeometryInfo 2 = { BaseType := WKBLineString, CoordType := CoordXY, HasSRID := false }
    ∧ GetGeometryInfo 0x80000002 = { BaseType := WKBLineString, CoordType := CoordXYZ, HasSRID := false }
    ∧ GetGeometryInfo 0x40000002 = { BaseType := WKBLineString, CoordType := CoordXYM, HasSRID := false }
    ∧ GetGeometryInfo 0xC0000002 = { BaseType := WKBLineString, CoordType := CoordXYZM, HasSRID := false }
    ∧ GetGeometryInfo 0x20000002 = { BaseType := WKBLineString, CoordType := CoordXY, HasSRID := true }
    ∧ GetGeometryInfo 0xA0000002 = { BaseType := WKBLineString, CoordType := CoordXYZ, HasSRID := true }
    ∧ GetGeometryInfo 0x60000002 = { BaseType := WKBLineString, CoordType := CoordXYM, HasSRID := true }
    ∧ GetGeometryInfo 0xE0000002 = { BaseType := WKBLineString, CoordType := CoordXYZM, HasSRID := true } := by
  refine ⟨?_, ?_, ?_, ?_, ?_, ?_, ?_, ?_, ?_, ?_, ?_, ?_, ?_, ?_, ?_, ?_, ?_, ?_, ?_, ?_, ?_, ?_, ?_, ?_, ?_, ?_, ?_, ?_, ?_, ?_, ?_, ?_⟩
  all_goals first | decide | (intro _; rfl)

theorem body_length (order : ByteOrder) (g : Geometry) :
    (g.body order).length
      = if g.isPoint then 8 * g.dimension else 4 + 8 * g.dimension * g.numPoints := by
  cases g <;>
    simp [Geometry.body, Geometry.isPoint, Geometry.dimension, Geometry.numPoints,
      putFloat64s_length, PutUint32_length, encode_Point_length, encode_PointZ_length,
      encode_PointM_length, encode_PointZM_length]

theorem wire_length (order : ByteOrder) (g : Geometry) :
    (g.wire order).length = (if g.hasSRID then 9 else 5) + (g.body order).length := by
  cases g <;>
    simp [Geometry.wire, Geometry.sridBytes, Geometry.SRID?, Geometry.hasSRID,
      PutUint32_length] <;> omega

theorem encodeElements_congr {T : Type} (f g : T → List Byte) (h : ∀ p, f p = g p)
    (ps : List T) : encodeElements f ps = encodeElements g ps := by
  have hfg : f = g := funext h
  rw [hfg]

/-! ## Sequence layout: claims -/

/-- C11. Sequence body layout: the body written by `Write` for a line string with `n`
points is the four bytes of the count `n`, least significant first, followed by the
bodies of the points in list order, each of `8 * k` bytes for `k = 2, 3, 3, 4`
coordinates, with no SRID inside; for `n < 2 ^ 32` the encoded count is `n`, the body has
`4 + 8 * k * n` bytes and the whole output of `WriteEWKB` has `9 + 8 * k * n` bytes
without SRID and `13 + 8 * k * n` bytes with SRID. -/
theorem lineString_body_layout (g : Geometry) (hl : g.isLineString = true)
    (hn : g.numPoints < 2 ^ 32) :
    (∃ body out, g.Write [] = .ok body
      ∧ leValue (body.take 4) = g.numPoints
      ∧ body.length = 4 + 8 * g.dimension * g.numPoints
      ∧ WriteEWKB g = .ok out
      ∧ out.length = (if g.hasSRID then 13 else 9) + 8 * g.dimension * g.numPoints)
    ∧ (∀ (ls : LineString) (buffer : Buffer),
        ls.Write buffer = .ok (buffer ++ (leBytes 4 ls.Points.length
          ++ encodeElements (fun p => leBytes 8 p.X ++ leBytes 8 p.Y) ls.Points)))
    ∧ (∀ (ls : LineStringZ) (buffer : Buffer),
        ls.Write buffer = .ok (buffer ++ (leBytes 4 ls.Points.length
          ++ encodeElements (fun p => leBytes 8 p.X ++ leBytes 8 p.Y ++ leBytes 8 p.Z) ls.Points)))
    ∧ (∀ (ls : LineStringM) (buffer : Buffer),
        ls.Write buffer = .ok (buffer ++ (leBytes 4 ls.Points.length
          ++ encodeElements (fun p => leBytes 8 p.X ++ leBytes 8 p.Y ++ leBytes 8 p.M) ls.Points)))
    ∧ (∀ (ls : LineStringZM) (buffer : Buffer),
        ls.Write buffer = .ok (buffer ++ (leBytes 4 ls.Points.length
          ++ encodeElements (fun p => leBytes 8 p.X ++ leBytes 8 p.Y ++ leBytes 8 p.Z ++ leBytes 8 p.M) ls.Points)))
    ∧ (∀ (ls : LineStringS) (buffer : Buffer),
        ls.Write buffer = .ok (buffer ++ (leBytes 4 ls.Points.length
          ++ encodeElements (fun p => leBytes 8 p.X ++ leBytes 8 p.Y) ls.Points)))
    ∧ (∀ (ls : LineStringZS) (buffer : Buffer),
        ls.Write buffer = .ok (buffer ++ (leBytes 4 ls.Points.length
          ++ encodeElements (fun p => leBytes 8 p.X ++ leBytes 8 p.Y ++ leBytes 8 p.Z) ls.Points)))
    ∧ (∀ (ls : LineStringMS) (buffer : Buffer),
        ls.Write buffer = .ok (buffer ++ (leBytes 4 ls.Points.length
          ++ encodeElements (fun p => leBytes 8 p.X ++ leBytes 8 p.Y ++ leBytes 8 p.M) ls.Points)))
    ∧ (∀ (ls : LineStringZMS) (buffer : Buffer),
        ls.Write buffer = .ok (buffer ++ (leBytes 4 ls.Points.length
          ++ encodeElements (fun p => leBytes 8 p.X ++ leBytes 8 p.Y ++ leBytes 8 p.Z ++ leBytes 8 p.M) ls.Points))) := by
  have hp : g.isPoint = false := by
    simpa [Geometry.isLineString] using hl
  refine ⟨⟨g.body .LittleEndian, g.wire .LittleEndian, by simpa using Write_eq g [], ?_, ?_,
    WriteEWKB_eq g, ?_⟩, ?_, ?_, ?_, ?_, ?_, ?_, ?_, ?_⟩
  · have h4 : (ByteOrder.LittleEndian.PutUint32 g.numPoints).length = 4 :=
      PutUint32_length _ _
    have hv : leValue (ByteOrder.LittleEndian.PutUint32 g.numPoints) = g.numPoints := by
      have h := Uint32_PutUint32 .LittleEndian g.numPoints
      rw [Nat.mod_eq_of_lt hn] at h
      exact h
    cases g <;> simp [Geometry.isPoint] at hp <;>
      simp only [Geometry.body, Geometry.numPoints] at h4 hv ⊢ <;>
      rw [List.take_left' h4, hv]
  · rw [body_length, hp]
    simp
  · rw [wire_length, body_length, hp]
    cases g.hasSRID <;> simp <;> omega
  all_goals
    intro ls buffer
    first
    | exact (Write_eq (.lineString ls) buffer).trans (by
        simp only [Geometry.body, putFloat64s_Point_fields]; rfl)
    | exact (Write_eq (.lineStringZ ls) buffer).trans (by
        simp only [Geometry.body, putFloat64s_PointZ_fields]; rfl)
    | exact (Write_eq (.lineStringM ls) buffer).trans (by
        simp only [Geometry.body, putFloat64s_PointM_fields]; rfl)
    | exact (Write_eq (.lineStringZM ls) buffer).trans (by
        simp only [Geometry.body, putFloat64s_PointZM_fields]; rfl)
    | exact (Write_eq (.lineStringS ls) buffer).trans (by
        simp only [Geometry.body, putFloat64s_Point_fields]; rfl)
    | exact (Write_eq (.lineStringZS ls) buffer).trans (by
        simp only [Geometry.body, putFloat64s_PointZ_fields]; rfl)
    | exact (Write_eq (.lineStringMS ls) buffer).trans (by
        simp only [Geometry.body, putFloat64s_PointM_fields]; rfl)
    | exact (Write_eq (.lineStringZMS ls) buffer).trans (by
        simp only [Geometry.body, putFloat64s_PointZM_fields]; rfl)

/-! ## Lemmas: decoding an arbitrary stream -/

theorem readFull_of_le (r : Reader) (n : Nat) (h : n ≤ r.length) :
    readFull r n = (.ok (r.take n), r.drop n) := by
  simp [readFull, h]

theorem readFull_of_lt (r : Reader) (n : Nat) (h : r.length < n) :
    readFull r n
      = (.error (if r.length = 0 then .EOF else .ErrUnexpectedEOF), []) := by
  unfold readFull
  rw [if_neg (by omega)]
  split <;> rfl

theorem ReadEWKB_nil (mem : Nat) (g : Geometry) : ReadEWKB mem [] g = ⟨some .EOF, g, []⟩ := by
  rfl

theorem ReadEWKB_badMarker (mem : Nat) (b : Byte) (rest : List Byte) (g : Geometry)
    (h0 : b ≠ wkbXDR) (h1 : b ≠ wkbNDR) :
    ReadEWKB mem (b :: rest) g = ⟨some .unsupportedByteOrder, g, rest⟩ := by
  unfold ReadEWKB
  simp only [binaryReadUint8_cons, h0, h1, if_false]

theorem ReadEWKB_header (mem : Nat) (order : ByteOrder) (ty rest : List Byte) (g : Geometry)
    (hty : ty.length = 4) :
    ReadEWKB mem (order.marker :: (ty ++ rest)) g =
      if (GetGeometryInfo (order.Uint32 ty)).HasSRID then
        match g.asSRIDGeometry with
        | some sridGeom =>
          match binaryReadInt32 rest order with
          | (.error e, reader) => ⟨some e, g, reader⟩
          | (.ok srid, reader) =>
            ReadGeometryData mem reader order (sridGeom.SetSRID srid)
              (GetGeometryInfo (order.Uint32 ty))
        | none => ⟨some (.unexpectedSRID g.typeName), g, rest⟩
      else ReadGeometryData mem rest order g (GetGeometryInfo (order.Uint32 ty)) := by
  have hr : binaryReadUint32 (ty ++ rest) order = (.ok (order.Uint32 ty), rest) := by
    simp only [binaryReadUint32, readFull_append ty rest 4 hty]
  unfold ReadEWKB
  simp only [binaryReadUint8_cons]
  cases order
  · have h1 : ¬ (wkbNDR = wkbXDR) := by decide
    simp only [ByteOrder.marker, h1, if_false, if_true, hr]
  · simp only [ByteOrder.marker, if_true, hr]

theorem ReadEWKB_shortType (mem : Nat) (order : ByteOrder) (r : List Byte) (g : Geometry)
    (h : r.length < 4) :
    ReadEWKB mem (order.marker :: r) g
      = ⟨some (if r.length = 0 then .EOF else .ErrUnexpectedEOF), g, []⟩ := by
  have hr : binaryReadUint32 r order
      = (.error (if r.length = 0 then .EOF else .ErrUnexpectedEOF), []) := by
    simp only [binaryReadUint32, readFull_of_lt r 4 h]
  unfold ReadEWKB
  simp only [binaryReadUint8_cons]
  cases order
  · have h1 : ¬ (wkbNDR = wkbXDR) := by decide
    simp only [ByteOrder.marker, h1, if_false, if_true, hr]
  · simp only [ByteOrder.marker, if_true, hr]

theorem DecodeEWKB_EncodeEWKB (bs : List Byte) :
    DecodeEWKB (.string (EncodeEWKB bs)) = .ok bs := by
  simp only [DecodeEWKB, EncodeEWKB, hexDecodeString_hexEncodeToString]

theorem Scan_EncodeEWKB (mem : Nat) (d : Geometry) (bs : List Byte) :
    d.Scan mem (.string (EncodeEWKB bs)) = ((ReadEWKB mem bs d).err, (ReadEWKB mem bs d).dst) := by
  simp only [Geometry.Scan, scanGeometryHelper, DecodeEWKB_EncodeEWKB]

theorem hasSRID_testBit (w : Nat) : (GetGeometryInfo w).HasSRID = w.testBit 29 := by
  rw [GetGeometryInfo_testBit]

theorem asSRIDGeometry_none (g : Geometry) (h : g.hasSRID = false) :
    g.asSRIDGeometry = none := by
  cases g <;> first | rfl | simp [Geometry.hasSRID] at h

/-! ## Decode errors: claims -/

/-- C14. Unknown byte order: when the first byte of the stream is neither `0x00` nor
`0x01`, `ReadEWKB` fails with the unsupported-byte-order error whatever the destination
and whatever bytes follow; it has consumed exactly the first byte and the destination is
unchanged. -/
theorem ReadEWKB_unsupportedByteOrder (mem : Nat) (b : Byte) (rest : List Byte) (g : Geometry)
    (h0 : b ≠ 0) (h1 : b ≠ 1) :
    ReadEWKB mem (b :: rest) g = ⟨some .unsupportedByteOrder, g, rest⟩ :=
  ReadEWKB_badMarker mem b rest g h0 h1

/-- C14, at the stream `02 01 00 00 00` and a `PointS` destination holding SRID 7. -/
theorem ReadEWKB_unsupportedByteOrder_witness :
    (2 : Byte) ≠ 0 ∧ (2 : Byte) ≠ 1
    ∧ ReadEWKB 0 [2, 1, 0, 0, 0] (.pointS ⟨7, 1, 2⟩)
      = ⟨some .unsupportedByteOrder, .pointS ⟨7, 1, 2⟩, [1, 0, 0, 0]⟩ :=
  ⟨by decide, by decide,
    ReadEWKB_unsupportedByteOrder 0 2 [1, 0, 0, 0] (.pointS ⟨7, 1, 2⟩) (by decide)
      (by decide)⟩

/-- C15. Unexpected SRID: for a stream with a valid marker and a complete type code whose
bit 29 is set, `ReadEWKB` into a destination whose type has no SRID fails with the
unexpected-SRID error, leaves the destination unchanged and reads nothing after the type
code; in particular `Scan` of the `Value` of any `PointS` into a `Point` fails so. -/
theorem ReadEWKB_unexpectedSRID (mem : Nat) (order : ByteOrder) (ty rest : List Byte) (g : Geometry)
    (hty : ty.length = 4) (hbit : (order.Uint32 ty).testBit 29 = true)
    (hg : g.hasSRID = false) :
    ReadEWKB mem (order.marker :: (ty ++ rest)) g
        = ⟨some (.unexpectedSRID g.typeName), g, rest⟩
    ∧ ∀ (p : PointS) (q : Point) (s : GoString),
        Geometry.Value (.pointS p) = .ok (.string s) →
        Geometry.Scan mem (.point q) (.string s)
          = (some (.unexpectedSRID "*postgis.Point"), .point q) := by
  constructor
  · rw [ReadEWKB_header mem order ty rest g hty, hasSRID_testBit, hbit, if_pos rfl,
      asSRIDGeometry_none g hg]
  · intro p q s hs
    have hv := Value_eq (.pointS p)
    rw [hv] at hs
    have hs2 : EncodeEWKB ((Geometry.pointS p).wire .LittleEndian) = s := by
      injection hs with h1
      injection h1
    have hread := ReadEWKB_marker mem .LittleEndian (Geometry.pointS p).GetType
      ((Geometry.pointS p).sridBytes .LittleEndian
        ++ (Geometry.pointS p).body .LittleEndian) (.point q) (GetType_lt _)
    rw [GetGeometryInfo_GetType] at hread
    have hsrid : (Geometry.pointS p).hasSRID = true := rfl
    have hnone : (Geometry.point q).asSRIDGeometry = none := rfl
    simp only [hsrid, if_true, hnone] at hread
    have hwire : ReadEWKB mem ((Geometry.pointS p).wire .LittleEndian) (.point q)
        = ⟨some (.unexpectedSRID (Geometry.point q).typeName), .point q,
            (Geometry.pointS p).sridBytes .LittleEndian
              ++ (Geometry.pointS p).body .LittleEndian⟩ := hread
    rw [← hs2, Scan_EncodeEWKB, hwire]
    rfl

/-- C15, at the little-endian stream with type code `0x20000001` and a `LineStringZ`
destination. -/
theorem ReadEWKB_unexpectedSRID_witness :
    ([1, 0, 0, 0x20] : List Byte).length = 4
    ∧ (ByteOrder.LittleEndian.Uint32 [1, 0, 0, 0x20]).testBit 29 = true
    ∧ (Geometry.lineStringZ ⟨[⟨1, 2, 3⟩]⟩).hasSRID = false
    ∧ ReadEWKB 0 (1 :: ([1, 0, 0, 0x20] ++ [0xe6, 0x10, 0, 0]))
        (.lineStringZ ⟨[⟨1, 2, 3⟩]⟩)
      = ⟨some (.unexpectedSRID "*postgis.LineStringZ"), .lineStringZ ⟨[⟨1, 2, 3⟩]⟩,
          [0xe6, 0x10, 0, 0]⟩ :=
  ⟨by decide, by decide, by decide,
    (ReadEWKB_unexpectedSRID 0 .LittleEndian [1, 0, 0, 0x20] [0xe6, 0x10, 0, 0]
      (.lineStringZ ⟨[⟨1, 2, 3⟩]⟩) (by decide) (by decide) (by decide)).1⟩

/-! ## Lemmas: reads by length -/

theorem shortError_kind (r : Reader) : (shortError r).kind = .Truncated := by
  unfold shortError
  split <;> rfl

theorem readFull_short (r : Reader) (n : Nat) (h : r.length < n) :
    readFull r n = (.error (shortError r), []) :=
  readFull_of_lt r n h

theorem wireFloat64_take (order : ByteOrder) (bs : List Byte) (n off : Nat)
    (h : off + 8 ≤ n) :
    wireFloat64 order (bs.take n) off = wireFloat64 order bs off := by
  unfold wireFloat64
  rw [List.drop_take, List.take_take, Nat.min_eq_left (by omega)]

theorem float64Field_eq (order : ByteOrder) (bs : List Byte) (i : Nat) :
    float64Field order bs i = wireFloat64 order bs (8 * i) := rfl

theorem binaryReadUint32_of_le (r : Reader) (order : ByteOrder) (h : 4 ≤ r.length) :
    binaryReadUint32 r order = (.ok (order.Uint32 (r.take 4)), r.drop 4) := by
  simp only [binaryReadUint32, readFull_of_le r 4 h]

theorem binaryReadUint32_of_lt (r : Reader) (order : ByteOrder) (h : r.length < 4) :
    binaryReadUint32 r order = (.error (shortError r), []) := by
  simp only [binaryReadUint32, readFull_short r 4 h]

theorem binaryReadInt32_of_le (r : Reader) (order : ByteOrder) (h : 4 ≤ r.length) :
    binaryReadInt32 r order
      = (.ok (int32OfUint32 (order.Uint32 (r.take 4))), r.drop 4) := by
  simp only [binaryReadInt32, readFull_of_le r 4 h]

theorem binaryReadInt32_of_lt (r : Reader) (order : ByteOrder) (h : r.length < 4) :
    binaryReadInt32 r order = (.error (shortError r), []) := by
  simp only [binaryReadInt32, readFull_short r 4 h]

theorem binaryReadFloat64_of_le (r : Reader) (order : ByteOrder) (h : 8 ≤ r.length) :
    binaryReadFloat64 r order = (.ok (wireFloat64 order r 0), r.drop 8) := by
  simp only [binaryReadFloat64, readFull_of_le r 8 h, wireFloat64, List.drop_zero]

theorem binaryReadFloat64_of_lt (r : Reader) (order : ByteOrder) (h : r.length < 8) :
    binaryReadFloat64 r order = (.error (shortError r), []) := by
  simp only [binaryReadFloat64, readFull_short r 8 h]

theorem binaryReadPoint_of_le (r : Reader) (order : ByteOrder) (h : 16 ≤ r.length) :
    binaryReadPoint r order = (.ok (Point.decode order r), r.drop 16) := by
  simp only [binaryReadPoint, readFull_of_le r 16 h, Point.decode, float64Field_eq]
  rw [wireFloat64_take _ _ _ _ (by omega), wireFloat64_take _ _ _ _ (by omega)]

theorem binaryReadPoint_of_lt (r : Reader) (order : ByteOrder) (h : r.length < 16) :
    binaryReadPoint r order = (.error (shortError r), []) := by
  simp only [binaryReadPoint, readFull_short r 16 h]

theorem binaryReadPointZ_of_le (r : Reader) (order : ByteOrder) (h : 24 ≤ r.length) :
    binaryReadPointZ r order = (.ok (PointZ.decode order r), r.drop 24) := by
  simp only [binaryReadPointZ, readFull_of_le r 24 h, PointZ.decode, float64Field_eq]
  rw [wireFloat64_take _ _ _ _ (by omega), wireFloat64_take _ _ _ _ (by omega),
    wireFloat64_take _ _ _ _ (by omega)]

theorem binaryReadPointZ_of_lt (r : Reader) (order : ByteOrder) (h : r.length < 24) :
    binaryReadPointZ r order = (.error (shortError r), []) := by
  simp only [binaryReadPointZ, readFull_short r 24 h]

theorem binaryReadPointM_of_le (r : Reader) (order : ByteOrder) (h : 24 ≤ r.length) :
    binaryReadPointM r order = (.ok (PointM.decode order r), r.drop 24) := by
  simp only [binaryReadPointM, readFull_of_le r 24 h, PointM.decode, float64Field_eq]
  rw [wireFloat64_take _ _ _ _ (by omega), wireFloat64_take _ _ _ _ (by omega),
    wireFloat64_take _ _ _ _ (by omega)]

theorem binaryReadPointM_of_lt (r : Reader) (order : ByteOrder) (h : r.length < 24) :
    binaryReadPointM r order = (.error (shortError r), []) := by
  simp only [binaryReadPointM, readFull_short r 24 h]

theorem binaryReadPointZM_of_le (r : Reader) (order : ByteOrder) (h : 32 ≤ r.length) :
    binaryReadPointZM r order = (.ok (PointZM.decode order r), r.drop 32) := by
  simp only [binaryReadPointZM, readFull_of_le r 32 h, PointZM.decode, float64Field_eq]
  rw [wireFloat64_take _ _ _ _ (by omega), wireFloat64_take _ _ _ _ (by omega),
    wireFloat64_take _ _ _ _ (by omega), wireFloat64_take _ _ _ _ (by omega)]

theorem binaryReadPointZM_of_lt (r : Reader) (order : ByteOrder) (h : r.length < 32) :
    binaryReadPointZM r order = (.error (shortError r), []) := by
  simp only [binaryReadPointZM, readFull_short r 32 h]

theorem readElementsLoop_of_le {T : Type}
    (read : Reader → ByteOrder → Except Error T × Reader) (dec : List Byte → T)
    (size : Nat) (order : ByteOrder)
    (hok : ∀ r, size ≤ r.length → read r order = (.ok (dec r), r.drop size))
    (count : Nat) (r : Reader) (h : count * size ≤ r.length) :
    readElementsLoop read r order count
      = (.ok (decodeElements dec size count r), r.drop (count * size)) := by
  induction count generalizing r with
  | zero => simp [readElementsLoop, decodeElements]
  | succ c ih =>
    have hmul : (c + 1) * size = size + c * size := by
      rw [Nat.succ_mul, Nat.add_comm]
    have h1 : size ≤ r.length := by omega
    have h2 : c * size ≤ (r.drop size).length := by
      rw [List.length_drop]
      omega
    simp only [readElementsLoop, hok r h1, ih _ h2, decodeElements, List.drop_drop, hmul]

theorem readElementsLoop_of_lt {T : Type}
    (read : Reader → ByteOrder → Except Error T × Reader) (dec : List Byte → T)
    (size : Nat) (order : ByteOrder)
    (hok : ∀ r, size ≤ r.length → read r order = (.ok (dec r), r.drop size))
    (herr : ∀ r, r.length < size → read r order = (.error (shortError r), []))
    (count : Nat) (r : Reader) (h : r.length < count * size) :
    ∃ e, readElementsLoop read r order count = (.error e, []) ∧ e.kind = .Truncated := by
  induction count generalizing r with
  | zero => simp at h
  | succ c ih =>
    have hmul : (c + 1) * size = size + c * size := by
      rw [Nat.succ_mul, Nat.add_comm]
    by_cases h1 : size ≤ r.length
    · have h2 : (r.drop size).length < c * size := by
        rw [List.length_drop]
        omega
      obtain ⟨e, he, hk⟩ := ih _ h2
      exact ⟨e, by simp only [readElementsLoop, hok r h1, he], hk⟩
    · exact ⟨shortError r, by simp only [readElementsLoop, herr r (by omega)],
        shortError_kind r⟩

theorem wireFloat64_drop (order : ByteOrder) (r : List Byte) (a b : Nat) :
    wireFloat64 order (r.drop a) b = wireFloat64 order r (a + b) := by
  unfold wireFloat64
  rw [List.drop_drop, Nat.add_comm]

theorem readElements_Point_of_le (mem : Nat) (order : ByteOrder) (count : Nat) (r : Reader)
    (h : count * 16 ≤ r.length) :
    readElementsHelper mem 16 binaryReadPoint r order count
      = (.ok (decodeElements (Point.decode order) 16 count r), r.drop (count * 16)) := by
  rw [readElementsHelper_of_granted mem _ _ _ _ _ (makeGranted_of_le mem _ _ _ h)]
  exact readElementsLoop_of_le binaryReadPoint (Point.decode order) 16 order
    (fun r hr => binaryReadPoint_of_le r order hr) count r h

theorem readElements_Point_of_lt (mem : Nat) (order : ByteOrder) (count : Nat) (r : Reader)
    (h : r.length < count * 16) (hg : makeGranted mem r 16 count = true) :
    ∃ e, readElementsHelper mem 16 binaryReadPoint r order count = (.error e, [])
      ∧ e.kind = .Truncated := by
  rw [readElementsHelper_of_granted mem _ _ _ _ _ hg]
  exact readElementsLoop_of_lt binaryReadPoint (Point.decode order) 16 order
    (fun r hr => binaryReadPoint_of_le r order hr)
    (fun r hr => binaryReadPoint_of_lt r order hr) count r h

theorem readElements_PointZ_of_le (mem : Nat) (order : ByteOrder) (count : Nat) (r : Reader)
    (h : count * 24 ≤ r.length) :
    readElementsHelper mem 24 binaryReadPointZ r order count
      = (.ok (decodeElements (PointZ.decode order) 24 count r), r.drop (count * 24)) := by
  rw [readElementsHelper_of_granted mem _ _ _ _ _ (makeGranted_of_le mem _ _ _ h)]
  exact readElementsLoop_of_le binaryReadPointZ (PointZ.decode order) 24 order
    (fun r hr => binaryReadPointZ_of_le r order hr) count r h

theorem readElements_PointZ_of_lt (mem : Nat) (order : ByteOrder) (count : Nat) (r : Reader)
    (h : r.length < count * 24) (hg : makeGranted mem r 24 count = true) :
    ∃ e, readElementsHelper mem 24 binaryReadPointZ r order count = (.error e, [])
      ∧ e.kind = .Truncated := by
  rw [readElementsHelper_of_granted mem _ _ _ _ _ hg]
  exact readElementsLoop_of_lt binaryReadPointZ (PointZ.decode order) 24 order
    (fun r hr => binaryReadPointZ_of_le r order hr)
    (fun r hr => binaryReadPointZ_of_lt r order hr) count r h

theorem readElements_PointM_of_le (mem : Nat) (order : ByteOrder) (count : Nat) (r : Reader)
    (h : count * 24 ≤ r.length) :
    readElementsHelper mem 24 binaryReadPointM r order count
      = (.ok (decodeElements (PointM.decode order) 24 count r), r.drop (count * 24)) := by
  rw [readElementsHelper_of_granted mem _ _ _ _ _ (makeGranted_of_le mem _ _ _ h)]
  exact readElementsLoop_of_le binaryReadPointM (PointM.decode order) 24 order
    (fun r hr => binaryReadPointM_of_le r order hr) count r h

theorem readElements_PointM_of_lt (mem : Nat) (order : ByteOrder) (count : Nat) (r : Reader)
    (h : r.length < count * 24) (hg : makeGranted mem r 24 count = true) :
    ∃ e, readElementsHelper mem 24 binaryReadPointM r order count = (.error e, [])
      ∧ e.kind = .Truncated := by
  rw [readElementsHelper_of_granted mem _ _ _ _ _ hg]
  exact readElementsLoop_of_lt binaryReadPointM (PointM.decode order) 24 order
    (fun r hr => binaryReadPointM_of_le r order hr)
    (fun r hr => binaryReadPointM_of_lt r order hr) count r h

theorem readElements_PointZM_of_le (mem : Nat) (order : ByteOrder) (count : Nat) (r : Reader)
    (h : count * 32 ≤ r.length) :
    readElementsHelper mem 32 binaryReadPointZM r order count
      = (.ok (decodeElements (PointZM.decode order) 32 count r), r.drop (count * 32)) := by
  rw [readElementsHelper_of_granted mem _ _ _ _ _ (makeGranted_of_le mem _ _ _ h)]
  exact readElementsLoop_of_le binaryReadPointZM (PointZM.decode order) 32 order
    (fun r hr => binaryReadPointZM_of_le r order hr) count r h

theorem readElements_PointZM_of_lt (mem : Nat) (order : ByteOrder) (count : Nat) (r : Reader)
    (h : r.length < count * 32) (hg : makeGranted mem r 32 count = true) :
    ∃ e, readElementsHelper mem 32 binaryReadPointZM r order count = (.error e, [])
      ∧ e.kind = .Truncated := by
  rw [readElementsHelper_of_granted mem _ _ _ _ _ hg]
  exact readElementsLoop_of_lt binaryReadPointZM (PointZM.decode order) 32 order
    (fun r hr => binaryReadPointZM_of_le r order hr)
    (fun r hr => binaryReadPointZM_of_lt r order hr) count r h

theorem ReadPoint_PointS_of_le (p : PointS) (r : Reader) (order : ByteOrder)
    (h : 16 ≤ r.length) :
    p.ReadPoint r order = ⟨none, ⟨p.SRID, wireFloat64 order r 0, wireFloat64 order r 8⟩, r.drop 16⟩ := by
  have h0 : binaryReadFloat64 r order = (.ok (wireFloat64 order r 0), r.drop 8) :=
    binaryReadFloat64_of_le r order (by omega)
  have h1 : binaryReadFloat64 (r.drop 8) order
      = (.ok (wireFloat64 order r 8), r.drop 16) := by
    rw [binaryReadFloat64_of_le _ _ (by rw [List.length_drop]; omega), wireFloat64_drop,
      List.drop_drop]
  simp only [PointS.ReadPoint, h0, h1]

theorem ReadPoint_PointS_of_lt (p : PointS) (r : Reader) (order : ByteOrder)
    (h : r.length < 16) :
    ∃ e q, p.ReadPoint r order = ⟨some e, q, []⟩ ∧ e.kind = .Truncated
      ∧ q.SRID = p.SRID := by
  unfold PointS.ReadPoint
  by_cases g0 : 8 ≤ r.length
  · have h0 : binaryReadFloat64 (r.drop 0) order
        = (.ok (wireFloat64 order r 0), r.drop 8) := by
      rw [binaryReadFloat64_of_le _ _ (by rw [List.length_drop]; omega), wireFloat64_drop,
        List.drop_drop]
    simp only [List.drop_zero] at h0
    simp only [h0]
    by_cases g1 : 16 ≤ r.length
    · omega
    · have h1 : binaryReadFloat64 (r.drop 8) order
          = (.error (shortError (r.drop 8)), []) :=
        binaryReadFloat64_of_lt _ _ (by rw [List.length_drop]; omega)
      simp only [List.drop_zero] at h1
      simp only [h1]
      exact ⟨_, _, rfl, shortError_kind _, rfl⟩
  · have h0 : binaryReadFloat64 (r.drop 0) order
        = (.error (shortError (r.drop 0)), []) :=
      binaryReadFloat64_of_lt _ _ (by rw [List.length_drop]; omega)
    simp only [List.drop_zero] at h0
    simp only [h0]
    exact ⟨_, _, rfl, shortError_kind _, rfl⟩

theorem ReadPoint_PointZS_of_le (p : PointZS) (r : Reader) (order : ByteOrder)
    (h : 24 ≤ r.length) :
    p.ReadPoint r order = ⟨none, ⟨p.SRID, wireFloat64 order r 0, wireFloat64 order r 8, wireFloat64 order r 16⟩, r.drop 24⟩ := by
  have h0 : binaryReadFloat64 r order = (.ok (wireFloat64 order r 0), r.drop 8) :=
    binaryReadFloat64_of_le r order (by omega)
  have h1 : binaryReadFloat64 (r.drop 8) order
      = (.ok (wireFloat64 order r 8), r.drop 16) := by
    rw [binaryReadFloat64_of_le _ _ (by rw [List.length_drop]; omega), wireFloat64_drop,
      List.drop_drop]
  have h2 : binaryReadFloat64 (r.drop 16) order
      = (.ok (wireFloat64 order r 16), r.drop 24) := by
    rw [binaryReadFloat64_of_le _ _ (by rw [List.length_drop]; omega), wireFloat64_drop,
      List.drop_drop]
  simp only [PointZS.ReadPoint, h0, h1, h2]

theorem ReadPoint_PointZS_of_lt (p : PointZS) (r : Reader) (order : ByteOrder)
    (h : r.length < 24) :
    ∃ e q, p.ReadPoint r order = ⟨some e, q, []⟩ ∧ e.kind = .Truncated
      ∧ q.SRID = p.SRID := by
  unfold PointZS.ReadPoint
  by_cases g0 : 8 ≤ r.length
  · have h0 : binaryReadFloat64 (r.drop 0) order
        = (.ok (wireFloat64 order r 0), r.drop 8) := by
      rw [binaryReadFloat64_of_le _ _ (by rw [List.length_drop]; omega), wireFloat64_drop,
        List.drop_drop]
    simp only [List.drop_zero] at h0
    simp only [h0]
    by_cases g1 : 16 ≤ r.length
    · have h1 : binaryReadFloat64 (r.drop 8) order
          = (.ok (wireFloat64 order r 8), r.drop 16) := by
        rw [binaryReadFloat64_of_le _ _ (by rw [List.length_drop]; omega), wireFloat64_drop,
          List.drop_drop]
      simp only [List.drop_zero] at h1
      simp only [h1]
      by_cases g2 : 24 ≤ r.length
      · omega
      · have h2 : binaryReadFloat64 (r.drop 16) order
            = (.error (shortError (r.drop 16)), []) :=
          binaryReadFloat64_of_lt _ _ (by rw [List.length_drop]; omega)
        simp only [List.drop_zero] at h2
        simp only [h2]
        exact ⟨_, _, rfl, shortError_kind _, rfl⟩
    · have h1 : binaryReadFloat64 (r.drop 8) order
          = (.error (shortError (r.drop 8)), []) :=
        binaryReadFloat64_of_lt _ _ (by rw [List.length_drop]; omega)
      simp only [List.drop_zero] at h1
      simp only [h1]
      exact ⟨_, _, rfl, shortError_kind _, rfl⟩
  · have h0 : binaryReadFloat64 (r.drop 0) order
        = (.error (shortError (r.drop 0)), []) :=
      binaryReadFloat64_of_lt _ _ (by rw [List.length_drop]; omega)
    simp only [List.drop_zero] at h0
    simp only [h0]
    exact ⟨_, _, rfl, shortError_kind _, rfl⟩

theorem ReadPoint_PointMS_of_le (p : PointMS) (r : Reader) (order : ByteOrder)
    (h : 24 ≤ r.length) :
    p.ReadPoint r order = ⟨none, ⟨p.SRID, wireFloat64 order r 0, wireFloat64 order r 8, wireFloat64 order r 16⟩, r.drop 24⟩ := by
  have h0 : binaryReadFloat64 r order = (.ok (wireFloat64 order r 0), r.drop 8) :=
    binaryReadFloat64_of_le r order (by omega)
  have h1 : binaryReadFloat64 (r.drop 8) order
      = (.ok (wireFloat64 order r 8), r.drop 16) := by
    rw [binaryReadFloat64_of_le _ _ (by rw [List.length_drop]; omega), wireFloat64_drop,
      List.drop_drop]
  have h2 : binaryReadFloat64 (r.drop 16) order
      = (.ok (wireFloat64 order r 16), r.drop 24) := by
    rw [binaryReadFloat64_of_le _ _ (by rw [List.length_drop]; omega), wireFloat64_drop,
      List.drop_drop]
  simp only [PointMS.ReadPoint, h0, h1, h2]

theorem ReadPoint_PointMS_of_lt (p : PointMS) (r : Reader) (order : ByteOrder)
    (h : r.length < 24) :
    ∃ e q, p.ReadPoint r order = ⟨some e, q, []⟩ ∧ e.kind = .Truncated
      ∧ q.SRID = p.SRID := by
  unfold PointMS.ReadPoint
  by_cases g0 : 8 ≤ r.length
  · have h0 : binaryReadFloat64 (r.drop 0) order
        = (.ok (wireFloat64 order r 0), r.drop 8) := by
      rw [binaryReadFloat64_of_le _ _ (by rw [List.length_drop]; omega), wireFloat64_drop,
        List.drop_drop]
    simp only [List.drop_zero] at h0
    simp only [h0]
    by_cases g1 : 16 ≤ r.length
    · have h1 : binaryReadFloat64 (r.drop 8) order
          = (.ok (wireFloat64 order r 8), r.drop 16) := by
        rw [binaryReadFloat64_of_le _ _ (by rw [List.length_drop]; omega), wireFloat64_drop,
          List.drop_drop]
      simp only [List.drop_zero] at h1
      simp only [h1]
      by_cases g2 : 24 ≤ r.length
      · omega
      · have h2 : binaryReadFloat64 (r.drop 16) order
            = (.error (shortError (r.drop 16)), []) :=
          binaryReadFloat64_of_lt _ _ (by rw [List.length_drop]; omega)
        simp only [List.drop_zero] at h2
        simp only [h2]
        exact ⟨_, _, rfl, shortError_kind _, rfl⟩
    · have h1 : binaryReadFloat64 (r.drop 8) order
          = (.error (shortError (r.drop 8)), []) :=
        binaryReadFloat64_of_lt _ _ (by rw [List.length_drop]; omega)
      simp only [List.drop_zero] at h1
      simp only [h1]
      exact ⟨_, _, rfl, shortError_kind _, rfl⟩
  · have h0 : binaryReadFloat64 (r.drop 0) order
        = (.error (shortError (r.drop 0)), []) :=
      binaryReadFloat64_of_lt _ _ (by rw [List.length_drop]; omega)
    simp only [List.drop_zero] at h0
    simp only [h0]
    exact ⟨_, _, rfl, shortError_kind _, rfl⟩

theorem ReadPoint_PointZMS_of_le (p : PointZMS) (r : Reader) (order : ByteOrder)
    (h : 32 ≤ r.length) :
    p.ReadPoint r order = ⟨none, ⟨p.SRID, wireFloat64 order r 0, wireFloat64 order r 8, wireFloat64 order r 16, wireFloat64 order r 24⟩, r.drop 32⟩ := by
  have h0 : binaryReadFloat64 r order = (.ok (wireFloat64 order r 0), r.drop 8) :=
    binaryReadFloat64_of_le r order (by omega)
  have h1 : binaryReadFloat64 (r.drop 8) order
      = (.ok (wireFloat64 order r 8), r.drop 16) := by
    rw [binaryReadFloat64_of_le _ _ (by rw [List.length_drop]; omega), wireFloat64_drop,
      List.drop_drop]
  have h2 : binaryReadFloat64 (r.drop 16) order
      = (.ok (wireFloat64 order r 16), r.drop 24) := by
    rw [binaryReadFloat64_of_le _ _ (by rw [List.length_drop]; omega), wireFloat64_drop,
      List.drop_drop]
  have h3 : binaryReadFloat64 (r.drop 24) order
      = (.ok (wireFloat64 order r 24), r.drop 32) := by
    rw [binaryReadFloat64_of_le _ _ (by rw [List.length_drop]; omega), wireFloat64_drop,
      List.drop_drop]
  simp only [PointZMS.ReadPoint, h0, h1, h2, h3]

theorem ReadPoint_PointZMS_of_lt (p : PointZMS) (r : Reader) (order : ByteOrder)
    (h : r.length < 32) :
    ∃ e q, p.ReadPoint r order = ⟨some e, q, []⟩ ∧ e.kind = .Truncated
      ∧ q.SRID = p.SRID := by
  unfold PointZMS.ReadPoint
  by_cases g0 : 8 ≤ r.length
  · have h0 : binaryReadFloat64 (r.drop 0) order
        = (.ok (wireFloat64 order r 0), r.drop 8) := by
      rw [binaryReadFloat64_of_le _ _ (by rw [List.length_drop]; omega), wireFloat64_drop,
        List.drop_drop]
    simp only [List.drop_zero] at h0
    simp only [h0]
    by_cases g1 : 16 ≤ r.length
    · have h1 : binaryReadFloat64 (r.drop 8) order
          = (.ok (wireFloat64 order r 8), r.drop 16) := by
        rw [binaryReadFloat64_of_le _ _ (by rw [List.length_drop]; omega), wireFloat64_drop,
          List.drop_drop]
      simp only [List.drop_zero] at h1
      simp only [h1]
      by_cases g2 : 24 ≤ r.length
      · have h2 : binaryReadFloat64 (r.drop 16) order
            = (.ok (wireFloat64 order r 16), r.drop 24) := by
          rw [binaryReadFloat64_of_le _ _ (by rw [List.length_drop]; omega), wireFloat64_drop,
            List.drop_drop]
        simp only [List.drop_zero] at h2
        simp only [h2]
        by_cases g3 : 32 ≤ r.length
        · omega
        · have h3 : binaryReadFloat64 (r.drop 24) order
              = (.error (shortError (r.drop 24)), []) :=
            binaryReadFloat64_of_lt _ _ (by rw [List.length_drop]; omega)
          simp only [List.drop_zero] at h3
          simp only [h3]
          exact ⟨_, _, rfl, shortError_kind _, rfl⟩
      · have h2 : binaryReadFloat64 (r.drop 16) order
            = (.error (shortError (r.drop 16)), []) :=
          binaryReadFloat64_of_lt _ _ (by rw [List.length_drop]; omega)
        simp only [List.drop_zero] at h2
        simp only [h2]
        exact ⟨_, _, rfl, shortError_kind _, rfl⟩
    · have h1 : binaryReadFloat64 (r.drop 8) order
          = (.error (shortError (r.drop 8)), []) :=
        binaryReadFloat64_of_lt _ _ (by rw [List.length_drop]; omega)
      simp only [List.drop_zero] at h1
      simp only [h1]
      exact ⟨_, _, rfl, shortError_kind _, rfl⟩
  · have h0 : binaryReadFloat64 (r.drop 0) order
        = (.error (shortError (r.drop 0)), []) :=
      binaryReadFloat64_of_lt _ _ (by rw [List.length_drop]; omega)
    simp only [List.drop_zero] at h0
    simp only [h0]
    exact ⟨_, _, rfl, shortError_kind _, rfl⟩

/-! ## Lemmas: the body of a stream -/

theorem ReadGeometryData_other (mem : Nat) (r : Reader) (order : ByteOrder) (d : Geometry)
    (info : GeometryInfo) (h1 : info.BaseType ≠ WKBPoint)
    (h2 : info.BaseType ≠ WKBLineString) :
    ReadGeometryData mem r order d info
      = ⟨some (.unsupportedGeometryType info.BaseType), d, r⟩ := by
  simp only [ReadGeometryData, h1, h2, if_false]

theorem ReadGeometryData_point_into_lineString (mem : Nat) (r : Reader) (order : ByteOrder)
    (d : Geometry) (info : GeometryInfo) (hb : info.BaseType = WKBPoint)
    (hd : d.isPoint = false) :
    ReadGeometryData mem r order d info = ⟨some (.binaryReadInvalidType d.typeName), d, r⟩ := by
  cases d <;> simp [Geometry.isPoint] at hd <;>
    simp only [ReadGeometryData, hb, if_true, Geometry.asPointReader, binaryReadGeometry]

theorem ReadGeometryData_lineString_into_point (mem : Nat) (r : Reader) (order : ByteOrder)
    (d : Geometry) (info : GeometryInfo) (hb : info.BaseType = WKBLineString)
    (hd : d.isPoint = true) :
    ReadGeometryData mem r order d info = ⟨some (.notCollectionGeometry d.typeName), d, r⟩ := by
  have hk : ¬ (WKBLineString = WKBPoint) := by decide
  cases d <;> simp [Geometry.isPoint] at hd <;>
    simp only [ReadGeometryData, hb, hk, if_true, if_false, Geometry.asCollectionGeometry]

theorem ReadGeometryData_complete (mem : Nat) (r : Reader) (order : ByteOrder) (d : Geometry)
    (info : GeometryInfo)
    (hb : info.BaseType = if d.isPoint then WKBPoint else WKBLineString)
    (hlen : d.bodySize order r ≤ r.length) :
    ReadGeometryData mem r order d info
      = ⟨none, d.decodeBody order r, r.drop (d.bodySize order r)⟩ := by
  have hk : ¬ (WKBLineString = WKBPoint) := by decide
  cases d
  case point p =>
    have hl : 16 ≤ r.length := by
      simpa [Geometry.bodySize, Geometry.isPoint, Geometry.dimension] using hlen
    simp only [Geometry.isPoint, if_true] at hb
    simp only [ReadGeometryData, hb, if_true, Geometry.asPointReader, binaryReadGeometry,
      readInto, binaryReadPoint_of_le r order hl, Geometry.decodeBody, Geometry.bodySize,
      Geometry.isPoint, Geometry.dimension]
  case pointZ p =>
    have hl : 24 ≤ r.length := by
      simpa [Geometry.bodySize, Geometry.isPoint, Geometry.dimension] using hlen
    simp only [Geometry.isPoint, if_true] at hb
    simp only [ReadGeometryData, hb, if_true, Geometry.asPointReader, binaryReadGeometry,
      readInto, binaryReadPointZ_of_le r order hl, Geometry.decodeBody, Geometry.bodySize,
      Geometry.isPoint, Geometry.dimension]
  case pointM p =>
    have hl : 24 ≤ r.length := by
      simpa [Geometry.bodySize, Geometry.isPoint, Geometry.dimension] using hlen
    simp only [Geometry.isPoint, if_true] at hb
    simp only [ReadGeometryData, hb, if_true, Geometry.asPointReader, binaryReadGeometry,
      readInto, binaryReadPointM_of_le r order hl, Geometry.decodeBody, Geometry.bodySize,
      Geometry.isPoint, Geometry.dimension]
  case pointZM p =>
    have hl : 32 ≤ r.length := by
      simpa [Geometry.bodySize, Geometry.isPoint, Geometry.dimension] using hlen
    simp only [Geometry.isPoint, if_true] at hb
    simp only [ReadGeometryData, hb, if_true, Geometry.asPointReader, binaryReadGeometry,
      readInto, binaryReadPointZM_of_le r order hl, Geometry.decodeBody, Geometry.bodySize,
      Geometry.isPoint, Geometry.dimension]
  case pointS p =>
    have hl : 16 ≤ r.length := by
      simpa [Geometry.bodySize, Geometry.isPoint, Geometry.dimension] using hlen
    simp only [Geometry.isPoint, if_true] at hb
    simp only [ReadGeometryData, hb, if_true, Geometry.asPointReader,
      ReadPoint_PointS_of_le p r order hl, Outcome.map, Geometry.decodeBody,
      Geometry.bodySize, Geometry.isPoint, Geometry.dimension]
  case pointZS p =>
    have hl : 24 ≤ r.length := by
      simpa [Geometry.bodySize, Geometry.isPoint, Geometry.dimension] using hlen
    simp only [Geometry.isPoint, if_true] at hb
    simp only [ReadGeometryData, hb, if_true, Geometry.asPointReader,
      ReadPoint_PointZS_of_le p r order hl, Outcome.map, Geometry.decodeBody,
      Geometry.bodySize, Geometry.isPoint, Geometry.dimension]
  case pointMS p =>
    have hl : 24 ≤ r.length := by
      simpa [Geometry.bodySize, Geometry.isPoint, Geometry.dimension] using hlen
    simp only [Geometry.isPoint, if_true] at hb
    simp only [ReadGeometryData, hb, if_true, Geometry.asPointReader,
      ReadPoint_PointMS_of_le p r order hl, Outcome.map, Geometry.decodeBody,
      Geometry.bodySize, Geometry.isPoint, Geometry.dimension]
  case pointZMS p =>
    have hl : 32 ≤ r.length := by
      simpa [Geometry.bodySize, Geometry.isPoint, Geometry.dimension] using hlen
    simp only [Geometry.isPoint, if_true] at hb
    simp only [ReadGeometryData, hb, if_true, Geometry.asPointReader,
      ReadPoint_PointZMS_of_le p r order hl, Outcome.map, Geometry.decodeBody,
      Geometry.bodySize, Geometry.isPoint, Geometry.dimension]
  case lineString ls =>
    have hl : 4 + 16 * order.Uint32 (r.take 4) ≤ r.length := by
      simp only [Geometry.bodySize, Geometry.isPoint, Geometry.dimension,
        Bool.false_eq_true, if_false] at hlen
      omega
    have hc := binaryReadUint32_of_le r order (by omega)
    have he := readElements_Point_of_le mem order (order.Uint32 (r.take 4)) (r.drop 4)
      (by rw [List.length_drop]; omega)
    have hdrop : 4 + order.Uint32 (r.take 4) * 16
        = 4 + 8 * 2 * order.Uint32 (r.take 4) := by omega
    simp only [Geometry.isPoint, Bool.false_eq_true, if_false] at hb
    simp only [ReadGeometryData, hb, hk, if_true, if_false, Geometry.asCollectionGeometry,
      hc, LineString.ReadElements, he, Outcome.map, Geometry.decodeBody, Geometry.bodySize,
      Geometry.isPoint, Geometry.dimension, Bool.false_eq_true, List.drop_drop, hdrop]
  case lineStringZ ls =>
    have hl : 4 + 24 * order.Uint32 (r.take 4) ≤ r.length := by
      simp only [Geometry.bodySize, Geometry.isPoint, Geometry.dimension,
        Bool.false_eq_true, if_false] at hlen
      omega
    have hc := binaryReadUint32_of_le r order (by omega)
    have he := readElements_PointZ_of_le mem order (order.Uint32 (r.take 4)) (r.drop 4)
      (by rw [List.length_drop]; omega)
    have hdrop : 4 + order.Uint32 (r.take 4) * 24
        = 4 + 8 * 3 * order.Uint32 (r.take 4) := by omega
    simp only [Geometry.isPoint, Bool.false_eq_true, if_false] at hb
    simp only [ReadGeometryData, hb, hk, if_true, if_false, Geometry.asCollectionGeometry,
      hc, LineStringZ.ReadElements, he, Outcome.map, Geometry.decodeBody, Geometry.bodySize,
      Geometry.isPoint, Geometry.dimension, Bool.false_eq_true, List.drop_drop, hdrop]
  case lineStringM ls =>
    have hl : 4 + 24 * order.Uint32 (r.take 4) ≤ r.length := by
      simp only [Geometry.bodySize, Geometry.isPoint, Geometry.dimension,
        Bool.false_eq_true, if_false] at hlen
      omega
    have hc := binaryReadUint32_of_le r order (by omega)
    have he := readElements_PointM_of_le mem order (order.Uint32 (r.take 4)) (r.drop 4)
      (by rw [List.length_drop]; omega)
    have hdrop : 4 + order.Uint32 (r.take 4) * 24
        = 4 + 8 * 3 * order.Uint32 (r.take 4) := by omega
    simp only [Geometry.isPoint, Bool.false_eq_true, if_false] at hb
    simp only [ReadGeometryData, hb, hk, if_true, if_false, Geometry.asCollectionGeometry,
      hc, LineStringM.ReadElements, he, Outcome.map, Geometry.decodeBody, Geometry.bodySize,
      Geometry.isPoint, Geometry.dimension, Bool.false_eq_true, List.drop_drop, hdrop]
  case lineStringZM ls =>
    have hl : 4 + 32 * order.Uint32 (r.take 4) ≤ r.length := by
      simp only [Geometry.bodySize, Geometry.isPoint, Geometry.dimension,
        Bool.false_eq_true, if_false] at hlen
      omega
    have hc := binaryReadUint32_of_le r order (by omega)
    have he := readElements_PointZM_of_le mem order (order.Uint32 (r.take 4)) (r.drop 4)
      (by rw [List.length_drop]; omega)
    have hdrop : 4 + order.Uint32 (r.take 4) * 32
        = 4 + 8 * 4 * order.Uint32 (r.take 4) := by omega
    simp only [Geometry.isPoint, Bool.false_eq_true, if_false] at hb
    simp only [ReadGeometryData, hb, hk, if_true, if_false, Geometry.asCollectionGeometry,
      hc, LineStringZM.ReadElements, he, Outcome.map, Geometry.decodeBody, Geometry.bodySize,
      Geometry.isPoint, Geometry.dimension, Bool.false_eq_true, List.drop_drop, hdrop]
  case lineStringS ls =>
    have hl : 4 + 16 * order.Uint32 (r.take 4) ≤ r.length := by
      simp only [Geometry.bodySize, Geometry.isPoint, Geometry.dimension,
        Bool.false_eq_true, if_false] at hlen
      omega
    have hc := binaryReadUint32_of_le r order (by omega)
    have he := readElements_Point_of_le mem order (order.Uint32 (r.take 4)) (r.drop 4)
      (by rw [List.length_drop]; omega)
    have hdrop : 4 + order.Uint32 (r.take 4) * 16
        = 4 + 8 * 2 * order.Uint32 (r.take 4) := by omega
    simp only [Geometry.isPoint, Bool.false_eq_true, if_false] at hb
    simp only [ReadGeometryData, hb, hk, if_true, if_false, Geometry.asCollectionGeometry,
      hc, LineStringS.ReadElements, he, Outcome.map, Geometry.decodeBody, Geometry.bodySize,
      Geometry.isPoint, Geometry.dimension, Bool.false_eq_true, List.drop_drop, hdrop]
  case lineStringZS ls =>
    have hl : 4 + 24 * order.Uint32 (r.take 4) ≤ r.length := by
      simp only [Geometry.bodySize, Geometry.isPoint, Geometry.dimension,
        Bool.false_eq_true, if_false] at hlen
      omega
    have hc := binaryReadUint32_of_le r order (by omega)
    have he := readElements_PointZ_of_le mem order (order.Uint32 (r.take 4)) (r.drop 4)
      (by rw [List.length_drop]; omega)
    have hdrop : 4 + order.Uint32 (r.take 4) * 24
        = 4 + 8 * 3 * order.Uint32 (r.take 4) := by omega
    simp only [Geometry.isPoint, Bool.false_eq_true, if_false] at hb
    simp only [ReadGeometryData, hb, hk, if_true, if_false, Geometry.asCollectionGeometry,
      hc, LineStringZS.ReadElements, he, Outcome.map, Geometry.decodeBody, Geometry.bodySize,
      Geometry.isPoint, Geometry.dimension, Bool.false_eq_true, List.drop_drop, hdrop]
  case lineStringMS ls =>
    have hl : 4 + 24 * order.Uint32 (r.take 4) ≤ r.length := by
      simp only [Geometry.bodySize, Geometry.isPoint, Geometry.dimension,
        Bool.false_eq_true, if_false] at hlen
      omega
    have hc := binaryReadUint32_of_le r order (by omega)
    have he := readElements_PointM_of_le mem order (order.Uint32 (r.take 4)) (r.drop 4)
      (by rw [List.length_drop]; omega)
    have hdrop : 4 + order.Uint32 (r.take 4) * 24
        = 4 + 8 * 3 * order.Uint32 (r.take 4) := by omega
    simp only [Geometry.isPoint, Bool.false_eq_true, if_false] at hb
    simp only [ReadGeometryData, hb, hk, if_true, if_false, Geometry.asCollectionGeometry,
      hc, LineStringMS.ReadElements, he, Outcome.map, Geometry.decodeBody, Geometry.bodySize,
      Geometry.isPoint, Geometry.dimension, Bool.false_eq_true, List.drop_drop, hdrop]
  case lineStringZMS ls =>
    have hl : 4 + 32 * order.Uint32 (r.take 4) ≤ r.length := by
      simp only [Geometry.bodySize, Geometry.isPoint, Geometry.dimension,
        Bool.false_eq_true, if_false] at hlen
      omega
    have hc := binaryReadUint32_of_le r order (by omega)
    have he := readElements_PointZM_of_le mem order (order.Uint32 (r.take 4)) (r.drop 4)
      (by rw [List.length_drop]; omega)
    have hdrop : 4 + order.Uint32 (r.take 4) * 32
        = 4 + 8 * 4 * order.Uint32 (r.take 4) := by omega
    simp only [Geometry.isPoint, Bool.false_eq_true, if_false] at hb
    simp only [ReadGeometryData, hb, hk, if_true, if_false, Geometry.asCollectionGeometry,
      hc, LineStringZMS.ReadElements, he, Outcome.map, Geometry.decodeBody, Geometry.bodySize,
      Geometry.isPoint, Geometry.dimension, Bool.false_eq_true, List.drop_drop, hdrop]

theorem ReadGeometryData_short (mem : Nat) (r : Reader) (order : ByteOrder) (d : Geometry)
    (info : GeometryInfo)
    (hb : info.BaseType = if d.isPoint then WKBPoint else WKBLineString)
    (hlen : r.length < d.bodySize order r)
    (hg : d.isPoint = false → 4 ≤ r.length →
      makeGranted mem (r.drop 4) (8 * d.dimension) (order.Uint32 (r.take 4)) = true) :
    ∃ e q, ReadGeometryData mem r order d info = ⟨some e, q, []⟩ ∧ e.kind = .Truncated
      ∧ q.SRID? = d.SRID? ∧ ((d.isPoint = false ∨ d.hasSRID = false) → q = d)
      ∧ q.fresh = d.fresh := by
  have hk : ¬ (WKBLineString = WKBPoint) := by decide
  cases d
  case point p =>
    have hl : r.length < 16 := by
      simpa [Geometry.bodySize, Geometry.isPoint, Geometry.dimension] using hlen
    simp only [Geometry.isPoint, if_true] at hb
    refine ⟨shortError r, .point p, ?_, shortError_kind r, rfl, fun _ => rfl, rfl⟩
    simp only [ReadGeometryData, hb, if_true, Geometry.asPointReader, binaryReadGeometry,
      readInto, binaryReadPoint_of_lt r order hl]
  case pointZ p =>
    have hl : r.length < 24 := by
      simpa [Geometry.bodySize, Geometry.isPoint, Geometry.dimension] using hlen
    simp only [Geometry.isPoint, if_true] at hb
    refine ⟨shortError r, .pointZ p, ?_, shortError_kind r, rfl, fun _ => rfl, rfl⟩
    simp only [ReadGeometryData, hb, if_true, Geometry.asPointReader, binaryReadGeometry,
      readInto, binaryReadPointZ_of_lt r order hl]
  case pointM p =>
    have hl : r.length < 24 := by
      simpa [Geometry.bodySize, Geometry.isPoint, Geometry.dimension] using hlen
    simp only [Geometry.isPoint, if_true] at hb
    refine ⟨shortError r, .pointM p, ?_, shortError_kind r, rfl, fun _ => rfl, rfl⟩
    simp only [ReadGeometryData, hb, if_true, Geometry.asPointReader, binaryReadGeometry,
      readInto, binaryReadPointM_of_lt r order hl]
  case pointZM p =>
    have hl : r.length < 32 := by
      simpa [Geometry.bodySize, Geometry.isPoint, Geometry.dimension] using hlen
    simp only [Geometry.isPoint, if_true] at hb
    refine ⟨shortError r, .pointZM p, ?_, shortError_kind r, rfl, fun _ => rfl, rfl⟩
    simp only [ReadGeometryData, hb, if_true, Geometry.asPointReader, binaryReadGeometry,
      readInto, binaryReadPointZM_of_lt r order hl]
  case pointS p =>
    have hl : r.length < 16 := by
      simpa [Geometry.bodySize, Geometry.isPoint, Geometry.dimension] using hlen
    simp only [Geometry.isPoint, if_true] at hb
    obtain ⟨e, q, hq, hkind, hsrid⟩ := ReadPoint_PointS_of_lt p r order hl
    refine ⟨e, .pointS q, ?_, hkind, ?_, ?_, rfl⟩
    · simp only [ReadGeometryData, hb, if_true, Geometry.asPointReader, hq, Outcome.map]
    · simp only [Geometry.SRID?, hsrid]
    · intro h
      simp [Geometry.isPoint, Geometry.hasSRID] at h
  case pointZS p =>
    have hl : r.length < 24 := by
      simpa [Geometry.bodySize, Geometry.isPoint, Geometry.dimension] using hlen
    simp only [Geometry.isPoint, if_true] at hb
    obtain ⟨e, q, hq, hkind, hsrid⟩ := ReadPoint_PointZS_of_lt p r order hl
    refine ⟨e, .pointZS q, ?_, hkind, ?_, ?_, rfl⟩
    · simp only [ReadGeometryData, hb, if_true, Geometry.asPointReader, hq, Outcome.map]
    · simp only [Geometry.SRID?, hsrid]
    · intro h
      simp [Geometry.isPoint, Geometry.hasSRID] at h
  case pointMS p =>
    have hl : r.length < 24 := by
      simpa [Geometry.bodySize, Geometry.isPoint, Geometry.dimension] using hlen
    simp only [Geometry.isPoint, if_true] at hb
    obtain ⟨e, q, hq, hkind, hsrid⟩ := ReadPoint_PointMS_of_lt p r order hl
    refine ⟨e, .pointMS q, ?_, hkind, ?_, ?_, rfl⟩
    · simp only [ReadGeometryData, hb, if_true, Geometry.asPointReader, hq, Outcome.map]
    · simp only [Geometry.SRID?, hsrid]
    · intro h
      simp [Geometry.isPoint, Geometry.hasSRID] at h
  case pointZMS p =>
    have hl : r.length < 32 := by
      simpa [Geometry.bodySize, Geometry.isPoint, Geometry.dimension] using hlen
    simp only [Geometry.isPoint, if_true] at hb
    obtain ⟨e, q, hq, hkind, hsrid⟩ := ReadPoint_PointZMS_of_lt p r order hl
    refine ⟨e, .pointZMS q, ?_, hkind, ?_, ?_, rfl⟩
    · simp only [ReadGeometryData, hb, if_true, Geometry.asPointReader, hq, Outcome.map]
    · simp only [Geometry.SRID?, hsrid]
    · intro h
      simp [Geometry.isPoint, Geometry.hasSRID] at h
  case lineString ls =>
    have hl : r.length < 4 + 16 * order.Uint32 (r.take 4) := by
      simp only [Geometry.bodySize, Geometry.isPoint, Geometry.dimension,
        Bool.false_eq_true, if_false] at hlen
      omega
    simp only [Geometry.isPoint, Bool.false_eq_true, if_false] at hb
    by_cases h4 : 4 ≤ r.length
    · have hc := binaryReadUint32_of_le r order h4
      obtain ⟨e, he, hkind⟩ := readElements_Point_of_lt mem order (order.Uint32 (r.take 4))
        (r.drop 4) (by rw [List.length_drop]; omega) (hg rfl h4)
      refine ⟨e, .lineString ls, ?_, hkind, rfl, fun _ => rfl, rfl⟩
      simp only [ReadGeometryData, hb, hk, if_true, if_false,
        Geometry.asCollectionGeometry, hc, LineString.ReadElements, he, Outcome.map]
    · have hc := binaryReadUint32_of_lt r order (by omega)
      refine ⟨shortError r, .lineString ls, ?_, shortError_kind r, rfl, fun _ => rfl, rfl⟩
      simp only [ReadGeometryData, hb, hk, if_true, if_false,
        Geometry.asCollectionGeometry, hc]
  case lineStringZ ls =>
    have hl : r.length < 4 + 24 * order.Uint32 (r.take 4) := by
      simp only [Geometry.bodySize, Geometry.isPoint, Geometry.dimension,
        Bool.false_eq_true, if_false] at hlen
      omega
    simp only [Geometry.isPoint, Bool.false_eq_true, if_false] at hb
    by_cases h4 : 4 ≤ r.length
    · have hc := binaryReadUint32_of_le r order h4
      obtain ⟨e, he, hkind⟩ := readElements_PointZ_of_lt mem order (order.Uint32 (r.take 4))
        (r.drop 4) (by rw [List.length_drop]; omega) (hg rfl h4)
      refine ⟨e, .lineStringZ ls, ?_, hkind, rfl, fun _ => rfl, rfl⟩
      simp only [ReadGeometryData, hb, hk, if_true, if_false,
        Geometry.asCollectionGeometry, hc, LineStringZ.ReadElements, he, Outcome.map]
    · have hc := binaryReadUint32_of_lt r order (by omega)
      refine ⟨shortError r, .lineStringZ ls, ?_, shortError_kind r, rfl, fun _ => rfl, rfl⟩
      simp only [ReadGeometryData, hb, hk, if_true, if_false,
        Geometry.asCollectionGeometry, hc]
  case lineStringM ls =>
    have hl : r.length < 4 + 24 * order.Uint32 (r.take 4) := by
      simp only [Geometry.bodySize, Geometry.isPoint, Geometry.dimension,
        Bool.false_eq_true, if_false] at hlen
      omega
    simp only [Geometry.isPoint, Bool.false_eq_true, if_false] at hb
    by_cases h4 : 4 ≤ r.length
    · have hc := binaryReadUint32_of_le r order h4
      obtain ⟨e, he, hkind⟩ := readElements_PointM_of_lt mem order (order.Uint32 (r.take 4))
        (r.drop 4) (by rw [List.length_drop]; omega) (hg rfl h4)
      refine ⟨e, .lineStringM ls, ?_, hkind, rfl, fun _ => rfl, rfl⟩
      simp only [ReadGeometryData, hb, hk, if_true, if_false,
        Geometry.asCollectionGeometry, hc, LineStringM.ReadElements, he, Outcome.map]
    · have hc := binaryReadUint32_of_lt r order (by omega)
      refine ⟨shortError r, .lineStringM ls, ?_, shortError_kind r, rfl, fun _ => rfl, rfl⟩
      simp only [ReadGeometryData, hb, hk, if_true, if_false,
        Geometry.asCollectionGeometry, hc]
  case lineStringZM ls =>
    have hl : r.length < 4 + 32 * order.Uint32 (r.take 4) := by
      simp only [Geometry.bodySize, Geometry.isPoint, Geometry.dimension,
        Bool.false_eq_true, if_false] at hlen
      omega
    simp only [Geometry.isPoint, Bool.false_eq_true, if_false] at hb
    by_cases h4 : 4 ≤ r.length
    · have hc := binaryReadUint32_of_le r order h4
      obtain ⟨e, he, hkind⟩ := readElements_PointZM_of_lt mem order (order.Uint32 (r.take 4))
        (r.drop 4) (by rw [List.length_drop]; omega) (hg rfl h4)
      refine ⟨e, .lineStringZM ls, ?_, hkind, rfl, fun _ => rfl, rfl⟩
      simp only [ReadGeometryData, hb, hk, if_true, if_false,
        Geometry.asCollectionGeometry, hc, LineStringZM.ReadElements, he, Outcome.map]
    · have hc := binaryReadUint32_of_lt r order (by omega)
      refine ⟨shortError r, .lineStringZM ls, ?_, shortError_kind r, rfl, fun _ => rfl, rfl⟩
      simp only [ReadGeometryData, hb, hk, if_true, if_false,
        Geometry.asCollectionGeometry, hc]
  case lineStringS ls =>
    have hl : r.length < 4 + 16 * order.Uint32 (r.take 4) := by
      simp only [Geometry.bodySize, Geometry.isPoint, Geometry.dimension,
        Bool.false_eq_true, if_false] at hlen
      omega
    simp only [Geometry.isPoint, Bool.false_eq_true, if_false] at hb
    by_cases h4 : 4 ≤ r.length
    · have hc := binaryReadUint32_of_le r order h4
      obtain ⟨e, he, hkind⟩ := readElements_Point_of_lt mem order (order.Uint32 (r.take 4))
        (r.drop 4) (by rw [List.length_drop]; omega) (hg rfl h4)
      refine ⟨e, .lineStringS ls, ?_, hkind, rfl, fun _ => rfl, rfl⟩
      simp only [ReadGeometryData, hb, hk, if_true, if_false,
        Geometry.asCollectionGeometry, hc, LineStringS.ReadElements, he, Outcome.map]
    · have hc := binaryReadUint32_of_lt r order (by omega)
      refine ⟨shortError r, .lineStringS ls, ?_, shortError_kind r, rfl, fun _ => rfl, rfl⟩
      simp only [ReadGeometryData, hb, hk, if_true, if_false,
        Geometry.asCollectionGeometry, hc]
  case lineStringZS ls =>
    have hl : r.length < 4 + 24 * order.Uint32 (r.take 4) := by
      simp only [Geometry.bodySize, Geometry.isPoint, Geometry.dimension,
        Bool.false_eq_true, if_false] at hlen
      omega
    simp only [Geometry.isPoint, Bool.false_eq_true, if_false] at hb
    by_cases h4 : 4 ≤ r.length
    · have hc := binaryReadUint32_of_le r order h4
      obtain ⟨e, he, hkind⟩ := readElements_PointZ_of_lt mem order (order.Uint32 (r.take 4))
        (r.drop 4) (by rw [List.length_drop]; omega) (hg rfl h4)
      refine ⟨e, .lineStringZS ls, ?_, hkind, rfl, fun _ => rfl, rfl⟩
      simp only [ReadGeometryData, hb, hk, if_true, if_false,
        Geometry.asCollectionGeometry, hc, LineStringZS.ReadElements, he, Outcome.map]
    · have hc := binaryReadUint32_of_lt r order (by omega)
      refine ⟨shortError r, .lineStringZS ls, ?_, shortError_kind r, rfl, fun _ => rfl, rfl⟩
      simp only [ReadGeometryData, hb, hk, if_true, if_false,
        Geometry.asCollectionGeometry, hc]
  case lineStringMS ls =>
    have hl : r.length < 4 + 24 * order.Uint32 (r.take 4) := by
      simp only [Geometry.bodySize, Geometry.isPoint, Geometry.dimension,
        Bool.false_eq_true, if_false] at hlen
      omega
    simp only [Geometry.isPoint, Bool.false_eq_true, if_false] at hb
    by_cases h4 : 4 ≤ r.length
    · have hc := binaryReadUint32_of_le r order h4
      obtain ⟨e, he, hkind⟩ := readElements_PointM_of_lt mem order (order.Uint32 (r.take 4))
        (r.drop 4) (by rw [List.length_drop]; omega) (hg rfl h4)
      refine ⟨e, .lineStringMS ls, ?_, hkind, rfl, fun _ => rfl, rfl⟩
      simp only [ReadGeometryData, hb, hk, if_true, if_false,
        Geometry.asCollectionGeometry, hc, LineStringMS.ReadElements, he, Outcome.map]
    · have hc := binaryReadUint32_of_lt r order (by omega)
      refine ⟨shortError r, .lineStringMS ls, ?_, shortError_kind r, rfl, fun _ => rfl, rfl⟩
      simp only [ReadGeometryData, hb, hk, if_true, if_false,
        Geometry.asCollectionGeometry, hc]
  case lineStringZMS ls =>
    have hl : r.length < 4 + 32 * order.Uint32 (r.take 4) := by
      simp only [Geometry.bodySize, Geometry.isPoint, Geometry.dimension,
        Bool.false_eq_true, if_false] at hlen
      omega
    simp only [Geometry.isPoint, Bool.false_eq_true, if_false] at hb
    by_cases h4 : 4 ≤ r.length
    · have hc := binaryReadUint32_of_le r order h4
      obtain ⟨e, he, hkind⟩ := readElements_PointZM_of_lt mem order (order.Uint32 (r.take 4))
        (r.drop 4) (by rw [List.length_drop]; omega) (hg rfl h4)
      refine ⟨e, .lineStringZMS ls, ?_, hkind, rfl, fun _ => rfl, rfl⟩
      simp only [ReadGeometryData, hb, hk, if_true, if_false,
        Geometry.asCollectionGeometry, hc, LineStringZMS.ReadElements, he, Outcome.map]
    · have hc := binaryReadUint32_of_lt r order (by omega)
      refine ⟨shortError r, .lineStringZMS ls, ?_, shortError_kind r, rfl, fun _ => rfl, rfl⟩
      simp only [ReadGeometryData, hb, hk, if_true, if_false,
        Geometry.asCollectionGeometry, hc]

theorem ne_fatalOutOfMemory_of_kind (e : Error) (h : e.kind = .Truncated) :
    e ≠ .fatalOutOfMemory := by
  intro he
  rw [he] at h
  exact absurd h (by decide)

theorem ReadGeometryData_not_granted (mem : Nat) (r : Reader) (order : ByteOrder)
    (d : Geometry) (info : GeometryInfo) (hb : info.BaseType = WKBLineString)
    (hd : d.isPoint = false) (h4 : 4 ≤ r.length)
    (hg : makeGranted mem (r.drop 4) (8 * d.dimension) (order.Uint32 (r.take 4)) = false) :
    ReadGeometryData mem r order d info = ⟨some .fatalOutOfMemory, d, r.drop 4⟩ := by
  have hk : ¬ (WKBLineString = WKBPoint) := by decide
  have hc := binaryReadUint32_of_le r order h4
  cases d <;> simp [Geometry.isPoint] at hd <;>
    simp only [Geometry.dimension, Nat.reduceMul] at hg <;>
    simp only [ReadGeometryData, hb, hk, if_true, if_false, Geometry.asCollectionGeometry,
      hc, LineString.ReadElements, LineStringZ.ReadElements, LineStringM.ReadElements,
      LineStringZM.ReadElements, LineStringS.ReadElements, LineStringZS.ReadElements,
      LineStringMS.ReadElements, LineStringZMS.ReadElements,
      readElementsHelper_of_not_granted mem _ _ _ _ _ hg, Outcome.map]

theorem ReadGeometryData_failed (mem : Nat) (r : Reader) (order : ByteOrder) (d : Geometry)
    (info : GeometryInfo)
    (hb : info.BaseType = if d.isPoint then WKBPoint else WKBLineString)
    (hlen : r.length < d.bodySize order r) :
    ∃ e q rd, ReadGeometryData mem r order d info = ⟨some e, q, rd⟩
      ∧ q.SRID? = d.SRID? ∧ ((d.isPoint = false ∨ d.hasSRID = false) → q = d)
      ∧ q.fresh = d.fresh := by
  by_cases hg : d.isPoint = false → 4 ≤ r.length →
      makeGranted mem (r.drop 4) (8 * d.dimension) (order.Uint32 (r.take 4)) = true
  · obtain ⟨e, q, hq, _, h1, h2, h3⟩ := ReadGeometryData_short mem r order d info hb hlen hg
    exact ⟨e, q, [], hq, h1, h2, h3⟩
  · have hd : d.isPoint = false := by
      by_contra hc
      exact hg (fun h => absurd h hc)
    have h4 : 4 ≤ r.length := by
      by_contra hc
      exact hg (fun _ h => absurd h hc)
    have hn : makeGranted mem (r.drop 4) (8 * d.dimension) (order.Uint32 (r.take 4))
        = false := by
      cases hh : makeGranted mem (r.drop 4) (8 * d.dimension) (order.Uint32 (r.take 4))
      · rfl
      · exact absurd (fun _ _ => hh) hg
    have hb2 : info.BaseType = WKBLineString := by
      simpa [hd] using hb
    exact ⟨_, d, _, ReadGeometryData_not_granted mem r order d info hb2 hd h4 hn, rfl,
      fun _ => rfl, rfl⟩

/-! ## Lemmas: the header of a stream -/

theorem marker_wireOrder (s : List Byte) (hm : validMarker s) :
    ∃ r, s = (wireOrder s).marker :: r := by
  cases s with
  | nil => simp [validMarker] at hm
  | cons b r =>
    refine ⟨r, ?_⟩
    unfold validMarker at hm
    simp only [List.head?_cons, Option.some.injEq] at hm
    unfold wireOrder
    simp only [List.head?_cons, Option.some.injEq]
    rcases hm with h | h
    · rw [if_pos h, h]
      rfl
    · have hne : ¬ (b = wkbXDR) := by
        rw [h]
        decide
      rw [if_neg hne, h]
      rfl

theorem stream_eq (s : List Byte) (hm : validMarker s) :
    s = (wireOrder s).marker :: ((s.drop 1).take 4 ++ s.drop 5) := by
  obtain ⟨r, hr⟩ := marker_wireOrder s hm
  have h1 : s.drop 1 = r := by
    rw [hr]
    rfl
  have h2 : s.drop 5 = r.drop 4 := by
    rw [hr]
    rfl
  rw [h1, h2, List.take_append_drop]
  exact hr

theorem asSRIDGeometry_some (d : Geometry) (h : d.hasSRID = true) :
    ∃ sg, d.asSRIDGeometry = some sg ∧ ∀ srid, sg.SetSRID srid = d.withSRID srid := by
  cases d <;> simp [Geometry.hasSRID] at h <;> exact ⟨_, rfl, fun _ => rfl⟩

theorem withSRID_fresh (d : Geometry) (srid : Int) : (d.withSRID srid).fresh = d.fresh := by
  cases d <;> rfl

theorem withSRID_isPoint (d : Geometry) (srid : Int) :
    (d.withSRID srid).isPoint = d.isPoint := by
  cases d <;> rfl

theorem withSRID_hasSRID (d : Geometry) (srid : Int) :
    (d.withSRID srid).hasSRID = d.hasSRID := by
  cases d <;> rfl

theorem withSRID_dimension (d : Geometry) (srid : Int) :
    (d.withSRID srid).dimension = d.dimension := by
  cases d <;> rfl

theorem withSRID_typeName (d : Geometry) (srid : Int) :
    (d.withSRID srid).typeName = d.typeName := by
  cases d <;> rfl

theorem ReadEWKB_noMarker (mem : Nat) (s : List Byte) (d : Geometry) (hm : ¬ validMarker s) :
    ReadEWKB mem s d
      = ⟨some (if s = [] then .EOF else .unsupportedByteOrder), d, s.drop 1⟩ := by
  cases s with
  | nil => rfl
  | cons b r =>
    unfold validMarker at hm
    simp only [List.head?_cons, Option.some.injEq, not_or] at hm
    rw [ReadEWKB_badMarker mem b r d hm.1 hm.2]
    simp

theorem ReadEWKB_shortHeader (mem : Nat) (s : List Byte) (d : Geometry) (hm : validMarker s)
    (h5 : s.length < 5) :
    ReadEWKB mem s d = ⟨some (shortError (s.drop 1)), d, []⟩ := by
  obtain ⟨r, hr⟩ := marker_wireOrder s hm
  have hlen : r.length < 4 := by
    rw [hr] at h5
    simp only [List.length_cons] at h5
    omega
  have h1 : s.drop 1 = r := by
    rw [hr]
    rfl
  rw [h1]
  have h := ReadEWKB_shortType mem (wireOrder s) r d hlen
  rw [← hr] at h
  exact h

theorem ReadEWKB_unexpected (mem : Nat) (s : List Byte) (d : Geometry) (hm : validMarker s)
    (h5 : 5 ≤ s.length) (hbit : (wireTypeCode s).testBit 29 = true)
    (hd : d.hasSRID = false) :
    ReadEWKB mem s d = ⟨some (.unexpectedSRID d.typeName), d, s.drop 5⟩ := by
  have hty : ((s.drop 1).take 4).length = 4 := by
    rw [List.length_take, List.length_drop]
    omega
  have h := ReadEWKB_header mem (wireOrder s) ((s.drop 1).take 4) (s.drop 5) d hty
  rw [← stream_eq s hm] at h
  unfold wireTypeCode at hbit
  rw [h, hasSRID_testBit, hbit, if_pos rfl, asSRIDGeometry_none d hd]

theorem ReadEWKB_shortSRID (mem : Nat) (s : List Byte) (d : Geometry) (hm : validMarker s)
    (h5 : 5 ≤ s.length) (h9 : s.length < 9) (hbit : (wireTypeCode s).testBit 29 = true)
    (hd : d.hasSRID = true) :
    ReadEWKB mem s d = ⟨some (shortError (s.drop 5)), d, []⟩ := by
  have hty : ((s.drop 1).take 4).length = 4 := by
    rw [List.length_take, List.length_drop]
    omega
  have h := ReadEWKB_header mem (wireOrder s) ((s.drop 1).take 4) (s.drop 5) d hty
  rw [← stream_eq s hm] at h
  unfold wireTypeCode at hbit
  obtain ⟨sg, hsg, _⟩ := asSRIDGeometry_some d hd
  have hr := binaryReadInt32_of_lt (s.drop 5) (wireOrder s)
    (by rw [List.length_drop]; omega)
  rw [h, hasSRID_testBit, hbit, if_pos rfl, hsg]
  simp only [hr]

theorem ReadEWKB_of_header (mem : Nat) (s : List Byte) (d : Geometry) (hm : validMarker s)
    (hlen : wireBodyOffset s ≤ s.length)
    (hd : (wireTypeCode s).testBit 29 = true → d.hasSRID = true) :
    ReadEWKB mem s d
      = ReadGeometryData mem (s.drop (wireBodyOffset s)) (wireOrder s)
          (if (wireTypeCode s).testBit 29 then d.withSRID (wireSRID s) else d)
          (GetGeometryInfo (wireTypeCode s)) := by
  have h5 : 5 ≤ s.length := by
    unfold wireBodyOffset at hlen
    split at hlen <;> omega
  have hty : ((s.drop 1).take 4).length = 4 := by
    rw [List.length_take, List.length_drop]
    omega
  have h := ReadEWKB_header mem (wireOrder s) ((s.drop 1).take 4) (s.drop 5) d hty
  rw [← stream_eq s hm] at h
  rw [h, hasSRID_testBit]
  by_cases hbit : (wireTypeCode s).testBit 29 = true
  · have h9 : 9 ≤ s.length := by
      unfold wireBodyOffset at hlen
      rw [if_pos hbit] at hlen
      exact hlen
    obtain ⟨sg, hsg, hset⟩ := asSRIDGeometry_some d (hd hbit)
    have hr := binaryReadInt32_of_le (s.drop 5) (wireOrder s)
      (by rw [List.length_drop]; omega)
    have hoff : wireBodyOffset s = 9 := by
      unfold wireBodyOffset
      rw [if_pos hbit]
    have hbit2 : ((wireOrder s).Uint32 ((s.drop 1).take 4)).testBit 29 = true := hbit
    rw [hbit2, if_pos rfl, hsg, hoff, if_pos hbit]
    simp only [hr, hset, List.drop_drop, wireSRID, wireTypeCode]
  · have hoff : wireBodyOffset s = 5 := by
      unfold wireBodyOffset
      rw [if_neg hbit]
    have hbit2 : ¬ ((wireOrder s).Uint32 ((s.drop 1).take 4)).testBit 29 = true := hbit
    rw [if_neg hbit2, hoff, if_neg hbit]
    rfl

/-! ## Lemmas: the decoded value -/

theorem decodeElements_length {T : Type} (dec : List Byte → T) (size count : Nat)
    (r : List Byte) : (decodeElements dec size count r).length = count := by
  induction count generalizing r with
  | zero => rfl
  | succ c ih => simp [decodeElements, ih]

theorem decodeElements_map {T U : Type} (dec : List Byte → T) (f : T → U)
    (size count : Nat) (r : List Byte) :
    (decodeElements dec size count r).map f
      = (List.range count).map (fun i => f (dec (r.drop (size * i)))) := by
  induction count generalizing r with
  | zero => rfl
  | succ c ih =>
    rw [List.range_succ_eq_map]
    simp only [decodeElements, List.map_cons, List.map_map, ih, Nat.mul_zero, List.drop_zero,
      List.drop_drop]
    congr 1
    apply List.map_congr_left
    intro i _
    simp only [Function.comp_apply, Nat.mul_succ, Nat.add_comm]

theorem decodeBody_SRID (order : ByteOrder) (d : Geometry) (r : List Byte) :
    (d.decodeBody order r).SRID? = d.SRID? := by
  cases d <;> rfl

theorem decodeBody_fresh (order : ByteOrder) (d : Geometry) (r : List Byte) :
    (d.decodeBody order r).fresh = d.fresh := by
  cases d <;> rfl

theorem decodeBody_numPoints (order : ByteOrder) (d : Geometry) (r : List Byte)
    (hd : d.isPoint = false) :
    (d.decodeBody order r).numPoints = order.Uint32 (r.take 4) := by
  cases d <;> simp [Geometry.isPoint] at hd <;>
    simp only [Geometry.decodeBody, Geometry.numPoints, decodeElements_length]

theorem decodeBody_tuples_point (order : ByteOrder) (d : Geometry) (r : List Byte)
    (hd : d.isPoint = true) :
    (d.decodeBody order r).tuples
      = [(List.range d.dimension).map (fun j => wireFloat64 order r (8 * j))] := by
  cases d <;> simp [Geometry.isPoint] at hd <;>
    simp [Geometry.decodeBody, Geometry.tuples, Geometry.dimension, Point.decode,
      PointZ.decode, PointM.decode, PointZM.decode, List.range_succ]

theorem decodeBody_tuples_lineString (order : ByteOrder) (d : Geometry) (r : List Byte)
    (hd : d.isPoint = false) :
    (d.decodeBody order r).tuples
      = (List.range (order.Uint32 (r.take 4))).map (fun i =>
          (List.range d.dimension).map
            (fun j => wireFloat64 order r (4 + 8 * (d.dimension * i + j)))) := by
  cases d <;> simp [Geometry.isPoint] at hd <;>
    simp only [Geometry.decodeBody, Geometry.tuples, Geometry.dimension,
      decodeElements_map] <;>
    apply List.map_congr_left <;>
    intro i _ <;>
    simp [Point.fields, PointZ.fields, PointM.fields, PointZM.fields, Point.decode,
      PointZ.decode, PointM.decode, PointZM.decode, List.range_succ, wireFloat64_drop] <;>
    and_intros <;>
    congr 1 <;>
    omega

/-! ## Lemmas: when a stream decodes -/

theorem withSRID_bodySize (order : ByteOrder) (d : Geometry) (srid : Int) (r : List Byte) :
    (d.withSRID srid).bodySize order r = d.bodySize order r := by
  simp only [Geometry.bodySize, withSRID_isPoint, withSRID_dimension]

theorem afterHeader_bodySize (order : ByteOrder) (d : Geometry) (s r : List Byte) :
    (d.afterHeader s).bodySize order r = d.bodySize order r := by
  unfold Geometry.afterHeader
  split
  · exact withSRID_bodySize order d _ r
  · rfl

theorem afterHeader_isPoint (d : Geometry) (s : List Byte) :
    (d.afterHeader s).isPoint = d.isPoint := by
  unfold Geometry.afterHeader
  split
  · exact withSRID_isPoint d _
  · rfl

theorem afterHeader_fresh (d : Geometry) (s : List Byte) :
    (d.afterHeader s).fresh = d.fresh := by
  unfold Geometry.afterHeader
  split
  · exact withSRID_fresh d _
  · rfl

theorem afterHeader_typeName (d : Geometry) (s : List Byte) :
    (d.afterHeader s).typeName = d.typeName := by
  unfold Geometry.afterHeader
  split
  · exact withSRID_typeName d _
  · rfl

theorem afterHeader_dimension (d : Geometry) (s : List Byte) :
    (d.afterHeader s).dimension = d.dimension := by
  unfold Geometry.afterHeader
  split
  · exact withSRID_dimension d _
  · rfl

theorem wireBodyOffset_ge (s : List Byte) : 5 ≤ wireBodyOffset s := by
  unfold wireBodyOffset
  split <;> omega

theorem ReadEWKB_of_header' (mem : Nat) (s : List Byte) (d : Geometry) (hm : validMarker s)
    (hlen : wireBodyOffset s ≤ s.length)
    (hd : (wireTypeCode s).testBit 29 = true → d.hasSRID = true) :
    ReadEWKB mem s d
      = ReadGeometryData mem (s.drop (wireBodyOffset s)) (wireOrder s) (d.afterHeader s)
          (GetGeometryInfo (wireTypeCode s)) :=
  ReadEWKB_of_header mem s d hm hlen hd

theorem ReadEWKB_of_accepts (mem : Nat) (s : List Byte) (d : Geometry) (h : d.accepts s) :
    ReadEWKB mem s d = ⟨none, d.decodeFrom s, s.drop (wireEnd s d)⟩ := by
  obtain ⟨hm, hsrid, hbase, hend⟩ := h
  unfold wireEnd at hend
  have hoff : wireBodyOffset s ≤ s.length := by omega
  rw [ReadEWKB_of_header' mem s d hm hoff hsrid]
  have hb : (GetGeometryInfo (wireTypeCode s)).BaseType
      = if (d.afterHeader s).isPoint then WKBPoint else WKBLineString := by
    rw [afterHeader_isPoint]
    exact hbase
  have hl : (d.afterHeader s).bodySize (wireOrder s) (s.drop (wireBodyOffset s))
      ≤ (s.drop (wireBodyOffset s)).length := by
    rw [afterHeader_bodySize, List.length_drop]
    omega
  rw [ReadGeometryData_complete mem _ _ _ _ hb hl, afterHeader_bodySize, List.drop_drop]
  rfl

theorem ReadEWKB_of_not_accepts (mem : Nat) (s : List Byte) (d : Geometry) (h : ¬ d.accepts s) :
    ∃ e, (ReadEWKB mem s d).err = some e := by
  by_cases hm : validMarker s
  swap
  · exact ⟨_, by rw [ReadEWKB_noMarker mem s d hm]⟩
  by_cases h5 : 5 ≤ s.length
  swap
  · exact ⟨_, by rw [ReadEWKB_shortHeader mem s d hm (by omega)]⟩
  by_cases hsrid : (wireTypeCode s).testBit 29 = true → d.hasSRID = true
  swap
  · have hbit : (wireTypeCode s).testBit 29 = true := by
      by_contra hc
      exact hsrid (fun hb => absurd hb hc)
    have hd : d.hasSRID = false := by
      cases hh : d.hasSRID
      · rfl
      · exact absurd (fun _ => hh) hsrid
    exact ⟨_, by rw [ReadEWKB_unexpected mem s d hm h5 hbit hd]⟩
  by_cases hoff : wireBodyOffset s ≤ s.length
  swap
  · have hbit : (wireTypeCode s).testBit 29 = true := by
      by_contra hc
      unfold wireBodyOffset at hoff
      rw [if_neg hc] at hoff
      omega
    have h9 : s.length < 9 := by
      unfold wireBodyOffset at hoff
      rw [if_pos hbit] at hoff
      omega
    exact ⟨_, by rw [ReadEWKB_shortSRID mem s d hm h5 h9 hbit (hsrid hbit)]⟩
  rw [ReadEWKB_of_header' mem s d hm hoff hsrid]
  by_cases hbase : (GetGeometryInfo (wireTypeCode s)).BaseType
      = (if d.isPoint then WKBPoint else WKBLineString)
  · have hend : ¬ wireEnd s d ≤ s.length := fun hc => h ⟨hm, hsrid, hbase, hc⟩
    have hb : (GetGeometryInfo (wireTypeCode s)).BaseType
        = if (d.afterHeader s).isPoint then WKBPoint else WKBLineString := by
      rw [afterHeader_isPoint]
      exact hbase
    have hl : (s.drop (wireBodyOffset s)).length
        < (d.afterHeader s).bodySize (wireOrder s) (s.drop (wireBodyOffset s)) := by
      rw [afterHeader_bodySize, List.length_drop]
      unfold wireEnd at hend
      omega
    obtain ⟨e, q, rd, hq, _⟩ := ReadGeometryData_failed mem _ _ _ _ hb hl
    exact ⟨e, by rw [hq]⟩
  · by_cases h1 : (GetGeometryInfo (wireTypeCode s)).BaseType = WKBPoint
    · have hp : (d.afterHeader s).isPoint = false := by
        rw [afterHeader_isPoint]
        cases hh : d.isPoint
        · rfl
        · rw [hh, if_pos rfl] at hbase
          exact absurd h1 hbase
      exact ⟨_, by rw [ReadGeometryData_point_into_lineString mem _ _ _ _ h1 hp]⟩
    · by_cases h2 : (GetGeometryInfo (wireTypeCode s)).BaseType = WKBLineString
      · have hp : (d.afterHeader s).isPoint = true := by
          rw [afterHeader_isPoint]
          cases hh : d.isPoint
          · rw [hh] at hbase
            exact absurd h2 hbase
          · rfl
        exact ⟨_, by rw [ReadGeometryData_lineString_into_point mem _ _ _ _ h2 hp]⟩
      · exact ⟨_, by rw [ReadGeometryData_other mem _ _ _ _ h1 h2]⟩

theorem ReadEWKB_error_of_not_accepts (mem : Nat) (s : List Byte) (d : Geometry)
    (h : ¬ d.accepts s)
    (hg : d.isPoint = false → wireBodyOffset s + 4 ≤ s.length → sliceGranted mem s d) :
    ∃ e, (ReadEWKB mem s d).err = some e ∧ e ≠ .fatalOutOfMemory := by
  by_cases hm : validMarker s
  swap
  · refine ⟨_, by rw [ReadEWKB_noMarker mem s d hm], ?_⟩
    split <;> simp
  by_cases h5 : 5 ≤ s.length
  swap
  · exact ⟨_, by rw [ReadEWKB_shortHeader mem s d hm (by omega)],
      ne_fatalOutOfMemory_of_kind _ (shortError_kind _)⟩
  by_cases hsrid : (wireTypeCode s).testBit 29 = true → d.hasSRID = true
  swap
  · have hbit : (wireTypeCode s).testBit 29 = true := by
      by_contra hc
      exact hsrid (fun hb => absurd hb hc)
    have hd : d.hasSRID = false := by
      cases hh : d.hasSRID
      · rfl
      · exact absurd (fun _ => hh) hsrid
    exact ⟨_, by rw [ReadEWKB_unexpected mem s d hm h5 hbit hd], by simp⟩
  by_cases hoff : wireBodyOffset s ≤ s.length
  swap
  · have hbit : (wireTypeCode s).testBit 29 = true := by
      by_contra hc
      unfold wireBodyOffset at hoff
      rw [if_neg hc] at hoff
      omega
    have h9 : s.length < 9 := by
      unfold wireBodyOffset at hoff
      rw [if_pos hbit] at hoff
      omega
    exact ⟨_, by rw [ReadEWKB_shortSRID mem s d hm h5 h9 hbit (hsrid hbit)],
      ne_fatalOutOfMemory_of_kind _ (shortError_kind _)⟩
  rw [ReadEWKB_of_header' mem s d hm hoff hsrid]
  by_cases hbase : (GetGeometryInfo (wireTypeCode s)).BaseType
      = (if d.isPoint then WKBPoint else WKBLineString)
  · have hend : ¬ wireEnd s d ≤ s.length := fun hc => h ⟨hm, hsrid, hbase, hc⟩
    have hb : (GetGeometryInfo (wireTypeCode s)).BaseType
        = if (d.afterHeader s).isPoint then WKBPoint else WKBLineString := by
      rw [afterHeader_isPoint]
      exact hbase
    have hl : (s.drop (wireBodyOffset s)).length
        < (d.afterHeader s).bodySize (wireOrder s) (s.drop (wireBodyOffset s)) := by
      rw [afterHeader_bodySize, List.length_drop]
      unfold wireEnd at hend
      omega
    have hg2 : (d.afterHeader s).isPoint = false → 4 ≤ (s.drop (wireBodyOffset s)).length →
        makeGranted mem ((s.drop (wireBodyOffset s)).drop 4) (8 * (d.afterHeader s).dimension)
          ((wireOrder s).Uint32 ((s.drop (wireBodyOffset s)).take 4)) = true := by
      intro h1 h2
      rw [afterHeader_isPoint] at h1
      rw [List.length_drop] at h2
      rw [afterHeader_dimension]
      exact hg h1 (by omega)
    obtain ⟨e, q, hq, hkind, _⟩ := ReadGeometryData_short mem _ _ _ _ hb hl hg2
    exact ⟨e, by rw [hq], ne_fatalOutOfMemory_of_kind e hkind⟩
  · by_cases h1 : (GetGeometryInfo (wireTypeCode s)).BaseType = WKBPoint
    · have hp : (d.afterHeader s).isPoint = false := by
        rw [afterHeader_isPoint]
        cases hh : d.isPoint
        · rfl
        · rw [hh, if_pos rfl] at hbase
          exact absurd h1 hbase
      exact ⟨_, by rw [ReadGeometryData_point_into_lineString mem _ _ _ _ h1 hp], by simp⟩
    · by_cases h2 : (GetGeometryInfo (wireTypeCode s)).BaseType = WKBLineString
      · have hp : (d.afterHeader s).isPoint = true := by
          rw [afterHeader_isPoint]
          cases hh : d.isPoint
          · rw [hh] at hbase
            exact absurd h2 hbase
          · rfl
        exact ⟨_, by rw [ReadGeometryData_lineString_into_point mem _ _ _ _ h2 hp],
          by simp⟩
      · exact ⟨_, by rw [ReadGeometryData_other mem _ _ _ _ h1 h2], by simp⟩

theorem accepts_of_ok (mem : Nat) (s : List Byte) (d : Geometry) (h : (ReadEWKB mem s d).err = none) :
    d.accepts s := by
  by_contra hc
  obtain ⟨e, he⟩ := ReadEWKB_of_not_accepts mem s d hc
  rw [he] at h
  exact absurd h (by simp)

theorem fresh_isPoint (d : Geometry) : d.fresh.isPoint = d.isPoint := by
  cases d <;> rfl

theorem fresh_hasSRID (d : Geometry) : d.fresh.hasSRID = d.hasSRID := by
  cases d <;> rfl

theorem fresh_dimension (d : Geometry) : d.fresh.dimension = d.dimension := by
  cases d <;> rfl

theorem fresh_SRID (d : Geometry) (h : d.hasSRID = true) : d.fresh.SRID? = some 0 := by
  cases d <;> simp [Geometry.hasSRID] at h <;> rfl

theorem accepts_fresh (d : Geometry) (s : List Byte) : d.fresh.accepts s ↔ d.accepts s := by
  simp only [Geometry.accepts, wireEnd, Geometry.bodySize, fresh_isPoint, fresh_hasSRID,
    fresh_dimension]

theorem decodeFrom_numPoints (s : List Byte) (d : Geometry) (hd : d.isPoint = false) :
    (d.decodeFrom s).numPoints = wireCount s := by
  unfold Geometry.decodeFrom
  rw [decodeBody_numPoints _ _ _ (by rw [afterHeader_isPoint]; exact hd)]
  rfl

theorem decodeFrom_tuples_lineString (s : List Byte) (d : Geometry)
    (hd : d.isPoint = false) :
    (d.decodeFrom s).tuples = (List.range (wireCount s)).map (wireTuple s d.dimension) := by
  unfold Geometry.decodeFrom
  rw [decodeBody_tuples_lineString _ _ _ (by rw [afterHeader_isPoint]; exact hd),
    afterHeader_dimension]
  apply List.map_congr_left
  intro i _
  unfold wireTuple
  apply List.map_congr_left
  intro j _
  rw [wireFloat64_drop, Nat.add_assoc]

theorem decodeFrom_tuples_point (s : List Byte) (d : Geometry) (hd : d.isPoint = true) :
    (d.decodeFrom s).tuples
      = [(List.range d.dimension).map
          (fun j => wireFloat64 (wireOrder s) s (wireBodyOffset s + 8 * j))] := by
  unfold Geometry.decodeFrom
  rw [decodeBody_tuples_point _ _ _ (by rw [afterHeader_isPoint]; exact hd),
    afterHeader_dimension]
  congr 1
  apply List.map_congr_left
  intro j _
  rw [wireFloat64_drop]

theorem decodeFrom_SRID_absent (s : List Byte) (d : Geometry)
    (hbit : (wireTypeCode s).testBit 29 = false) : (d.decodeFrom s).SRID? = d.SRID? := by
  unfold Geometry.decodeFrom Geometry.afterHeader
  rw [decodeBody_SRID, hbit]
  rfl

/-! ## Decoding: claims -/

/-- C16. Absent SRID into an SRID-capable destination: for a destination of a type with
an SRID field and a stream with a valid marker whose type code has bit 29 clear and the
base kind of the type (1 for a point, 2 for a line string), and which holds the whole
body right after the type code, `ReadEWKB` returns no error, takes the coordinates of a
point, or the count and the points of a line string, from the bytes at offset 5, and
leaves the SRID field as it was: zero in a fresh destination. -/
theorem ReadEWKB_absent_SRID (mem : Nat) (s : List Byte) (d : Geometry) (hm : validMarker s)
    (hd : d.hasSRID = true) (hbit : (wireTypeCode s).testBit 29 = false)
    (hbase : (GetGeometryInfo (wireTypeCode s)).BaseType
      = (if d.isPoint then WKBPoint else WKBLineString))
    (hlen : 5 + d.bodySize (wireOrder s) (s.drop 5) ≤ s.length) :
    (ReadEWKB mem s d).err = none
    ∧ (ReadEWKB mem s d).dst = d.decodeBody (wireOrder s) (s.drop 5)
    ∧ (ReadEWKB mem s d).reader = s.drop (5 + d.bodySize (wireOrder s) (s.drop 5))
    ∧ (ReadEWKB mem s d).dst.SRID? = d.SRID?
    ∧ (ReadEWKB mem s d.fresh).err = none
    ∧ (ReadEWKB mem s d.fresh).dst.SRID? = some 0
    ∧ (d.isPoint = true → (ReadEWKB mem s d).dst.tuples
        = [(List.range d.dimension).map (fun j => wireFloat64 (wireOrder s) s (5 + 8 * j))])
    ∧ (d.isPoint = false → (ReadEWKB mem s d).dst.numPoints = wireCount s
        ∧ (ReadEWKB mem s d).dst.tuples
          = (List.range (wireCount s)).map (wireTuple s d.dimension)) := by
  have hoff : wireBodyOffset s = 5 := by
    unfold wireBodyOffset
    rw [hbit]
    rfl
  have hacc : d.accepts s := by
    refine ⟨hm, ?_, hbase, ?_⟩
    · intro h
      rw [hbit] at h
      exact absurd h (by simp)
    · unfold wireEnd
      rw [hoff]
      exact hlen
  have hr := ReadEWKB_of_accepts mem s d hacc
  have hrf := ReadEWKB_of_accepts mem s d.fresh ((accepts_fresh d s).mpr hacc)
  have hdec : d.decodeFrom s = d.decodeBody (wireOrder s) (s.drop 5) := by
    unfold Geometry.decodeFrom Geometry.afterHeader
    rw [hbit, hoff]
    rfl
  have hend : wireEnd s d = 5 + d.bodySize (wireOrder s) (s.drop 5) := by
    unfold wireEnd
    rw [hoff]
  refine ⟨by rw [hr], by rw [hr, hdec], by rw [hr, hend], ?_, by rw [hrf], ?_, ?_, ?_⟩
  · rw [hr]
    exact decodeFrom_SRID_absent s d hbit
  · rw [hrf]
    rw [decodeFrom_SRID_absent s d.fresh hbit, fresh_SRID d hd]
  · intro hp
    rw [hr, decodeFrom_tuples_point s d hp, hoff]
  · intro hp
    rw [hr]
    exact ⟨decodeFrom_numPoints s d hp, decodeFrom_tuples_lineString s d hp⟩

/-- C16, at the big-endian sample stream of a `PointZ` (1, 2, 3), decoded into a fresh
`PointZS`. -/
theorem ReadEWKB_absent_SRID_witness :
    validMarker samplePointZ
    ∧ (Geometry.pointZS ⟨0, 0, 0, 0⟩).hasSRID = true
    ∧ (wireTypeCode samplePointZ).testBit 29 = false
    ∧ (GetGeometryInfo (wireTypeCode samplePointZ)).BaseType
        = (if (Geometry.pointZS ⟨0, 0, 0, 0⟩).isPoint then WKBPoint else WKBLineString)
    ∧ 5 + (Geometry.pointZS ⟨0, 0, 0, 0⟩).bodySize (wireOrder samplePointZ)
        (samplePointZ.drop 5) ≤ samplePointZ.length
    ∧ (ReadEWKB 0 samplePointZ (.pointZS ⟨0, 0, 0, 0⟩)).err = none
    ∧ (ReadEWKB 0 samplePointZ (.pointZS ⟨0, 0, 0, 0⟩)).dst = .pointZS ⟨0, 1, 2, 3⟩ :=
  ⟨by decide, by decide, by decide, by decide, by decide,
    (ReadEWKB_absent_SRID 0 samplePointZ (.pointZS ⟨0, 0, 0, 0⟩) (by decide) (by decide)
      (by decide) (by decide) (by decide)).1,
    by decide⟩

/-- C20. Sequence decode replaces, never appends: when `ReadEWKB` into a destination of a
line string type returns no error, whatever points the destination held before, its
points afterwards are as many as the count on the wire says and are exactly the
coordinate tuples of the stream, in stream order. -/
theorem ReadEWKB_replaces_points (mem : Nat) (s : List Byte) (d : Geometry)
    (hd : d.isLineString = true) (hok : (ReadEWKB mem s d).err = none) :
    (ReadEWKB mem s d).dst.numPoints = wireCount s
    ∧ (ReadEWKB mem s d).dst.tuples = (List.range (wireCount s)).map (wireTuple s d.dimension)
    ∧ (ReadEWKB mem s d).dst.tuples = (ReadEWKB mem s d.fresh).dst.tuples := by
  have hp : d.isPoint = false := by
    simpa [Geometry.isLineString] using hd
  have hacc := accepts_of_ok mem s d hok
  have hr := ReadEWKB_of_accepts mem s d hacc
  have hrf := ReadEWKB_of_accepts mem s d.fresh ((accepts_fresh d s).mpr hacc)
  rw [hr, hrf]
  refine ⟨decodeFrom_numPoints s d hp, decodeFrom_tuples_lineString s d hp, ?_⟩
  rw [decodeFrom_tuples_lineString s d hp,
    decodeFrom_tuples_lineString s d.fresh (by rw [fresh_isPoint]; exact hp), fresh_dimension]

/-- C20, at the sample stream of a `LineString` with the one point (1, 2), decoded into
a `LineString` that held two other points. -/
theorem ReadEWKB_replaces_points_witness :
    (Geometry.lineString ⟨[⟨7, 7⟩, ⟨8, 8⟩]⟩).isLineString = true
    ∧ (ReadEWKB 0 sampleLineString (.lineString ⟨[⟨7, 7⟩, ⟨8, 8⟩]⟩)).err = none
    ∧ (ReadEWKB 0 sampleLineString (.lineString ⟨[⟨7, 7⟩, ⟨8, 8⟩]⟩)).dst
        = .lineString ⟨[⟨1, 2⟩]⟩
    ∧ (ReadEWKB 0 sampleLineString (.lineString ⟨[⟨7, 7⟩, ⟨8, 8⟩]⟩)).dst.numPoints
        = wireCount sampleLineString :=
  ⟨by decide, by decide, by decide,
    (ReadEWKB_replaces_points 0 sampleLineString (.lineString ⟨[⟨7, 7⟩, ⟨8, 8⟩]⟩)
      (by decide) (by decide)).1⟩

theorem withSRID_tuples (d : Geometry) (srid : Int) : (d.withSRID srid).tuples = d.tuples := by
  cases d <;> rfl

theorem afterHeader_tuples (d : Geometry) (s : List Byte) :
    (d.afterHeader s).tuples = d.tuples := by
  unfold Geometry.afterHeader
  split
  · exact withSRID_tuples d _
  · rfl

/-- C17, as stated, fails: the sample stream has a valid marker and the type code
`0x20000003`, of base kind 3, and `ReadEWKB` into a `Point` fails with the unexpected-SRID
error, not with the unsupported-geometry-type error. -/
theorem ReadEWKB_polygon_unexpectedSRID :
    validMarker samplePolygonSRID
    ∧ (GetGeometryInfo (wireTypeCode samplePolygonSRID)).BaseType = WKBPolygon
    ∧ ReadEWKB 0 samplePolygonSRID (.point ⟨0, 0⟩)
        = ⟨some (.unexpectedSRID "*postgis.Point"), .point ⟨0, 0⟩, [0xe6, 0x10, 0, 0]⟩
    ∧ (Error.unexpectedSRID "*postgis.Point").kind ≠ .UnsupportedGeometryType
    ∧ (ReadEWKB 0 samplePolygonSRID (.point ⟨0, 0⟩)).err
        ≠ some (.unsupportedGeometryType WKBPolygon) := by
  decide

/-- C17, amended. Unsupported base kind: for a stream with a valid marker and a complete
type code whose base kind is neither 1 nor 2, and whose SRID flag is either clear or set
with the four SRID bytes present and a destination of a type with an SRID field,
`ReadEWKB` fails with the unsupported-geometry-type error, carrying the base kind,
whichever of the sixteen types the destination has; it has read the header only, and has
stored the SRID if the stream announced one. -/
theorem ReadEWKB_unsupportedGeometryType (mem : Nat) (s : List Byte) (d : Geometry)
    (hm : validMarker s) (hlen : wireBodyOffset s ≤ s.length)
    (hsrid : (wireTypeCode s).testBit 29 = true → d.hasSRID = true)
    (h1 : (GetGeometryInfo (wireTypeCode s)).BaseType ≠ WKBPoint)
    (h2 : (GetGeometryInfo (wireTypeCode s)).BaseType ≠ WKBLineString) :
    ReadEWKB mem s d
      = ⟨some (.unsupportedGeometryType (GetGeometryInfo (wireTypeCode s)).BaseType),
          d.afterHeader s, s.drop (wireBodyOffset s)⟩
    ∧ (Error.unsupportedGeometryType (GetGeometryInfo (wireTypeCode s)).BaseType).kind
        = .UnsupportedGeometryType
    ∧ (d.afterHeader s).tuples = d.tuples := by
  rw [ReadEWKB_of_header' mem s d hm hlen hsrid, ReadGeometryData_other mem _ _ _ _ h1 h2]
  exact ⟨rfl, rfl, afterHeader_tuples d s⟩

/-- C17, amended, at the sample stream with type code `0x20000003` and a `PointS`
destination: the SRID 4326 is stored, then the base kind 3 is refused. -/
theorem ReadEWKB_unsupportedGeometryType_witness :
    validMarker samplePolygonSRID
    ∧ wireBodyOffset samplePolygonSRID ≤ samplePolygonSRID.length
    ∧ ((wireTypeCode samplePolygonSRID).testBit 29 = true
        → (Geometry.pointS ⟨0, 1, 2⟩).hasSRID = true)
    ∧ (GetGeometryInfo (wireTypeCode samplePolygonSRID)).BaseType ≠ WKBPoint
    ∧ (GetGeometryInfo (wireTypeCode samplePolygonSRID)).BaseType ≠ WKBLineString
    ∧ ReadEWKB 0 samplePolygonSRID (.pointS ⟨0, 1, 2⟩)
        = ⟨some (.unsupportedGeometryType 3), .pointS ⟨4326, 1, 2⟩, []⟩ :=
  ⟨by decide, by decide, by decide, by decide, by decide,
    (ReadEWKB_unsupportedGeometryType 0 samplePolygonSRID (.pointS ⟨0, 1, 2⟩) (by decide)
      (by decide) (by decide) (by decide) (by decide)).1.trans (by decide)⟩

/-- C18, as stated, fails: the sample stream has a valid marker and the type code
`0x20000002`, of base kind 2, and `ReadEWKB` into a `PointZ` fails with the
unexpected-SRID error, not with an unsupported-geometry-type error. -/
theorem ReadEWKB_lineString_unexpectedSRID :
    validMarker sampleLineStringSRID
    ∧ (GetGeometryInfo (wireTypeCode sampleLineStringSRID)).BaseType = WKBLineString
    ∧ (Geometry.pointZ ⟨0, 0, 0⟩).isPoint = true
    ∧ ReadEWKB 0 sampleLineStringSRID (.pointZ ⟨0, 0, 0⟩)
        = ⟨some (.unexpectedSRID "*postgis.PointZ"), .pointZ ⟨0, 0, 0⟩,
            [0xe6, 0x10, 0, 0, 0, 0, 0, 0]⟩
    ∧ (Error.unexpectedSRID "*postgis.PointZ").kind ≠ .UnsupportedGeometryType := by
  decide

/-- C18, amended. Dispatch requires the matching body capability: for a stream with a
valid marker and a complete type code whose SRID flag is either clear or set with the
four SRID bytes present and a destination of a type with an SRID field: if the base kind
is 2 and the destination is of a point type, `ReadEWKB` fails with the error that the
type does not implement `CollectionGeometry`; if the base kind is 1 and the destination
is of a line string type, it fails with the error of `binary.Read` for a type without
fixed size; both are of the unsupported-geometry-type kind. In both cases nothing after
the header is read and the coordinates or points of the destination are as before. -/
theorem ReadEWKB_capability_mismatch (mem : Nat) (s : List Byte) (d : Geometry)
    (hm : validMarker s) (hlen : wireBodyOffset s ≤ s.length)
    (hsrid : (wireTypeCode s).testBit 29 = true → d.hasSRID = true) :
    ((GetGeometryInfo (wireTypeCode s)).BaseType = WKBLineString → d.isPoint = true →
      ReadEWKB mem s d
        = ⟨some (.notCollectionGeometry d.typeName), d.afterHeader s,
            s.drop (wireBodyOffset s)⟩)
    ∧ ((GetGeometryInfo (wireTypeCode s)).BaseType = WKBPoint → d.isLineString = true →
      ReadEWKB mem s d
        = ⟨some (.binaryReadInvalidType d.typeName), d.afterHeader s,
            s.drop (wireBodyOffset s)⟩)
    ∧ (Error.notCollectionGeometry d.typeName).kind = .UnsupportedGeometryType
    ∧ (Error.binaryReadInvalidType d.typeName).kind = .UnsupportedGeometryType
    ∧ (d.afterHeader s).tuples = d.tuples := by
  refine ⟨?_, ?_, rfl, rfl, afterHeader_tuples d s⟩
  · intro hb hp
    rw [ReadEWKB_of_header' mem s d hm hlen hsrid,
      ReadGeometryData_lineString_into_point mem _ _ _ _ hb
        (by rw [afterHeader_isPoint]; exact hp), afterHeader_typeName]
  · intro hb hl
    have hp : d.isPoint = false := by
      simpa [Geometry.isLineString] using hl
    rw [ReadEWKB_of_header' mem s d hm hlen hsrid,
      ReadGeometryData_point_into_lineString mem _ _ _ _ hb
        (by rw [afterHeader_isPoint]; exact hp), afterHeader_typeName]

/-- C18, amended, at the sample stream of a `Point` decoded into a `LineStringZ` that
holds one point. -/
theorem ReadEWKB_capability_mismatch_witness :
    validMarker samplePoint
    ∧ wireBodyOffset samplePoint ≤ samplePoint.length
    ∧ ((wireTypeCode samplePoint).testBit 29 = true
        → (Geometry.lineStringZ ⟨[⟨7, 8, 9⟩]⟩).hasSRID = true)
    ∧ (GetGeometryInfo (wireTypeCode samplePoint)).BaseType = WKBPoint
    ∧ (Geometry.lineStringZ ⟨[⟨7, 8, 9⟩]⟩).isLineString = true
    ∧ ReadEWKB 0 samplePoint (.lineStringZ ⟨[⟨7, 8, 9⟩]⟩)
        = ⟨some (.binaryReadInvalidType (Geometry.lineStringZ ⟨[⟨7, 8, 9⟩]⟩).typeName),
            (Geometry.lineStringZ ⟨[⟨7, 8, 9⟩]⟩).afterHeader samplePoint,
            samplePoint.drop (wireBodyOffset samplePoint)⟩ :=
  ⟨by decide, by decide, by decide, by decide, by decide,
    (ReadEWKB_capability_mismatch 0 samplePoint (.lineStringZ ⟨[⟨7, 8, 9⟩]⟩) (by decide)
      (by decide) (by decide)).2.1 (by decide) (by decide)⟩

/-! ## Lemmas: a truncated encoding -/

theorem append_split {α : Type} (p t a b : List α) (h : p ++ t = a ++ b)
    (hlen : a.length ≤ p.length) : ∃ p2, p = a ++ p2 ∧ b = p2 ++ t := by
  refine ⟨p.drop a.length, ?_, ?_⟩
  · have h1 : (p ++ t).take a.length = (a ++ b).take a.length := by rw [h]
    rw [List.take_append_of_le_length hlen, List.take_left] at h1
    have h3 := (List.take_append_drop a.length p).symm
    rw [h1] at h3
    exact h3
  · have h2 : (p ++ t).drop a.length = (a ++ b).drop a.length := by rw [h]
    rw [List.drop_append_of_le_length hlen, List.drop_left] at h2
    exact h2.symm

theorem validMarker_cons (order : ByteOrder) (r : List Byte) :
    validMarker (order.marker :: r) := by
  cases order
  · exact Or.inr rfl
  · exact Or.inl rfl

theorem wireOrder_cons (order : ByteOrder) (r : List Byte) :
    wireOrder (order.marker :: r) = order := by
  cases order
  · have h : ¬ (wkbNDR = wkbXDR) := by decide
    simp [wireOrder, ByteOrder.marker, h]
  · simp [wireOrder, ByteOrder.marker]

theorem wireTypeCode_cons (order : ByteOrder) (ty rest : List Byte) (hty : ty.length = 4) :
    wireTypeCode (order.marker :: (ty ++ rest)) = order.Uint32 ty := by
  unfold wireTypeCode
  rw [wireOrder_cons]
  simp only [List.drop_succ_cons, List.drop_zero, List.take_left' hty]

theorem GetType_testBit (g : Geometry) : g.GetType.testBit 29 = g.hasSRID := by
  have h := GetGeometryInfo_GetType g
  rw [GetGeometryInfo_testBit] at h
  exact congrArg GeometryInfo.HasSRID h

theorem sridBytes_length (order : ByteOrder) (g : Geometry) :
    (g.sridBytes order).length = if g.hasSRID then 4 else 0 := by
  cases g <;> simp [Geometry.sridBytes, Geometry.SRID?, Geometry.hasSRID, PutUint32_length]

theorem body_eq_count (order : ByteOrder) (g : Geometry) (hg : g.isPoint = false) :
    ∃ elems, g.body order = order.PutUint32 g.numPoints ++ elems := by
  cases g <;> simp [Geometry.isPoint] at hg <;> exact ⟨_, rfl⟩

theorem sameType_isPoint (d g : Geometry) (h : d.fresh = g.fresh) : d.isPoint = g.isPoint := by
  rw [← fresh_isPoint d, h, fresh_isPoint]

theorem sameType_hasSRID (d g : Geometry) (h : d.fresh = g.fresh) :
    d.hasSRID = g.hasSRID := by
  rw [← fresh_hasSRID d, h, fresh_hasSRID]

theorem sameType_dimension (d g : Geometry) (h : d.fresh = g.fresh) :
    d.dimension = g.dimension := by
  rw [← fresh_dimension d, h, fresh_dimension]

theorem not_accepts_truncated (order : ByteOrder) (g d : Geometry) (p t : List Byte)
    (hd : d.fresh = g.fresh) (hn : g.numPoints < 2 ^ 32) (ht : t ≠ [])
    (hw : p ++ t = g.wire order) : ¬ d.accepts p := by
  rintro ⟨_, _, _, hend⟩
  have hoff5 := wireBodyOffset_ge p
  unfold wireEnd at hend
  have hty : (order.PutUint32 g.GetType).length = 4 := PutUint32_length _ _
  have hw' : p ++ t = (order.marker :: order.PutUint32 g.GetType)
      ++ (g.sridBytes order ++ g.body order) := hw
  obtain ⟨p2, hp, hsb⟩ := append_split p t _ _ hw'
    (by simp only [List.length_cons, hty]; omega)
  have hp' : p = order.marker :: (order.PutUint32 g.GetType ++ p2) := hp
  have hord : wireOrder p = order := by rw [hp', wireOrder_cons]
  have hcode : wireTypeCode p = g.GetType := by
    rw [hp', wireTypeCode_cons _ _ _ hty, Uint32_PutUint32, Nat.mod_eq_of_lt (GetType_lt g)]
  have hplen : p.length = 5 + p2.length := by
    rw [hp']
    simp only [List.length_cons, List.length_append, hty]
    omega
  have hdrop5 : p.drop 5 = p2 := by
    rw [hp]
    exact List.drop_left' (by simp only [List.length_cons, hty])
  have htlen : 0 < t.length := List.length_pos.mpr ht
  -- the bytes of the body that the prefix holds
  have hbody : ∃ r, p.drop (wireBodyOffset p) = r ∧ r ++ t = g.body order
      ∧ p.length = wireBodyOffset p + r.length := by
    unfold wireBodyOffset at hend ⊢
    rw [hcode, GetType_testBit] at hend ⊢
    have hsl := sridBytes_length order g
    cases hs : g.hasSRID
    · rw [hs] at hend hsl
      simp only [Bool.false_eq_true, if_false] at hend hsl ⊢
      have hnil : g.sridBytes order = [] := List.length_eq_zero.mp hsl
      rw [hnil, List.nil_append] at hsb
      exact ⟨p2, hdrop5, hsb.symm, hplen⟩
    · rw [hs] at hend hsl
      simp only [if_true] at hend hsl ⊢
      obtain ⟨p3, hp3, hb3⟩ := append_split p2 t _ _ hsb.symm (by omega)
      refine ⟨p3, ?_, hb3.symm, ?_⟩
      · have h9 : p.drop 9 = (p.drop 5).drop 4 := by rw [List.drop_drop]
        rw [h9, hdrop5, hp3]
        exact List.drop_left' hsl
      · rw [hplen, hp3, List.length_append, hsl]
        omega
  obtain ⟨r, hr, hrt, hrlen⟩ := hbody
  rw [hr, hord] at hend
  have hblen := body_length order g
  have hrl : r.length + t.length = (g.body order).length := by
    rw [← hrt, List.length_append]
  unfold Geometry.bodySize at hend
  rw [sameType_isPoint d g hd, sameType_dimension d g hd] at hend
  cases hp : g.isPoint
  · rw [hp] at hend hblen
    simp only [Bool.false_eq_true, if_false] at hend hblen
    obtain ⟨elems, he⟩ := body_eq_count order g hp
    have h4 : 4 ≤ r.length := by omega
    have htake : r.take 4 = order.PutUint32 g.numPoints := by
      have h1 : (r ++ t).take 4 = (g.body order).take 4 := by rw [hrt]
      rw [List.take_append_of_le_length h4, he, List.take_left' (PutUint32_length _ _)] at h1
      exact h1
    rw [htake, Uint32_PutUint32, Nat.mod_eq_of_lt hn] at hend
    omega
  · rw [hp] at hend hblen
    simp only [if_true] at hend hblen
    omega

/-- C11, at the `LineStringZS` with SRID 4326 and the two points (1, 2, 3), (4, 5, 6): a
body of 52 bytes, 65 bytes in all. -/
theorem lineString_body_layout_witness :
    (Geometry.lineStringZS ⟨4326, [⟨1, 2, 3⟩, ⟨4, 5, 6⟩]⟩).isLineString = true
    ∧ (Geometry.lineStringZS ⟨4326, [⟨1, 2, 3⟩, ⟨4, 5, 6⟩]⟩).numPoints < 2 ^ 32
    ∧ ∃ body out,
        (Geometry.lineStringZS ⟨4326, [⟨1, 2, 3⟩, ⟨4, 5, 6⟩]⟩).Write [] = .ok body
        ∧ leValue (body.take 4) = 2
        ∧ body.length = 4 + 8 * 3 * 2
        ∧ WriteEWKB (.lineStringZS ⟨4326, [⟨1, 2, 3⟩, ⟨4, 5, 6⟩]⟩) = .ok out
        ∧ out.length = 13 + 8 * 3 * 2 :=
  ⟨by decide, by decide,
    (lineString_body_layout (.lineStringZS ⟨4326, [⟨1, 2, 3⟩, ⟨4, 5, 6⟩]⟩) (by decide)
      (by decide)).1⟩

/-! ## Lemmas: a count that wraps -/

theorem wire_LineString (order : ByteOrder) (ps : List Point) :
    (Geometry.lineString ⟨ps⟩).wire order
      = order.marker :: (order.PutUint32 2
          ++ (order.PutUint32 ps.length
            ++ encodeElements (fun p => putFloat64s order p.fields) ps)) := rfl

theorem wire_LineStringZ (order : ByteOrder) (ps : List PointZ) :
    (Geometry.lineStringZ ⟨ps⟩).wire order
      = order.marker :: (order.PutUint32 0x80000002
          ++ (order.PutUint32 ps.length
            ++ encodeElements (fun p => putFloat64s order p.fields) ps)) := rfl

theorem ReadEWKB_wire_wrap (mem : Nat) (order : ByteOrder) (ps : List PointZ) (d : LineStringZ)
    (h : ps.length % 2 ^ 32 = 0) :
    ReadEWKB mem ((Geometry.lineStringZ ⟨ps⟩).wire order) (.lineStringZ d)
      = ⟨none, .lineStringZ ⟨[]⟩,
          encodeElements (fun p => putFloat64s order p.fields) ps⟩ := by
  have hc := binaryReadUint32_append order ps.length
    (encodeElements (fun p => putFloat64s order p.fields) ps)
  rw [h] at hc
  have hk : ¬ (WKBLineString = WKBPoint) := by decide
  have hinfo : GetGeometryInfo 0x80000002
      = { BaseType := WKBLineString, CoordType := CoordXYZ, HasSRID := false } := by decide
  rw [wire_LineStringZ, ReadEWKB_marker mem _ _ _ _ (by decide), hinfo]
  simp only [Bool.false_eq_true, if_false, ReadGeometryData, hk,
    Geometry.asCollectionGeometry, hc, LineStringZ.ReadElements,
    readElementsHelper_of_granted mem _ _ _ _ _ (makeGranted_zero mem _ _), readElementsLoop,
    Outcome.map, if_true]

/-! ## Truncation and byte order: claims -/

/-- C19, as stated, fails, in two ways. The `LineString` with `2 ^ 32` points is written
with the count 0, so the first nine bytes of its encoding, a proper prefix, decode
without error, as a line string with no point. And the first nine bytes of the encoding
of the `LineString` with `2 ^ 32 - 1` points carry the count `0xFFFFFFFF`:
`readElementsHelper` asks the runtime for a slice of that many points, 64 GiB, before it
reads a byte, and where the runtime has 16 GiB to give beyond the stream the process ends
there: the call returns no error. -/
theorem ReadEWKB_truncated_accepted :
    (∃ out, WriteEWKB (.lineString ⟨List.replicate (2 ^ 32) ⟨0, 0⟩⟩) = .ok out
      ∧ [1, 2, 0, 0, 0, 0, 0, 0, 0] <+: out
      ∧ [1, 2, 0, 0, 0, 0, 0, 0, 0] ≠ out
      ∧ ReadEWKB 0 [1, 2, 0, 0, 0, 0, 0, 0, 0] (.lineString ⟨[]⟩)
          = ⟨none, .lineString ⟨[]⟩, []⟩)
    ∧ (∃ out, WriteEWKB (.lineString ⟨List.replicate (2 ^ 32 - 1) ⟨0, 0⟩⟩) = .ok out
      ∧ sampleLineStringHuge <+: out
      ∧ sampleLineStringHuge ≠ out
      ∧ ReadEWKB (2 ^ 34) sampleLineStringHuge (.lineString ⟨[]⟩)
          = ⟨some .fatalOutOfMemory, .lineString ⟨[]⟩, []⟩) := by
  constructor
  · have hlen : (List.replicate (2 ^ 32) (⟨0, 0⟩ : Point)).length = 2 ^ 32 :=
      List.length_replicate _ _
    have hcount : ByteOrder.LittleEndian.PutUint32 (2 ^ 32) = [0, 0, 0, 0] := by decide
    have hw : (Geometry.lineString ⟨List.replicate (2 ^ 32) ⟨0, 0⟩⟩).wire .LittleEndian
        = [1, 2, 0, 0, 0, 0, 0, 0, 0]
          ++ encodeElements (fun p => putFloat64s .LittleEndian p.fields)
              (List.replicate (2 ^ 32) (⟨0, 0⟩ : Point)) := by
      rw [wire_LineString, hlen, hcount]
      rfl
    have hne : encodeElements (fun p => putFloat64s .LittleEndian p.fields)
        (List.replicate (2 ^ 32) (⟨0, 0⟩ : Point)) ≠ [] := by
      intro h
      have hl := encode_Point_length .LittleEndian (List.replicate (2 ^ 32) (⟨0, 0⟩ : Point))
      rw [h, hlen] at hl
      exact absurd hl (by decide)
    refine ⟨_, WriteEWKB_eq _, ?_, ?_, by decide⟩
    · rw [hw]
      exact ⟨_, rfl⟩
    · rw [hw]
      intro h
      exact hne (List.self_eq_append_right.mp h)
  · have hlen : (List.replicate (2 ^ 32 - 1) (⟨0, 0⟩ : Point)).length = 2 ^ 32 - 1 :=
      List.length_replicate _ _
    have hcount : ByteOrder.LittleEndian.PutUint32 (2 ^ 32 - 1) = [0xff, 0xff, 0xff, 0xff] := by
      decide
    have hw : (Geometry.lineString ⟨List.replicate (2 ^ 32 - 1) ⟨0, 0⟩⟩).wire .LittleEndian
        = sampleLineStringHuge
          ++ encodeElements (fun p => putFloat64s .LittleEndian p.fields)
              (List.replicate (2 ^ 32 - 1) (⟨0, 0⟩ : Point)) := by
      rw [wire_LineString, hlen, hcount]
      rfl
    have hne : encodeElements (fun p => putFloat64s .LittleEndian p.fields)
        (List.replicate (2 ^ 32 - 1) (⟨0, 0⟩ : Point)) ≠ [] := by
      intro h
      have hl := encode_Point_length .LittleEndian
        (List.replicate (2 ^ 32 - 1) (⟨0, 0⟩ : Point))
      rw [h, hlen] at hl
      exact absurd hl (by decide)
    refine ⟨_, WriteEWKB_eq _, ?_, ?_, by decide⟩
    · rw [hw]
      exact ⟨_, rfl⟩
    · rw [hw]
      intro h
      exact hne (List.self_eq_append_right.mp h)

/-- C19, amended. Truncation is always an error: for every value of the sixteen types, a
line string having fewer than `2 ^ 32` points, and every proper prefix (the empty stream
included) of the output of `WriteEWKB`, `ReadEWKB` of the prefix into a destination of
the type of the value returns an error, provided that, when the prefix holds the count of
a line string, the runtime grants the slice of that many elements that
`readElementsHelper` makes before it reads. -/
theorem ReadEWKB_truncated_fails (mem : Nat) (g d : Geometry) (p out : List Byte)
    (hd : d.fresh = g.fresh) (hn : g.numPoints < 2 ^ 32) (hout : WriteEWKB g = .ok out)
    (hp : p <+: out) (hne : p ≠ out)
    (hgrant : d.isLineString = true → wireBodyOffset p + 4 ≤ p.length →
      sliceGranted mem p d) :
    ∃ e, (ReadEWKB mem p d).err = some e ∧ e ≠ .fatalOutOfMemory := by
  rw [WriteEWKB_eq] at hout
  have ho : g.wire .LittleEndian = out := by
    injection hout
  obtain ⟨t, ht⟩ := hp
  have htne : t ≠ [] := by
    intro h
    rw [h, List.append_nil] at ht
    exact hne ht
  exact ReadEWKB_error_of_not_accepts mem p d
    (not_accepts_truncated .LittleEndian g d p t hd hn htne (ht.trans ho.symm))
    (fun h1 h2 => hgrant (by simp [Geometry.isLineString, h1]) h2)

/-- C19, amended, at the `LineString` with the points (1, 2) and (3, 4), cut after the
first point, where the runtime has 1024 bytes to give beyond the stream. -/
theorem ReadEWKB_truncated_fails_witness :
    (Geometry.lineString ⟨[]⟩).fresh = (Geometry.lineString ⟨[⟨1, 2⟩, ⟨3, 4⟩]⟩).fresh
    ∧ (Geometry.lineString ⟨[⟨1, 2⟩, ⟨3, 4⟩]⟩).numPoints < 2 ^ 32
    ∧ WriteEWKB (.lineString ⟨[⟨1, 2⟩, ⟨3, 4⟩]⟩)
        = .ok (sampleLineStringShort
            ++ [3, 0, 0, 0, 0, 0, 0, 0, 4, 0, 0, 0, 0, 0, 0, 0])
    ∧ sliceGranted 1024 sampleLineStringShort (.lineString ⟨[]⟩)
    ∧ ∃ e, (ReadEWKB 1024 sampleLineStringShort (.lineString ⟨[]⟩)).err = some e
        ∧ e ≠ .fatalOutOfMemory :=
  ⟨by decide, by decide, by decide, by decide,
    ReadEWKB_truncated_fails 1024 (.lineString ⟨[⟨1, 2⟩, ⟨3, 4⟩]⟩) (.lineString ⟨[]⟩)
      sampleLineStringShort
      (sampleLineStringShort ++ [3, 0, 0, 0, 0, 0, 0, 0, 4, 0, 0, 0, 0, 0, 0, 0])
      (by decide) (by decide) (by decide) (by decide) (by decide)
      (fun _ _ => by decide)⟩

/-- C13, as stated, fails: the big-endian stream of the `LineStringZ` with `2 ^ 32`
points carries the count 0; it decodes without error into a fresh `LineStringZ`, but to
a line string with no point, which is not the value. -/
theorem ReadEWKB_bigEndian_wraps :
    (ReadEWKB 0 ((Geometry.lineStringZ ⟨List.replicate (2 ^ 32) ⟨0, 0, 0⟩⟩).wire .BigEndian)
        (Geometry.lineStringZ ⟨List.replicate (2 ^ 32) ⟨0, 0, 0⟩⟩).fresh).err = none
    ∧ (ReadEWKB 0 ((Geometry.lineStringZ ⟨List.replicate (2 ^ 32) ⟨0, 0, 0⟩⟩).wire .BigEndian)
        (Geometry.lineStringZ ⟨List.replicate (2 ^ 32) ⟨0, 0, 0⟩⟩).fresh).dst
      = .lineStringZ ⟨[]⟩
    ∧ (ReadEWKB 0 ((Geometry.lineStringZ ⟨List.replicate (2 ^ 32) ⟨0, 0, 0⟩⟩).wire .BigEndian)
        (Geometry.lineStringZ ⟨List.replicate (2 ^ 32) ⟨0, 0, 0⟩⟩).fresh).dst
      ≠ .lineStringZ ⟨List.replicate (2 ^ 32) ⟨0, 0, 0⟩⟩ := by
  have hlen : (List.replicate (2 ^ 32) (⟨0, 0, 0⟩ : PointZ)).length % 2 ^ 32 = 0 := by
    rw [List.length_replicate, Nat.mod_self]
  have hr := ReadEWKB_wire_wrap 0 .BigEndian (List.replicate (2 ^ 32) ⟨0, 0, 0⟩) ⟨[]⟩ hlen
  have hf : (Geometry.lineStringZ ⟨List.replicate (2 ^ 32) ⟨0, 0, 0⟩⟩).fresh
      = .lineStringZ ⟨[]⟩ := rfl
  rw [hf, hr]
  refine ⟨rfl, rfl, ?_⟩
  intro h
  have hl := congrArg Geometry.numPoints h
  simp only [Geometry.numPoints, List.length_replicate, List.length_nil] at hl
  exact absurd hl (by decide)

/-- C13, amended. Decode accepts both byte orders: for every value of the sixteen types,
a line string having fewer than `2 ^ 32` points, the stream made of the marker `0x00`
followed by the fields that `WriteEWKB` writes (type code, SRID if any, count if any,
every coordinate), each with its bytes in big-endian order, decodes by `ReadEWKB` into a
fresh destination of the same type without error, to the value itself, as does the
output of `WriteEWKB`. -/
theorem ReadEWKB_bigEndian (mem : Nat) (g : Geometry) (hv : g.valid) (hn : g.numPoints < 2 ^ 32) :
    ReadEWKB mem (g.wire .BigEndian) g.fresh = ⟨none, g, []⟩
    ∧ (∃ out, WriteEWKB g = .ok out ∧ ReadEWKB mem out g.fresh = ⟨none, g, []⟩)
    ∧ g.wire .BigEndian
        = 0 :: (ByteOrder.BigEndian.PutUint32 g.GetType
            ++ (g.sridBytes .BigEndian ++ g.body .BigEndian))
    ∧ (∀ v, ByteOrder.BigEndian.PutUint32 v = (ByteOrder.LittleEndian.PutUint32 v).reverse)
    ∧ (∀ v, ByteOrder.BigEndian.PutUint64 v
        = (ByteOrder.LittleEndian.PutUint64 v).reverse) := by
  have hbe := ReadEWKB_wire mem .BigEndian g g.fresh [] (fresh_fresh g) hv hn
  have hle := ReadEWKB_wire mem .LittleEndian g g.fresh [] (fresh_fresh g) hv hn
  rw [List.append_nil] at hbe hle
  exact ⟨hbe, ⟨_, WriteEWKB_eq g, hle⟩, rfl, fun _ => rfl, fun _ => rfl⟩

/-- C13, amended, at the `LineStringS` with SRID -1 and the points (1, 2), (3, 4). -/
theorem ReadEWKB_bigEndian_witness :
    (Geometry.lineStringS ⟨-1, [⟨1, 2⟩, ⟨3, 4⟩]⟩).valid
    ∧ (Geometry.lineStringS ⟨-1, [⟨1, 2⟩, ⟨3, 4⟩]⟩).numPoints < 2 ^ 32
    ∧ ReadEWKB 0 ((Geometry.lineStringS ⟨-1, [⟨1, 2⟩, ⟨3, 4⟩]⟩).wire .BigEndian)
        (Geometry.lineStringS ⟨-1, [⟨1, 2⟩, ⟨3, 4⟩]⟩).fresh
      = ⟨none, .lineStringS ⟨-1, [⟨1, 2⟩, ⟨3, 4⟩]⟩, []⟩ :=
  ⟨by decide, by decide,
    (ReadEWKB_bigEndian 0 (.lineStringS ⟨-1, [⟨1, 2⟩, ⟨3, 4⟩]⟩) (by decide) (by decide)).1⟩


/-! ## Hex transport and type codes: further claims -/

theorem DecodeEWKB_bytes_EncodeEWKB (bs : List Byte) :
    DecodeEWKB (.bytes (EncodeEWKB bs)) = .ok bs := by
  simp only [DecodeEWKB, EncodeEWKB, hexDecodeString_hexEncodeToString]

/-- C21. Hex transport round trip: for every byte sequence `b`, `DecodeEWKB` of the string
`EncodeEWKB(b)`, and of the `[]byte` holding the same characters, returns no error and a
reader over exactly `b`; `DecodeEWKB` of a value of any other type returns an error. -/
theorem DecodeEWKB_roundtrip (b : List Byte) :
    DecodeEWKB (.string (EncodeEWKB b)) = .ok b
    ∧ DecodeEWKB (.bytes (EncodeEWKB b)) = .ok b
    ∧ (∀ typeName, DecodeEWKB (.other typeName) = .error (.unsupportedValueType typeName))
    ∧ (∀ typeName, (Error.unsupportedValueType typeName).kind = .MalformedTransportEncoding) :=
  ⟨DecodeEWKB_EncodeEWKB b, DecodeEWKB_bytes_EncodeEWKB b, fun _ => rfl, fun _ => rfl⟩

theorem flagBits_GetGeometryInfo (w : Nat) (hw : w < 2 ^ 32) :
    flagBits (GetGeometryInfo w).CoordType (GetGeometryInfo w).HasSRID = w / 2 ^ 29 := by
  rw [GetGeometryInfo_testBit]
  simp only
  have e31 := @Nat.testBit_to_div_mod 31 w
  have e30 := @Nat.testBit_to_div_mod 30 w
  have e29 := @Nat.testBit_to_div_mod 29 w
  cases h31 : w.testBit 31 <;> cases h30 : w.testBit 30 <;> cases h29 : w.testBit 29 <;>
    rw [h31] at e31 <;> rw [h30] at e30 <;> rw [h29] at e29 <;>
    simp at e31 e30 e29 <;>
    simp [flagBits, CoordXY, CoordXYZ, CoordXYM, CoordXYZM] <;>
    norm_num at hw ⊢ <;>
    omega

/-- C23. Pack undoes unpack on every code: for every 32-bit type word, packing the base
kind, the dimensionality and the SRID flag that `GetGeometryInfo` unpacks from it gives
the word back. -/
theorem BuildWKBType_GetGeometryInfo (wkbType : Nat) (hw : wkbType < 2 ^ 32) :
    BuildWKBType (GetGeometryInfo wkbType).BaseType (GetGeometryInfo wkbType).CoordType
      (GetGeometryInfo wkbType).HasSRID = wkbType := by
  have hb : (GetGeometryInfo wkbType).BaseType < 2 ^ 29 := by
    rw [GetGeometryInfo_testBit]
    exact Nat.mod_lt _ (by decide)
  have hv : (GetGeometryInfo wkbType).BaseType = wkbType % 2 ^ 29 := by
    rw [GetGeometryInfo_testBit]
  rw [BuildWKBType_eq_add _ _ _ hb, flagBits_GetGeometryInfo wkbType hw, hv]
  exact Nat.div_add_mod _ _

/-- C23, at the type word `0xE0000002`. -/
theorem BuildWKBType_GetGeometryInfo_witness :
    (0xE0000002 : Nat) < 2 ^ 32
    ∧ BuildWKBType (GetGeometryInfo 0xE0000002).BaseType
        (GetGeometryInfo 0xE0000002).CoordType (GetGeometryInfo 0xE0000002).HasSRID
      = 0xE0000002 :=
  ⟨by decide, BuildWKBType_GetGeometryInfo 0xE0000002 (by decide)⟩

/-! ## Lemmas: the order of the decode checks -/

theorem withSRID_SRID (d : Geometry) (srid : Int) (h : d.hasSRID = true) :
    (d.withSRID srid).SRID? = some srid := by
  cases d <;> simp [Geometry.hasSRID] at h <;> rfl

theorem afterHeader_of_bit (d : Geometry) (s : List Byte)
    (hbit : (wireTypeCode s).testBit 29 = true) :
    d.afterHeader s = d.withSRID (wireSRID s) := by
  unfold Geometry.afterHeader
  rw [if_pos hbit]

theorem wireBodyOffset_of_bit (s : List Byte) (hbit : (wireTypeCode s).testBit 29 = true) :
    wireBodyOffset s = 9 := by
  unfold wireBodyOffset
  rw [if_pos hbit]

/-! ## The order of the decode checks: claims -/

/-- C22, as stated, fails: the sample stream has a valid marker and the complete type code
`0x20000003`, which sets the SRID flag and has the unsupported base kind 3, and ends
there; `ReadEWKB` into a `PointS`, a type with an SRID field, fails with `io.EOF` on the
SRID read: it stores no SRID and does not reach the unsupported-geometry-type error. -/
theorem ReadEWKB_polygon_shortSRID :
    validMarker samplePolygonNoSRID
    ∧ wireTypeCode samplePolygonNoSRID = 0x20000003
    ∧ (GetGeometryInfo (wireTypeCode samplePolygonNoSRID)).HasSRID = true
    ∧ (GetGeometryInfo (wireTypeCode samplePolygonNoSRID)).BaseType = WKBPolygon
    ∧ (Geometry.pointS ⟨0, 1, 2⟩).hasSRID = true
    ∧ ReadEWKB 0 samplePolygonNoSRID (.pointS ⟨0, 1, 2⟩)
        = ⟨some .EOF, .pointS ⟨0, 1, 2⟩, []⟩
    ∧ Error.EOF.kind ≠ .UnsupportedGeometryType := by
  decide

/-- C22, amended. Decode checks are strictly sequential (byte order, then type code, then
SRID, then dispatch): for a stream with a valid marker and a complete type code that both
sets the SRID flag and has a base kind that is neither 1 nor 2, `ReadEWKB` into a
destination of a type without an SRID field fails with the unexpected-SRID error, the
destination unchanged and the reader right after the type code; into a destination of a
type with an SRID field, when the four SRID bytes follow the type code, it stores the
SRID and then fails with the unsupported-geometry-type error, the reader right after the
SRID. -/
theorem ReadEWKB_sequential_checks (mem : Nat) (s : List Byte) (d : Geometry)
    (hm : validMarker s) (h5 : 5 ≤ s.length)
    (hbit : (wireTypeCode s).testBit 29 = true)
    (h1 : (GetGeometryInfo (wireTypeCode s)).BaseType ≠ WKBPoint)
    (h2 : (GetGeometryInfo (wireTypeCode s)).BaseType ≠ WKBLineString) :
    (d.hasSRID = false →
      ReadEWKB mem s d = ⟨some (.unexpectedSRID d.typeName), d, s.drop 5⟩
      ∧ (Error.unexpectedSRID d.typeName).kind = .UnexpectedSRID)
    ∧ (d.hasSRID = true → 9 ≤ s.length →
      ReadEWKB mem s d
        = ⟨some (.unsupportedGeometryType (GetGeometryInfo (wireTypeCode s)).BaseType),
            d.withSRID (wireSRID s), s.drop 9⟩
      ∧ (d.withSRID (wireSRID s)).SRID? = some (wireSRID s)
      ∧ (Error.unsupportedGeometryType (GetGeometryInfo (wireTypeCode s)).BaseType).kind
          = .UnsupportedGeometryType) := by
  refine ⟨fun hd => ⟨ReadEWKB_unexpected mem s d hm h5 hbit hd, rfl⟩, fun hd h9 => ⟨?_, ?_, rfl⟩⟩
  · have hoff := wireBodyOffset_of_bit s hbit
    rw [ReadEWKB_of_header' mem s d hm (by rw [hoff]; exact h9) (fun _ => hd),
      ReadGeometryData_other mem _ _ _ _ h1 h2, afterHeader_of_bit d s hbit, hoff]
  · exact withSRID_SRID d _ hd

/-- C22, amended, at the sample stream with type code `0x20000003` followed by the SRID
4326: a `Point` destination gets the unexpected-SRID error with the four SRID bytes
unread. -/
theorem ReadEWKB_sequential_checks_witness :
    validMarker samplePolygonSRID
    ∧ 5 ≤ samplePolygonSRID.length
    ∧ (wireTypeCode samplePolygonSRID).testBit 29 = true
    ∧ (GetGeometryInfo (wireTypeCode samplePolygonSRID)).BaseType ≠ WKBPoint
    ∧ (GetGeometryInfo (wireTypeCode samplePolygonSRID)).BaseType ≠ WKBLineString
    ∧ (Geometry.point ⟨1, 2⟩).hasSRID = false
    ∧ ReadEWKB 0 samplePolygonSRID (.point ⟨1, 2⟩)
        = ⟨some (.unexpectedSRID (Geometry.point ⟨1, 2⟩).typeName), .point ⟨1, 2⟩,
            samplePolygonSRID.drop 5⟩ :=
  ⟨by decide, by decide, by decide, by decide, by decide, by decide,
    ((ReadEWKB_sequential_checks 0 samplePolygonSRID (.point ⟨1, 2⟩) (by decide) (by decide)
      (by decide) (by decide) (by decide)).1 (by decide)).1⟩

/-! ## Lemmas: the dimensionality flags on the wire -/

theorem ReadGeometryData_congr (mem : Nat) (r : Reader) (order : ByteOrder) (d : Geometry)
    (i j : GeometryInfo) (h : i.BaseType = j.BaseType) :
    ReadGeometryData mem r order d i = ReadGeometryData mem r order d j := by
  unfold ReadGeometryData
  rw [h]

theorem GetGeometryInfo_flip (w mask : Nat) (hmask : mask = WKBZFlag ∨ mask = WKBMFlag) :
    (GetGeometryInfo ((w ^^^ mask) % 2 ^ 32)).BaseType = (GetGeometryInfo w).BaseType
    ∧ (GetGeometryInfo ((w ^^^ mask) % 2 ^ 32)).HasSRID = (GetGeometryInfo w).HasSRID := by
  have hz : WKBZFlag = 2 ^ 31 := by decide
  have hm : WKBMFlag = 2 ^ 30 := by decide
  obtain ⟨k, hk, hmk⟩ : ∃ k, 29 < k ∧ mask = 2 ^ k := by
    rcases hmask with h | h
    · exact ⟨31, by decide, h.trans hz⟩
    · exact ⟨30, by decide, h.trans hm⟩
  subst hmk
  rw [GetGeometryInfo_testBit, GetGeometryInfo_testBit]
  refine ⟨?_, ?_⟩
  · show (w ^^^ 2 ^ k) % 2 ^ 32 % 2 ^ 29 = w % 2 ^ 29
    apply Nat.eq_of_testBit_eq
    intro i
    simp only [Nat.testBit_mod_two_pow, Nat.testBit_xor, Nat.testBit_two_pow]
    by_cases hi : i < 29
    · have h32 : i < 32 := by omega
      have hne : ¬ (k = i) := by omega
      simp [hi, h32, hne]
    · simp [hi]
  · show ((w ^^^ 2 ^ k) % 2 ^ 32).testBit 29 = w.testBit 29
    simp only [Nat.testBit_mod_two_pow, Nat.testBit_xor, Nat.testBit_two_pow]
    have hne : ¬ (k = 29) := by omega
    simp [hne]

theorem take_one_of_marker (s : List Byte) (hm : validMarker s) :
    s.take 1 = [(wireOrder s).marker] := by
  obtain ⟨r, hr⟩ := marker_wireOrder s hm
  have h := congrArg (List.take 1) hr
  simpa using h

theorem flipTypeBits_eq (mask : Nat) (s : List Byte) (hm : validMarker s) :
    flipTypeBits mask s
      = (wireOrder s).marker
          :: ((wireOrder s).PutUint32 (wireTypeCode s ^^^ mask) ++ s.drop 5) := by
  unfold flipTypeBits
  rw [take_one_of_marker s hm]
  rfl

theorem ReadEWKB_flipTypeBits (mem : Nat) (mask : Nat) (s : List Byte) (d : Geometry)
    (hmask : mask = WKBZFlag ∨ mask = WKBMFlag) (hm : validMarker s) (h5 : 5 ≤ s.length) :
    ReadEWKB mem (flipTypeBits mask s) d = ReadEWKB mem s d := by
  have hty : ((s.drop 1).take 4).length = 4 := by
    rw [List.length_take, List.length_drop]
    omega
  have h := ReadEWKB_header mem (wireOrder s) ((s.drop 1).take 4) (s.drop 5) d hty
  rw [← stream_eq s hm] at h
  obtain ⟨hB, hS⟩ := GetGeometryInfo_flip (wireTypeCode s) mask hmask
  rw [flipTypeBits_eq mask s hm, ReadEWKB_header mem _ _ _ _ (PutUint32_length _ _), h,
    Uint32_PutUint32, hS]
  simp only [ReadGeometryData_congr mem _ _ _ _ _ hB]
  rfl

theorem head_flipTypeBits (mask : Nat) (s : List Byte) (h5 : 5 ≤ s.length) :
    (flipTypeBits mask s).head? = s.head? := by
  cases s with
  | nil => simp at h5
  | cons b r => rfl

theorem leValue_lt (bs : List Byte) : leValue bs < 256 ^ bs.length := by
  induction bs with
  | nil => simp [leValue]
  | cons b bs ih =>
    simp only [leValue, List.length_cons, Nat.pow_succ]
    have hb := b.isLt
    omega

theorem Uint32_lt (order : ByteOrder) (bs : List Byte) (h : bs.length = 4) :
    order.Uint32 bs < 2 ^ 32 := by
  have e : (256 : Nat) ^ 4 = 2 ^ 32 := by norm_num
  cases order
  · have hl := leValue_lt bs
    rw [h, e] at hl
    exact hl
  · have hl := leValue_lt bs.reverse
    rw [List.length_reverse, h, e] at hl
    exact hl

theorem wireTypeCode_lt (s : List Byte) (h5 : 5 ≤ s.length) : wireTypeCode s < 2 ^ 32 := by
  unfold wireTypeCode
  apply Uint32_lt
  rw [List.length_take, List.length_drop]
  omega

theorem wireTypeCode_flipTypeBits (mask : Nat) (s : List Byte) (h5 : 5 ≤ s.length)
    (hmask : mask < 2 ^ 32) :
    wireTypeCode (flipTypeBits mask s) = wireTypeCode s ^^^ mask := by
  have ho : wireOrder (flipTypeBits mask s) = wireOrder s := by
    unfold wireOrder
    rw [head_flipTypeBits mask s h5]
  have hd : ((flipTypeBits mask s).drop 1).take 4
      = (wireOrder s).PutUint32 (wireTypeCode s ^^^ mask) := by
    cases s with
    | nil => simp at h5
    | cons b r =>
      show (((wireOrder (b :: r)).PutUint32 (wireTypeCode (b :: r) ^^^ mask)
        ++ List.drop 5 (b :: r))).take 4 = _
      rw [List.take_left' (PutUint32_length _ _)]
  have hlt : wireTypeCode s ^^^ mask < 2 ^ 32 :=
    Nat.xor_lt_two_pow (wireTypeCode_lt s h5) hmask
  show (wireOrder (flipTypeBits mask s)).Uint32 (((flipTypeBits mask s).drop 1).take 4) = _
  rw [ho, hd, Uint32_PutUint32, Nat.mod_eq_of_lt hlt]

theorem ReadEWKB_pointZ_into_point (mem : Nat) (order : ByteOrder) (p : PointZ) (q : Point)
    (t : List Byte) (hp : p.valid) :
    ReadEWKB mem ((Geometry.pointZ p).wire order ++ t) (.point q)
      = ⟨none, .point ⟨p.X, p.Y⟩, order.PutUint64 p.Z ++ t⟩ := by
  have hv : (Point.mk p.X p.Y).valid := ⟨hp.1, hp.2.1⟩
  have hb := binaryReadPoint_append order ⟨p.X, p.Y⟩ (order.PutUint64 p.Z ++ t) hv
  simp only [putFloat64s, List.append_assoc, List.append_nil, List.nil_append] at hb
  unfold Geometry.wire
  rw [List.cons_append, List.append_assoc, ReadEWKB_marker mem _ _ _ _ (GetType_lt _),
    GetGeometryInfo_GetType]
  simp only [Geometry.hasSRID, Geometry.isPoint, Geometry.sridBytes, Geometry.SRID?,
    Geometry.body, ReadGeometryData, Geometry.asPointReader, binaryReadGeometry, readInto,
    List.nil_append, if_true, Bool.false_eq_true, if_false, putFloat64s, List.append_assoc,
    List.append_nil, hb]

/-! ## The dimensionality flags on the wire: claims -/

/-- C24. Decode ignores the wire dimensionality flags: for every stream that holds a type
code and every destination, the stream with bit 31 (Z) or bit 30 (M) of its type code
flipped gives the same error and the same destination in `ReadEWKB`, and, when the marker
is valid, the same remaining input; in particular the encoding of any `PointZ` decodes
without error into a `Point`, which takes X and Y from the first 16 body bytes and leaves
the 8 bytes of Z unread. -/
theorem ReadEWKB_ignores_dimension_flags (mem : Nat) (mask : Nat) (s : List Byte) (d : Geometry)
    (p : PointZ) (q : Point)
    (hmask : mask = WKBZFlag ∨ mask = WKBMFlag) (h5 : 5 ≤ s.length) (hp : p.valid) :
    wireTypeCode (flipTypeBits mask s) = wireTypeCode s ^^^ mask
    ∧ (ReadEWKB mem (flipTypeBits mask s) d).err = (ReadEWKB mem s d).err
    ∧ (ReadEWKB mem (flipTypeBits mask s) d).dst = (ReadEWKB mem s d).dst
    ∧ (validMarker s → ReadEWKB mem (flipTypeBits mask s) d = ReadEWKB mem s d)
    ∧ WriteEWKB (.pointZ p) = .ok ((Geometry.pointZ p).wire .LittleEndian)
    ∧ ((Geometry.pointZ p).wire .LittleEndian).length = 29
    ∧ ReadEWKB mem ((Geometry.pointZ p).wire .LittleEndian) (.point q)
        = ⟨none, .point ⟨p.X, p.Y⟩, ByteOrder.LittleEndian.PutUint64 p.Z⟩ := by
  have hlt : mask < 2 ^ 32 := by
    rcases hmask with h | h <;> rw [h] <;> decide
  refine ⟨wireTypeCode_flipTypeBits mask s h5 hlt, ?_, ?_,
    fun hm => ReadEWKB_flipTypeBits mem mask s d hmask hm h5, WriteEWKB_eq _, ?_, ?_⟩
  · by_cases hm : validMarker s
    · rw [ReadEWKB_flipTypeBits mem mask s d hmask hm h5]
    · have hm2 : ¬ validMarker (flipTypeBits mask s) := by
        unfold validMarker
        rw [head_flipTypeBits mask s h5]
        exact hm
      have hs : s ≠ [] := by
        intro h
        rw [h] at h5
        simp at h5
      have hf : flipTypeBits mask s ≠ [] := by
        intro h
        have hh := head_flipTypeBits mask s h5
        rw [h] at hh
        cases s with
        | nil => exact hs rfl
        | cons b r => simp at hh
      rw [ReadEWKB_noMarker mem _ d hm, ReadEWKB_noMarker mem _ d hm2, if_neg hs, if_neg hf]
  · by_cases hm : validMarker s
    · rw [ReadEWKB_flipTypeBits mem mask s d hmask hm h5]
    · have hm2 : ¬ validMarker (flipTypeBits mask s) := by
        unfold validMarker
        rw [head_flipTypeBits mask s h5]
        exact hm
      rw [ReadEWKB_noMarker mem _ d hm, ReadEWKB_noMarker mem _ d hm2]
  · rw [wire_length]
    rfl
  · have h := ReadEWKB_pointZ_into_point mem .LittleEndian p q [] hp
    rw [List.append_nil, List.append_nil] at h
    exact h

/-- C24, at the sample big-endian `PointZ` stream with its Z bit flipped, read into a
`PointZ`, and at the `PointZ` (1, 2, 3) read into a `Point`. -/
theorem ReadEWKB_ignores_dimension_flags_witness :
    (WKBZFlag = WKBZFlag ∨ WKBZFlag = WKBMFlag)
    ∧ 5 ≤ samplePointZ.length
    ∧ (PointZ.mk 1 2 3).valid
    ∧ wireTypeCode (flipTypeBits WKBZFlag samplePointZ) = 1
    ∧ ReadEWKB 0 (flipTypeBits WKBZFlag samplePointZ) (.pointZ ⟨0, 0, 0⟩)
        = ReadEWKB 0 samplePointZ (.pointZ ⟨0, 0, 0⟩)
    ∧ ReadEWKB 0 ((Geometry.pointZ ⟨1, 2, 3⟩).wire .LittleEndian) (.point ⟨7, 8⟩)
        = ⟨none, .point ⟨1, 2⟩, ByteOrder.LittleEndian.PutUint64 3⟩ :=
  have h := ReadEWKB_ignores_dimension_flags 0 WKBZFlag samplePointZ (.pointZ ⟨0, 0, 0⟩)
    ⟨1, 2, 3⟩ ⟨7, 8⟩ (Or.inl rfl) (by decide) (by decide)
  ⟨Or.inl rfl, by decide, by decide, h.1.trans (by decide), h.2.2.2.1 (by decide),
    h.2.2.2.2.2.2⟩

/-! ## Lemmas: trailing bytes -/

theorem wire_LineStringM (order : ByteOrder) (ps : List PointM) :
    (Geometry.lineStringM ⟨ps⟩).wire order
      = order.marker :: (order.PutUint32 0x40000002
          ++ (order.PutUint32 ps.length
            ++ encodeElements (fun p => putFloat64s order p.fields) ps)) := rfl

theorem ReadEWKB_wire_wrap_trailing (mem : Nat) (order : ByteOrder) (ps : List PointM)
    (d : LineStringM) (t : List Byte) (h : ps.length % 2 ^ 32 = 0) :
    ReadEWKB mem ((Geometry.lineStringM ⟨ps⟩).wire order ++ t) (.lineStringM d)
      = ⟨none, .lineStringM ⟨[]⟩,
          encodeElements (fun p => putFloat64s order p.fields) ps ++ t⟩ := by
  have hc := binaryReadUint32_append order ps.length
    (encodeElements (fun p => putFloat64s order p.fields) ps ++ t)
  rw [h] at hc
  have hk : ¬ (WKBLineString = WKBPoint) := by decide
  have hinfo : GetGeometryInfo 0x40000002
      = { BaseType := WKBLineString, CoordType := CoordXYM, HasSRID := false } := by decide
  rw [wire_LineStringM, List.cons_append, List.append_assoc, List.append_assoc,
    ReadEWKB_marker mem _ _ _ _ (by decide), hinfo]
  simp only [Bool.false_eq_true, if_false, ReadGeometryData, hk,
    Geometry.asCollectionGeometry, hc, LineStringM.ReadElements,
    readElementsHelper_of_granted mem _ _ _ _ _ (makeGranted_zero mem _ _), readElementsLoop,
    Outcome.map, if_true]

/-! ## Trailing bytes: claims -/

/-- C25, as stated, fails: the `LineStringM` with `2 ^ 32` points is written with the
count 0, so `ReadEWKB` of its encoding followed by the byte 7, into a fresh
`LineStringM`, returns no error but yields a line string with no point, which is not the
value, and it leaves unread more than the one byte that follows the encoding. -/
theorem ReadEWKB_trailing_wraps :
    ∃ out, WriteEWKB (.lineStringM ⟨List.replicate (2 ^ 32) ⟨0, 0, 0⟩⟩) = .ok out
      ∧ (ReadEWKB 0 (out ++ [7])
          (Geometry.lineStringM ⟨List.replicate (2 ^ 32) ⟨0, 0, 0⟩⟩).fresh).err = none
      ∧ (ReadEWKB 0 (out ++ [7])
          (Geometry.lineStringM ⟨List.replicate (2 ^ 32) ⟨0, 0, 0⟩⟩).fresh).dst
        = .lineStringM ⟨[]⟩
      ∧ (ReadEWKB 0 (out ++ [7])
          (Geometry.lineStringM ⟨List.replicate (2 ^ 32) ⟨0, 0, 0⟩⟩).fresh).dst
        ≠ .lineStringM ⟨List.replicate (2 ^ 32) ⟨0, 0, 0⟩⟩
      ∧ (ReadEWKB 0 (out ++ [7])
          (Geometry.lineStringM ⟨List.replicate (2 ^ 32) ⟨0, 0, 0⟩⟩).fresh).reader
        ≠ [7] := by
  have hlen : (List.replicate (2 ^ 32) (⟨0, 0, 0⟩ : PointM)).length % 2 ^ 32 = 0 := by
    rw [List.length_replicate, Nat.mod_self]
  have hr := ReadEWKB_wire_wrap_trailing 0 .LittleEndian (List.replicate (2 ^ 32) ⟨0, 0, 0⟩)
    ⟨[]⟩ [7] hlen
  have hf : (Geometry.lineStringM ⟨List.replicate (2 ^ 32) ⟨0, 0, 0⟩⟩).fresh
      = .lineStringM ⟨[]⟩ := rfl
  refine ⟨_, WriteEWKB_eq _, ?_⟩
  rw [hf, hr]
  refine ⟨rfl, rfl, ?_, ?_⟩
  · intro h
    have hl := congrArg Geometry.numPoints h
    simp only [Geometry.numPoints, List.length_replicate, List.length_nil] at hl
    exact absurd hl (by decide)
  · intro h
    have hl := congrArg List.length h
    rw [List.length_append, encode_PointM_length, List.length_replicate] at hl
    simp only [List.length_singleton] at hl
    omega

/-- C25, amended. Trailing bytes are ignored: for every value of the sixteen types, a
line string having fewer than `2 ^ 32` points, and every byte sequence `t`, `WriteEWKB`
returns an output, and `ReadEWKB` of this output followed by `t`, into a fresh
destination of the type of the value, returns no error and yields the value; it consumes
exactly the bytes of the output, and leaves `t` in the reader. -/
theorem ReadEWKB_trailing_bytes (mem : Nat) (g : Geometry) (t : List Byte) (hv : g.valid)
    (hn : g.numPoints < 2 ^ 32) :
    ∃ out, WriteEWKB g = .ok out
      ∧ ReadEWKB mem (out ++ t) g.fresh = ⟨none, g, (out ++ t).drop out.length⟩
      ∧ (out ++ t).drop out.length = t := by
  refine ⟨_, WriteEWKB_eq g, ?_, List.drop_left' rfl⟩
  rw [List.drop_left' rfl]
  exact ReadEWKB_wire mem .LittleEndian g g.fresh t (fresh_fresh g) hv hn

/-- C25, amended, at the `LineStringZM` with the point (1, 2, 3, 4), followed by the
bytes 9, 9. -/
theorem ReadEWKB_trailing_bytes_witness :
    (Geometry.lineStringZM ⟨[⟨1, 2, 3, 4⟩]⟩).valid
    ∧ (Geometry.lineStringZM ⟨[⟨1, 2, 3, 4⟩]⟩).numPoints < 2 ^ 32
    ∧ ∃ out, WriteEWKB (.lineStringZM ⟨[⟨1, 2, 3, 4⟩]⟩) = .ok out
      ∧ ReadEWKB 0 (out ++ [9, 9]) (Geometry.lineStringZM ⟨[⟨1, 2, 3, 4⟩]⟩).fresh
          = ⟨none, .lineStringZM ⟨[⟨1, 2, 3, 4⟩]⟩, (out ++ [9, 9]).drop out.length⟩
      ∧ (out ++ [9, 9]).drop out.length = [9, 9] :=
  ⟨by decide, by decide,
    ReadEWKB_trailing_bytes 0 (.lineStringZM ⟨[⟨1, 2, 3, 4⟩]⟩) [9, 9] (by decide) (by decide)⟩

/-! ## Lemmas: a short sequence body -/

theorem afterHeader_cases (d : Geometry) (s : List Byte) :
    d.afterHeader s = d ∨ d.afterHeader s = d.withSRID (wireSRID s) := by
  unfold Geometry.afterHeader
  split
  · exact Or.inr rfl
  · exact Or.inl rfl

theorem ReadEWKB_lineString_short (mem : Nat) (s : List Byte) (d : Geometry) (hp : d.isPoint = false)
    (hm : validMarker s) (hcount : wireBodyOffset s + 4 ≤ s.length)
    (hshort : s.length < wireBodyOffset s + 4 + 8 * d.dimension * wireCount s) :
    ∃ e q r, ReadEWKB mem s d = ⟨some e, q, r⟩ ∧ (q = d ∨ q = d.withSRID (wireSRID s)) := by
  have h5 : 5 ≤ s.length := by
    have := wireBodyOffset_ge s
    omega
  by_cases hsrid : (wireTypeCode s).testBit 29 = true → d.hasSRID = true
  swap
  · have hbit : (wireTypeCode s).testBit 29 = true := by
      by_contra hc
      exact hsrid (fun hb => absurd hb hc)
    have hd : d.hasSRID = false := by
      cases hh : d.hasSRID
      · rfl
      · exact absurd (fun _ => hh) hsrid
    exact ⟨_, _, _, ReadEWKB_unexpected mem s d hm h5 hbit hd, Or.inl rfl⟩
  have hoff : wireBodyOffset s ≤ s.length := by omega
  rw [ReadEWKB_of_header' mem s d hm hoff hsrid]
  have hp2 : (d.afterHeader s).isPoint = false := by
    rw [afterHeader_isPoint]
    exact hp
  by_cases h2 : (GetGeometryInfo (wireTypeCode s)).BaseType = WKBLineString
  · have hb : (GetGeometryInfo (wireTypeCode s)).BaseType
        = if (d.afterHeader s).isPoint then WKBPoint else WKBLineString := by
      rw [hp2]
      exact h2
    have hl : (s.drop (wireBodyOffset s)).length
        < (d.afterHeader s).bodySize (wireOrder s) (s.drop (wireBodyOffset s)) := by
      rw [afterHeader_bodySize, List.length_drop]
      unfold Geometry.bodySize
      rw [hp]
      unfold wireCount at hshort
      simp only [Bool.false_eq_true, if_false]
      omega
    obtain ⟨e, q, rd, hq, _, hqd, _⟩ := ReadGeometryData_failed mem _ _ _ _ hb hl
    have hqe := hqd (Or.inl hp2)
    rw [hqe] at hq
    exact ⟨e, _, _, hq, afterHeader_cases d s⟩
  · by_cases h1 : (GetGeometryInfo (wireTypeCode s)).BaseType = WKBPoint
    · exact ⟨_, _, _, ReadGeometryData_point_into_lineString mem _ _ _ _ h1 hp2,
        afterHeader_cases d s⟩
    · exact ⟨_, _, _, ReadGeometryData_other mem _ _ _ _ h1 h2, afterHeader_cases d s⟩

/-! ## A short sequence body: claims -/

/-- C26, as stated, fails: the sample stream has a valid marker, the type code of a line
string, the count `0xFFFFFFFF` and no byte after it, so its body holds fewer tuples than
the count says; `readElementsHelper` asks the runtime for a slice of that many points,
64 GiB, before it reads a byte, and where the runtime has 16 GiB to give beyond the
stream the process ends there: `ReadEWKB` into a `LineString` returns no error. -/
theorem ReadEWKB_short_body_out_of_memory :
    (Geometry.lineString ⟨[⟨7, 7⟩]⟩).isLineString = true
    ∧ validMarker sampleLineStringHuge
    ∧ wireBodyOffset sampleLineStringHuge + 4 ≤ sampleLineStringHuge.length
    ∧ wireCount sampleLineStringHuge = 0xFFFFFFFF
    ∧ sampleLineStringHuge.length
        < wireBodyOffset sampleLineStringHuge + 4
          + 8 * (Geometry.lineString ⟨[⟨7, 7⟩]⟩).dimension * wireCount sampleLineStringHuge
    ∧ ReadEWKB (2 ^ 34) sampleLineStringHuge (.lineString ⟨[⟨7, 7⟩]⟩)
        = ⟨some .fatalOutOfMemory, .lineString ⟨[⟨7, 7⟩]⟩, []⟩ := by
  decide

/-- C26, amended. A failed sequence-body read leaves the points untouched: for every
destination of a line string type and every stream with a valid marker that holds the
type code, the SRID if the type code announces one, and the count, but fewer bytes after
the count than the count says, when the runtime grants the slice of that many elements
that `readElementsHelper` makes before it reads, `ReadEWKB` returns an error, and the
destination after the call is the destination before the call, or that one with only its
SRID field overwritten by the SRID of the stream: its points are as before. -/
theorem ReadEWKB_short_body_keeps_points (mem : Nat) (s : List Byte) (d : Geometry)
    (hl : d.isLineString = true) (hm : validMarker s)
    (hcount : wireBodyOffset s + 4 ≤ s.length)
    (hshort : s.length < wireBodyOffset s + 4 + 8 * d.dimension * wireCount s)
    (hgrant : sliceGranted mem s d) :
    (∃ e, (ReadEWKB mem s d).err = some e ∧ e ≠ .fatalOutOfMemory)
    ∧ ((ReadEWKB mem s d).dst = d ∨ (ReadEWKB mem s d).dst = d.withSRID (wireSRID s))
    ∧ (ReadEWKB mem s d).dst.tuples = d.tuples := by
  have hp : d.isPoint = false := by
    simpa [Geometry.isLineString] using hl
  have hna : ¬ d.accepts s := by
    intro hacc
    have hle := hacc.2.2.2
    unfold wireEnd Geometry.bodySize at hle
    rw [hp] at hle
    unfold wireCount at hshort
    simp only [Bool.false_eq_true, if_false] at hle
    omega
  have herr := ReadEWKB_error_of_not_accepts mem s d hna (fun _ _ => hgrant)
  obtain ⟨e, q, r, hq, hor⟩ := ReadEWKB_lineString_short mem s d hp hm hcount hshort
  rw [hq] at herr ⊢
  refine ⟨herr, hor, ?_⟩
  rcases hor with h | h
  · exact congrArg Geometry.tuples h
  · exact (congrArg Geometry.tuples h).trans (withSRID_tuples d _)

/-- C26, amended, at the sample stream that announces two points and holds one, read into
a `LineString` that holds the points (7, 7) and (8, 8), where the runtime has 1024 bytes
to give beyond the stream. -/
theorem ReadEWKB_short_body_keeps_points_witness :
    (Geometry.lineString ⟨[⟨7, 7⟩, ⟨8, 8⟩]⟩).isLineString = true
    ∧ validMarker sampleLineStringShort
    ∧ wireBodyOffset sampleLineStringShort + 4 ≤ sampleLineStringShort.length
    ∧ sampleLineStringShort.length
        < wireBodyOffset sampleLineStringShort + 4
          + 8 * (Geometry.lineString ⟨[⟨7, 7⟩, ⟨8, 8⟩]⟩).dimension
            * wireCount sampleLineStringShort
    ∧ sliceGranted 1024 sampleLineStringShort (.lineString ⟨[⟨7, 7⟩, ⟨8, 8⟩]⟩)
    ∧ (∃ e, (ReadEWKB 1024 sampleLineStringShort (.lineString ⟨[⟨7, 7⟩, ⟨8, 8⟩]⟩)).err
          = some e ∧ e ≠ .fatalOutOfMemory)
    ∧ (ReadEWKB 1024 sampleLineStringShort (.lineString ⟨[⟨7, 7⟩, ⟨8, 8⟩]⟩)).dst.tuples
        = [[7, 7], [8, 8]] :=
  have h := ReadEWKB_short_body_keeps_points 1024 sampleLineStringShort
    (.lineString ⟨[⟨7, 7⟩, ⟨8, 8⟩]⟩) (by decide) (by decide) (by decide) (by decide)
    (by decide)
  ⟨by decide, by decide, by decide, by decide, by decide, h.1, h.2.2⟩

/-! ## Lemmas: encoding a decoded value -/

theorem leBytes_leValue (bs : List Byte) : leBytes bs.length (leValue bs) = bs := by
  induction bs with
  | nil => rfl
  | cons b bs ih =>
    have hb := b.isLt
    have h1 : byte (b.val + 256 * leValue bs) = b := by
      apply Fin.ext
      show (b.val + 256 * leValue bs) % 256 = b.val
      omega
    have h2 : (b.val + 256 * leValue bs) / 256 = leValue bs := by omega
    simp only [List.length_cons, leBytes, leValue]
    rw [h1, h2, ih]

theorem PutUint32_Uint32 (order : ByteOrder) (bs : List Byte) (h : bs.length = 4) :
    order.PutUint32 (order.Uint32 bs) = bs := by
  cases order
  · have e := leBytes_leValue bs
    rw [h] at e
    exact e
  · have e := leBytes_leValue bs.reverse
    rw [List.length_reverse, h] at e
    show (leBytes 4 (leValue bs.reverse)).reverse = bs
    rw [e, List.reverse_reverse]

theorem PutUint64_Uint64 (order : ByteOrder) (bs : List Byte) (h : bs.length = 8) :
    order.PutUint64 (order.Uint64 bs) = bs := by
  cases order
  · have e := leBytes_leValue bs
    rw [h] at e
    exact e
  · have e := leBytes_leValue bs.reverse
    rw [List.length_reverse, h] at e
    show (leBytes 8 (leValue bs.reverse)).reverse = bs
    rw [e, List.reverse_reverse]

theorem uint32OfInt32_int32OfUint32 (u : Nat) (h : u < 2 ^ 32) :
    uint32OfInt32 (int32OfUint32 u) = u := by
  have key : int32OfUint32 u % 2 ^ 32 = (u : Int) := by
    unfold int32OfUint32
    norm_num at h ⊢
    split <;> omega
  unfold uint32OfInt32
  rw [key]
  exact Int.toNat_natCast u

theorem PutUint64_wireFloat64 (order : ByteOrder) (r : List Byte) (off : Nat)
    (h : off + 8 ≤ r.length) :
    order.PutUint64 (wireFloat64 order r off) = (r.drop off).take 8 := by
  unfold wireFloat64
  exact PutUint64_Uint64 order _ (by rw [List.length_take, List.length_drop]; omega)

theorem take_append_drop_take {α : Type} (r : List α) (a b : Nat) :
    r.take a ++ (r.drop a).take b = r.take (a + b) :=
  (List.take_add r a b).symm

theorem putFloat64s_decode_Point (order : ByteOrder) (r : List Byte) (h : 16 ≤ r.length) :
    putFloat64s order (Point.decode order r).fields = r.take 16 := by
  simp only [Point.decode, Point.fields, putFloat64s, List.append_nil]
  rw [PutUint64_wireFloat64 _ _ _ (by omega), PutUint64_wireFloat64 _ _ _ (by omega)]
  simp only [List.drop_zero, ← List.append_assoc, take_append_drop_take, Nat.reduceAdd]

theorem putFloat64s_decode_PointZ (order : ByteOrder) (r : List Byte) (h : 24 ≤ r.length) :
    putFloat64s order (PointZ.decode order r).fields = r.take 24 := by
  simp only [PointZ.decode, PointZ.fields, putFloat64s, List.append_nil]
  rw [PutUint64_wireFloat64 _ _ _ (by omega), PutUint64_wireFloat64 _ _ _ (by omega), PutUint64_wireFloat64 _ _ _ (by omega)]
  simp only [List.drop_zero, ← List.append_assoc, take_append_drop_take, Nat.reduceAdd]

theorem putFloat64s_decode_PointM (order : ByteOrder) (r : List Byte) (h : 24 ≤ r.length) :
    putFloat64s order (PointM.decode order r).fields = r.take 24 := by
  simp only [PointM.decode, PointM.fields, putFloat64s, List.append_nil]
  rw [PutUint64_wireFloat64 _ _ _ (by omega), PutUint64_wireFloat64 _ _ _ (by omega), PutUint64_wireFloat64 _ _ _ (by omega)]
  simp only [List.drop_zero, ← List.append_assoc, take_append_drop_take, Nat.reduceAdd]

theorem putFloat64s_decode_PointZM (order : ByteOrder) (r : List Byte) (h : 32 ≤ r.length) :
    putFloat64s order (PointZM.decode order r).fields = r.take 32 := by
  simp only [PointZM.decode, PointZM.fields, putFloat64s, List.append_nil]
  rw [PutUint64_wireFloat64 _ _ _ (by omega), PutUint64_wireFloat64 _ _ _ (by omega), PutUint64_wireFloat64 _ _ _ (by omega), PutUint64_wireFloat64 _ _ _ (by omega)]
  simp only [List.drop_zero, ← List.append_assoc, take_append_drop_take, Nat.reduceAdd]

theorem encodeElements_decodeElements {T : Type} (enc : T → List Byte)
    (dec : List Byte → T) (size : Nat)
    (henc : ∀ r : List Byte, size ≤ r.length → enc (dec r) = r.take size)
    (count : Nat) (r : List Byte) (h : count * size ≤ r.length) :
    encodeElements enc (decodeElements dec size count r) = r.take (count * size) := by
  induction count generalizing r with
  | zero => simp [decodeElements, encodeElements]
  | succ c ih =>
    rw [Nat.succ_mul] at h
    have h1 : size ≤ r.length := by omega
    have h2 : c * size ≤ (r.drop size).length := by
      rw [List.length_drop]
      omega
    simp only [decodeElements, encodeElements]
    rw [henc r h1, ih _ h2, take_append_drop_take, Nat.succ_mul, Nat.add_comm]

theorem lineString_body_decode {T : Type} (order : ByteOrder) (enc : T → List Byte)
    (dec : List Byte → T) (size : Nat)
    (henc : ∀ r : List Byte, size ≤ r.length → enc (dec r) = r.take size)
    (r : List Byte) (h : 4 + order.Uint32 (r.take 4) * size ≤ r.length) :
    order.PutUint32 (decodeElements dec size (order.Uint32 (r.take 4)) (r.drop 4)).length
        ++ encodeElements enc (decodeElements dec size (order.Uint32 (r.take 4)) (r.drop 4))
      = r.take (4 + order.Uint32 (r.take 4) * size) := by
  have h4 : (r.take 4).length = 4 := by
    rw [List.length_take]
    omega
  have hc : order.Uint32 (r.take 4) * size ≤ (r.drop 4).length := by
    rw [List.length_drop]
    omega
  rw [decodeElements_length, PutUint32_Uint32 order _ h4,
    encodeElements_decodeElements enc dec size henc _ _ hc, take_append_drop_take]

theorem body_decodeBody (order : ByteOrder) (d : Geometry) (r : List Byte)
    (h : d.bodySize order r ≤ r.length) :
    (d.decodeBody order r).body order = r.take (d.bodySize order r) := by
  cases d
  case point p =>
    have hl : 16 ≤ r.length := by
      simpa [Geometry.bodySize, Geometry.isPoint, Geometry.dimension] using h
    exact putFloat64s_decode_Point order r hl
  case pointZ p =>
    have hl : 24 ≤ r.length := by
      simpa [Geometry.bodySize, Geometry.isPoint, Geometry.dimension] using h
    exact putFloat64s_decode_PointZ order r hl
  case pointM p =>
    have hl : 24 ≤ r.length := by
      simpa [Geometry.bodySize, Geometry.isPoint, Geometry.dimension] using h
    exact putFloat64s_decode_PointM order r hl
  case pointZM p =>
    have hl : 32 ≤ r.length := by
      simpa [Geometry.bodySize, Geometry.isPoint, Geometry.dimension] using h
    exact putFloat64s_decode_PointZM order r hl
  case pointS p =>
    have hl : 16 ≤ r.length := by
      simpa [Geometry.bodySize, Geometry.isPoint, Geometry.dimension] using h
    exact putFloat64s_decode_Point order r hl
  case pointZS p =>
    have hl : 24 ≤ r.length := by
      simpa [Geometry.bodySize, Geometry.isPoint, Geometry.dimension] using h
    exact putFloat64s_decode_PointZ order r hl
  case pointMS p =>
    have hl : 24 ≤ r.length := by
      simpa [Geometry.bodySize, Geometry.isPoint, Geometry.dimension] using h
    exact putFloat64s_decode_PointM order r hl
  case pointZMS p =>
    have hl : 32 ≤ r.length := by
      simpa [Geometry.bodySize, Geometry.isPoint, Geometry.dimension] using h
    exact putFloat64s_decode_PointZM order r hl
  case lineString ls =>
    have e : Geometry.bodySize order (.lineString ls) r = 4 + order.Uint32 (r.take 4) * 16 := by
      simp only [Geometry.bodySize, Geometry.isPoint, Geometry.dimension, Bool.false_eq_true,
        if_false]
      omega
    rw [e] at h ⊢
    exact lineString_body_decode order (fun p : Point => putFloat64s order p.fields)
      (Point.decode order) 16 (fun r hr => putFloat64s_decode_Point order r hr) r h
  case lineStringZ ls =>
    have e : Geometry.bodySize order (.lineStringZ ls) r = 4 + order.Uint32 (r.take 4) * 24 := by
      simp only [Geometry.bodySize, Geometry.isPoint, Geometry.dimension, Bool.false_eq_true,
        if_false]
      omega
    rw [e] at h ⊢
    exact lineString_body_decode order (fun p : PointZ => putFloat64s order p.fields)
      (PointZ.decode order) 24 (fun r hr => putFloat64s_decode_PointZ order r hr) r h
  case lineStringM ls =>
    have e : Geometry.bodySize order (.lineStringM ls) r = 4 + order.Uint32 (r.take 4) * 24 := by
      simp only [Geometry.bodySize, Geometry.isPoint, Geometry.dimension, Bool.false_eq_true,
        if_false]
      omega
    rw [e] at h ⊢
    exact lineString_body_decode order (fun p : PointM => putFloat64s order p.fields)
      (PointM.decode order) 24 (fun r hr => putFloat64s_decode_PointM order r hr) r h
  case lineStringZM ls =>
    have e : Geometry.bodySize order (.lineStringZM ls) r = 4 + order.Uint32 (r.take 4) * 32 := by
      simp only [Geometry.bodySize, Geometry.isPoint, Geometry.dimension, Bool.false_eq_true,
        if_false]
      omega
    rw [e] at h ⊢
    exact lineString_body_decode order (fun p : PointZM => putFloat64s order p.fields)
      (PointZM.decode order) 32 (fun r hr => putFloat64s_decode_PointZM order r hr) r h
  case lineStringS ls =>
    have e : Geometry.bodySize order (.lineStringS ls) r = 4 + order.Uint32 (r.take 4) * 16 := by
      simp only [Geometry.bodySize, Geometry.isPoint, Geometry.dimension, Bool.false_eq_true,
        if_false]
      omega
    rw [e] at h ⊢
    exact lineString_body_decode order (fun p : Point => putFloat64s order p.fields)
      (Point.decode order) 16 (fun r hr => putFloat64s_decode_Point order r hr) r h
  case lineStringZS ls =>
    have e : Geometry.bodySize order (.lineStringZS ls) r = 4 + order.Uint32 (r.take 4) * 24 := by
      simp only [Geometry.bodySize, Geometry.isPoint, Geometry.dimension, Bool.false_eq_true,
        if_false]
      omega
    rw [e] at h ⊢
    exact lineString_body_decode order (fun p : PointZ => putFloat64s order p.fields)
      (PointZ.decode order) 24 (fun r hr => putFloat64s_decode_PointZ order r hr) r h
  case lineStringMS ls =>
    have e : Geometry.bodySize order (.lineStringMS ls) r = 4 + order.Uint32 (r.take 4) * 24 := by
      simp only [Geometry.bodySize, Geometry.isPoint, Geometry.dimension, Bool.false_eq_true,
        if_false]
      omega
    rw [e] at h ⊢
    exact lineString_body_decode order (fun p : PointM => putFloat64s order p.fields)
      (PointM.decode order) 24 (fun r hr => putFloat64s_decode_PointM order r hr) r h
  case lineStringZMS ls =>
    have e : Geometry.bodySize order (.lineStringZMS ls) r = 4 + order.Uint32 (r.take 4) * 32 := by
      simp only [Geometry.bodySize, Geometry.isPoint, Geometry.dimension, Bool.false_eq_true,
        if_false]
      omega
    rw [e] at h ⊢
    exact lineString_body_decode order (fun p : PointZM => putFloat64s order p.fields)
      (PointZM.decode order) 32 (fun r hr => putFloat64s_decode_PointZM order r hr) r h

theorem sameType_GetType (a b : Geometry) (h : a.fresh = b.fresh) : a.GetType = b.GetType := by
  cases a <;> cases b <;> simp only [Geometry.fresh, reduceCtorEq] at h <;> rfl

theorem decodeFrom_fresh (s : List Byte) (d : Geometry) : (d.decodeFrom s).fresh = d.fresh := by
  unfold Geometry.decodeFrom
  rw [decodeBody_fresh, afterHeader_fresh]

theorem SRID_of_not_hasSRID (d : Geometry) (h : d.hasSRID = false) : d.SRID? = none := by
  cases d <;> first | rfl | simp [Geometry.hasSRID] at h

theorem sridBytes_decodeFrom (s : List Byte) (d : Geometry)
    (hbit : (wireTypeCode s).testBit 29 = d.hasSRID) (hoff : wireBodyOffset s ≤ s.length) :
    (d.decodeFrom s).sridBytes (wireOrder s) = (s.drop 5).take (wireBodyOffset s - 5) := by
  unfold Geometry.sridBytes Geometry.decodeFrom
  rw [decodeBody_SRID]
  cases hs : d.hasSRID
  · rw [hs] at hbit
    have h0 : wireBodyOffset s = 5 := by
      simp [wireBodyOffset, hbit]
    have h1 : d.afterHeader s = d := by
      simp [Geometry.afterHeader, hbit]
    rw [h1, SRID_of_not_hasSRID d hs, h0]
    rfl
  · rw [hs] at hbit
    have h0 := wireBodyOffset_of_bit s hbit
    rw [h0] at hoff
    have h4 : ((s.drop 5).take 4).length = 4 := by
      rw [List.length_take, List.length_drop]
      omega
    rw [afterHeader_of_bit d s hbit, withSRID_SRID d _ hs, h0]
    show (wireOrder s).PutUint32 (uint32OfInt32 (wireSRID s)) = (s.drop 5).take 4
    unfold wireSRID
    rw [uint32OfInt32_int32OfUint32 _ (Uint32_lt _ _ h4), PutUint32_Uint32 _ _ h4]

theorem wire_decodeFrom (s : List Byte) (d : Geometry) (hacc : d.accepts s)
    (hty : wireTypeCode s = d.GetType) (hend : s.length = wireEnd s d) :
    (d.decodeFrom s).wire (wireOrder s) = s := by
  obtain ⟨hm, _, _, hle⟩ := hacc
  have hbit : (wireTypeCode s).testBit 29 = d.hasSRID := by
    rw [hty, GetType_testBit]
  have h5 := wireBodyOffset_ge s
  unfold wireEnd at hle hend
  have hoff : wireBodyOffset s ≤ s.length := by omega
  have hT : (d.decodeFrom s).GetType = wireTypeCode s := by
    rw [hty]
    exact sameType_GetType _ _ (decodeFrom_fresh s d)
  have h4 : ((s.drop 1).take 4).length = 4 := by
    rw [List.length_take, List.length_drop]
    omega
  have hP : (wireOrder s).PutUint32 (d.decodeFrom s).GetType = (s.drop 1).take 4 := by
    rw [hT]
    exact PutUint32_Uint32 _ _ h4
  have hS := sridBytes_decodeFrom s d hbit hoff
  have hB : (d.decodeFrom s).body (wireOrder s) = s.drop (wireBodyOffset s) := by
    unfold Geometry.decodeFrom
    rw [body_decodeBody _ _ _
      (by rw [afterHeader_bodySize, List.length_drop]; omega), afterHeader_bodySize]
    apply List.take_of_length_le
    rw [List.length_drop]
    omega
  have hD : s.drop (wireBodyOffset s) = (s.drop 5).drop (wireBodyOffset s - 5) := by
    rw [List.drop_drop]
    congr 1
    omega
  unfold Geometry.wire
  rw [hP, hS, hB, hD, List.take_append_drop]
  exact (stream_eq s hm).symm

/-! ## Encoding a decoded value: claims -/

/-- C27. Re-encoding a canonical stream reproduces it: for each of the sixteen types and
every byte stream that starts with the marker `0x01`, carries exactly the type code of
the type, and decodes by `ReadEWKB` into a destination of the type, a fresh one
included, without error and with no byte left after the body, `WriteEWKB` of the decoded
value returns exactly the stream (coordinates being 64-bit patterns). -/
theorem WriteEWKB_ReadEWKB (mem : Nat) (s : List Byte) (d : Geometry)
    (hmark : s.head? = some wkbNDR) (hty : wireTypeCode s = d.GetType)
    (hok : (ReadEWKB mem s d).err = none) (hend : (ReadEWKB mem s d).reader = []) :
    WriteEWKB (ReadEWKB mem s d).dst = .ok s := by
  have hacc := accepts_of_ok mem s d hok
  have hr := ReadEWKB_of_accepts mem s d hacc
  rw [hr] at hend ⊢
  have hlen : s.length = wireEnd s d := by
    have h1 := hacc.2.2.2
    have h2 := congrArg List.length hend
    simp only [List.length_drop, List.length_nil] at h2
    omega
  have ho : wireOrder s = .LittleEndian := by
    unfold wireOrder
    rw [hmark]
    rfl
  have hw := wire_decodeFrom s d hacc hty hlen
  rw [ho] at hw
  rw [WriteEWKB_eq, hw]

/-- C27, at the sample stream of a `LineStringS` with SRID 4326 and no point, decoded
into a fresh `LineStringS`. -/
theorem WriteEWKB_ReadEWKB_witness :
    sampleLineStringSRID.head? = some wkbNDR
    ∧ wireTypeCode sampleLineStringSRID = (Geometry.lineStringS ⟨0, []⟩).GetType
    ∧ (ReadEWKB 0 sampleLineStringSRID (.lineStringS ⟨0, []⟩)).err = none
    ∧ (ReadEWKB 0 sampleLineStringSRID (.lineStringS ⟨0, []⟩)).reader = []
    ∧ WriteEWKB (ReadEWKB 0 sampleLineStringSRID (.lineStringS ⟨0, []⟩)).dst
        = .ok sampleLineStringSRID :=
  ⟨by decide, by decide, by decide, by decide,
    WriteEWKB_ReadEWKB 0 sampleLineStringSRID (.lineStringS ⟨0, []⟩) (by decide) (by decide)
      (by decide) (by decide)⟩

end Postgis
